import Mathlib

/-! esp32ModbusRTU: frame codec, CRC-16/Modbus and priority scheduler.

A shallow embedding of `src/ModbusMessage.cpp` and of the queue handling of
`src/esp32ModbusRTU.cpp`, followed by the properties proved about them.

Conventions of the embedding:
* `uint8_t`, `uint16_t` and `size_t` values are natural numbers; every place
  where the source narrows a value to `uint8_t` or `uint16_t` carries an
  explicit `% 256` or `% 65536`.
* A message buffer is the list of the `_length` allocated cells; `_index` is
  the number of cells written so far.
* A FreeRTOS queue is a bounded FIFO list of requests; `nullptr` handles are
  `none`.
-/

namespace esp32Modbus

/-! ## esp32ModbusTypeDefs.h -/

/-- Function code `READ_COIL`. -/
def READ_COIL : Nat := 0x01
/-- Function code `READ_DISCR_INPUT`. -/
def READ_DISCR_INPUT : Nat := 0x02
/-- Function code `READ_HOLD_REGISTER`. -/
def READ_HOLD_REGISTER : Nat := 0x03
/-- Function code `READ_INPUT_REGISTER`. -/
def READ_INPUT_REGISTER : Nat := 0x04
/-- Function code `WRITE_COIL`. -/
def WRITE_COIL : Nat := 0x05
/-- Function code `WRITE_HOLD_REGISTER`. -/
def WRITE_HOLD_REGISTER : Nat := 0x06
/-- Function code `WRITE_MULT_COILS`. -/
def WRITE_MULT_COILS : Nat := 0x0F
/-- Function code `WRITE_MULT_REGISTERS`. -/
def WRITE_MULT_REGISTERS : Nat := 0x10
/-- Function code `READ_WRITE_MULT_REGISTERS`. -/
def READ_WRITE_MULT_REGISTERS : Nat := 0x17

/-- Error value `SUCCESS`. -/
def SUCCESS : Nat := 0x00
/-- Error value `TIMEOUT`. -/
def TIMEOUT : Nat := 0xE0
/-- Error value `INVALID_SLAVE`. -/
def INVALID_SLAVE : Nat := 0xE1
/-- Error value `INVALID_FUNCTION`. -/
def INVALID_FUNCTION : Nat := 0xE2
/-- Error value `CRC_ERROR`. -/
def CRC_ERROR : Nat := 0xE3
/-- Error value `COMM_ERROR`. -/
def COMM_ERROR : Nat := 0xE4
/-- Error value `INVALID_PARAMETER`. -/
def INVALID_PARAMETER : Nat := 0xE5
/-- Error value `QUEUE_FULL`. -/
def QUEUE_FULL : Nat := 0xE6
/-- Error value `MEMORY_ALLOCATION_FAILED`. -/
def MEMORY_ALLOCATION_FAILED : Nat := 0xE7
/-- Error value `INVALID_RESPONSE`. -/
def INVALID_RESPONSE : Nat := 0xE8

/-- Priority `EMERGENCY` (an `uint8_t` enumerator). -/
def EMERGENCY : Nat := 0
/-- Priority `SENSOR`. -/
def SENSOR : Nat := 1
/-- Priority `RELAY`. -/
def RELAY : Nat := 2
/-- Priority `STATUS`. -/
def STATUS : Nat := 3

end esp32Modbus

namespace esp32ModbusRTUInternals

/-! ## Constants of ModbusMessage.h -/

/-- Constant `MODBUS_ERROR_FLAG`. -/
def MODBUS_ERROR_FLAG : Nat := 0x80
/-- Constant `MODBUS_EXCEPTION_RESPONSE_LENGTH`. -/
def MODBUS_EXCEPTION_RESPONSE_LENGTH : Nat := 5
/-- Constant `MODBUS_MIN_RESPONSE_LENGTH`. -/
def MODBUS_MIN_RESPONSE_LENGTH : Nat := 5
/-- Constant `MODBUS_CRC_LENGTH`. -/
def MODBUS_CRC_LENGTH : Nat := 2
/-- Constant `MODBUS_COIL_ON`. -/
def MODBUS_COIL_ON : Nat := 0xFF00
/-- Constant `MODBUS_COIL_OFF`. -/
def MODBUS_COIL_OFF : Nat := 0x0000

/-! ## CRC16 (ModbusMessage.cpp, lines 36-89) -/

/-- The table `crcHiTable` of the source. -/
def crcHiTable : List Nat :=
  [
   0x00, 0xC1, 0x81, 0x40, 0x01, 0xC0, 0x80, 0x41, 0x01, 0xC0, 0x80, 0x41, 0x00, 0xC1, 0x81, 0x40,
   0x01, 0xC0, 0x80, 0x41, 0x00, 0xC1, 0x81, 0x40, 0x00, 0xC1, 0x81, 0x40, 0x01, 0xC0, 0x80, 0x41,
   0x01, 0xC0, 0x80, 0x41, 0x00, 0xC1, 0x81, 0x40, 0x00, 0xC1, 0x81, 0x40, 0x01, 0xC0, 0x80, 0x41,
   0x00, 0xC1, 0x81, 0x40, 0x01, 0xC0, 0x80, 0x41, 0x01, 0xC0, 0x80, 0x41, 0x00, 0xC1, 0x81, 0x40,
   0x01, 0xC0, 0x80, 0x41, 0x00, 0xC1, 0x81, 0x40, 0x00, 0xC1, 0x81, 0x40, 0x01, 0xC0, 0x80, 0x41,
   0x00, 0xC1, 0x81, 0x40, 0x01, 0xC0, 0x80, 0x41, 0x01, 0xC0, 0x80, 0x41, 0x00, 0xC1, 0x81, 0x40,
   0x00, 0xC1, 0x81, 0x40, 0x01, 0xC0, 0x80, 0x41, 0x01, 0xC0, 0x80, 0x41, 0x00, 0xC1, 0x81, 0x40,
   0x01, 0xC0, 0x80, 0x41, 0x00, 0xC1, 0x81, 0x40, 0x00, 0xC1, 0x81, 0x40, 0x01, 0xC0, 0x80, 0x41,
   0x01, 0xC0, 0x80, 0x41, 0x00, 0xC1, 0x81, 0x40, 0x00, 0xC1, 0x81, 0x40, 0x01, 0xC0, 0x80, 0x41,
   0x00, 0xC1, 0x81, 0x40, 0x01, 0xC0, 0x80, 0x41, 0x01, 0xC0, 0x80, 0x41, 0x00, 0xC1, 0x81, 0x40,
   0x00, 0xC1, 0x81, 0x40, 0x01, 0xC0, 0x80, 0x41, 0x01, 0xC0, 0x80, 0x41, 0x00, 0xC1, 0x81, 0x40,
   0x01, 0xC0, 0x80, 0x41, 0x00, 0xC1, 0x81, 0x40, 0x00, 0xC1, 0x81, 0x40, 0x01, 0xC0, 0x80, 0x41,
   0x00, 0xC1, 0x81, 0x40, 0x01, 0xC0, 0x80, 0x41, 0x01, 0xC0, 0x80, 0x41, 0x00, 0xC1, 0x81, 0x40,
   0x01, 0xC0, 0x80, 0x41, 0x00, 0xC1, 0x81, 0x40, 0x00, 0xC1, 0x81, 0x40, 0x01, 0xC0, 0x80, 0x41,
   0x01, 0xC0, 0x80, 0x41, 0x00, 0xC1, 0x81, 0x40, 0x00, 0xC1, 0x81, 0x40, 0x01, 0xC0, 0x80, 0x41,
   0x00, 0xC1, 0x81, 0x40, 0x01, 0xC0, 0x80, 0x41, 0x01, 0xC0, 0x80, 0x41, 0x00, 0xC1, 0x81, 0x40]

/-- The table `crcLoTable` of the source. -/
def crcLoTable : List Nat :=
  [
   0x00, 0xC0, 0xC1, 0x01, 0xC3, 0x03, 0x02, 0xC2, 0xC6, 0x06, 0x07, 0xC7, 0x05, 0xC5, 0xC4, 0x04,
   0xCC, 0x0C, 0x0D, 0xCD, 0x0F, 0xCF, 0xCE, 0x0E, 0x0A, 0xCA, 0xCB, 0x0B, 0xC9, 0x09, 0x08, 0xC8,
   0xD8, 0x18, 0x19, 0xD9, 0x1B, 0xDB, 0xDA, 0x1A, 0x1E, 0xDE, 0xDF, 0x1F, 0xDD, 0x1D, 0x1C, 0xDC,
   0x14, 0xD4, 0xD5, 0x15, 0xD7, 0x17, 0x16, 0xD6, 0xD2, 0x12, 0x13, 0xD3, 0x11, 0xD1, 0xD0, 0x10,
   0xF0, 0x30, 0x31, 0xF1, 0x33, 0xF3, 0xF2, 0x32, 0x36, 0xF6, 0xF7, 0x37, 0xF5, 0x35, 0x34, 0xF4,
   0x3C, 0xFC, 0xFD, 0x3D, 0xFF, 0x3F, 0x3E, 0xFE, 0xFA, 0x3A, 0x3B, 0xFB, 0x39, 0xF9, 0xF8, 0x38,
   0x28, 0xE8, 0xE9, 0x29, 0xEB, 0x2B, 0x2A, 0xEA, 0xEE, 0x2E, 0x2F, 0xEF, 0x2D, 0xED, 0xEC, 0x2C,
   0xE4, 0x24, 0x25, 0xE5, 0x27, 0xE7, 0xE6, 0x26, 0x22, 0xE2, 0xE3, 0x23, 0xE1, 0x21, 0x20, 0xE0,
   0xA0, 0x60, 0x61, 0xA1, 0x63, 0xA3, 0xA2, 0x62, 0x66, 0xA6, 0xA7, 0x67, 0xA5, 0x65, 0x64, 0xA4,
   0x6C, 0xAC, 0xAD, 0x6D, 0xAF, 0x6F, 0x6E, 0xAE, 0xAA, 0x6A, 0x6B, 0xAB, 0x69, 0xA9, 0xA8, 0x68,
   0x78, 0xB8, 0xB9, 0x79, 0xBB, 0x7B, 0x7A, 0xBA, 0xBE, 0x7E, 0x7F, 0xBF, 0x7D, 0xBD, 0xBC, 0x7C,
   0xB4, 0x74, 0x75, 0xB5, 0x77, 0xB7, 0xB6, 0x76, 0x72, 0xB2, 0xB3, 0x73, 0xB1, 0x71, 0x70, 0xB0,
   0x50, 0x90, 0x91, 0x51, 0x93, 0x53, 0x52, 0x92, 0x96, 0x56, 0x57, 0x97, 0x55, 0x95, 0x94, 0x54,
   0x9C, 0x5C, 0x5D, 0x9D, 0x5F, 0x9F, 0x9E, 0x5E, 0x5A, 0x9A, 0x9B, 0x5B, 0x99, 0x59, 0x58, 0x98,
   0x88, 0x48, 0x49, 0x89, 0x4B, 0x8B, 0x8A, 0x4A, 0x4E, 0x8E, 0x8F, 0x4F, 0x8D, 0x4D, 0x4C, 0x8C,
   0x44, 0x84, 0x85, 0x45, 0x87, 0x47, 0x46, 0x86, 0x82, 0x42, 0x43, 0x83, 0x41, 0x81, 0x80, 0x40]

/-- One iteration of the `while (len--)` loop of `CRC16`, on the pair
`(crcHi, crcLo)`; `index` is a `uint8_t`. -/
def crcStep (st : Nat × Nat) (b : Nat) : Nat × Nat :=
  let index := (st.2 ^^^ b) % 256
  ((crcLoTable.getD index 0) % 256, (st.1 ^^^ crcHiTable.getD index 0) % 256)

/-- The loop of `CRC16`: reads `len` bytes starting at `msg`. Reading past the last
cell of the array is undefined in the source; the loop stops there. -/
def crcLoop : List Nat → Nat → Nat × Nat → Nat × Nat
  | _, 0, st => st
  | [], _ + 1, st => st
  | b :: rest, len + 1, st => crcLoop rest len (crcStep st b)

/-- The function `CRC16(msg, len)`: returns `crcHi << 8 | crcLo`. -/
def CRC16 (msg : List Nat) (len : Nat) : Nat :=
  let st := crcLoop msg len (0xFF, 0xFF)
  ((st.1 <<< 8) ||| st.2) % 65536

/-- The function `low`. -/
def low (x : Nat) : Nat := x &&& 0xff

/-- The function `high`. -/
def high (x : Nat) : Nat := (x >>> 8) &&& 0xff

/-- The function `make_word`. -/
def make_word (hi lo : Nat) : Nat := ((hi <<< 8) ||| lo) % 65536

/-! ### Bit-by-bit CRC-16/Modbus, as the specification words it -/

/-- Shift right by one and XOR with 0xA001 when the bit shifted out was 1. -/
def crcRefBit (crc : Nat) : Nat :=
  if crc % 2 = 1 then (crc >>> 1) ^^^ 0xA001 else crc >>> 1

/-- Eight shift steps in a row. -/
def crcRefBit8 (x : Nat) : Nat :=
  crcRefBit (crcRefBit (crcRefBit (crcRefBit (crcRefBit (crcRefBit (crcRefBit (crcRefBit x)))))))

/-- XOR the byte into the low byte, then eight shift steps. -/
def crcRefByte (crc b : Nat) : Nat :=
  crcRefBit (crcRefBit (crcRefBit (crcRefBit (crcRefBit (crcRefBit (crcRefBit (crcRefBit
    (crc ^^^ b))))))))

/-- The reference CRC-16/Modbus: start from 0xFFFF, no final XOR. -/
def crcRef (msg : List Nat) : Nat :=
  msg.foldl crcRefByte 0xFFFF

/-! ## ModbusMessage -/

/-- The class `ModbusMessage`: `_buffer` holds the `_length` allocated cells,
`_index` counts the cells written. -/
structure ModbusMessage where
  _buffer : List Nat
  _length : Nat
  _index : Nat
deriving DecidableEq, Repr

/-- The constructor `ModbusMessage(uint8_t length)`: the argument is narrowed
to `uint8_t`, raised to the minimum of 5, and the cells are zeroed. -/
def ModbusMessage.new (length : Nat) : ModbusMessage :=
  let length8 := length % 256
  let len := if length8 < MODBUS_MIN_RESPONSE_LENGTH then MODBUS_MIN_RESPONSE_LENGTH else length8
  let len := if len > 255 then 255 else len
  { _buffer := List.replicate len 0, _length := len, _index := 0 }

/-- The method `getMessage`. -/
def ModbusMessage.getMessage (m : ModbusMessage) : List Nat := m._buffer

/-- The method `getSize`. -/
def ModbusMessage.getSize (m : ModbusMessage) : Nat := m._index

/-- The method `add(uint8_t value)`: a full buffer is left alone. The index
stays below `_length`, itself a `uint8_t`, so `_index++` does not wrap. -/
def ModbusMessage.add (m : ModbusMessage) (value : Nat) : ModbusMessage :=
  if m._index >= m._length then m
  else { m with _buffer := m._buffer.set m._index (value % 256), _index := m._index + 1 }

/-- The bytes stored so far: the first `_index` cells of the buffer. -/
def ModbusMessage.stored (m : ModbusMessage) : List Nat := m._buffer.take m._index

/-- A run of `add` calls, one per value of the list, in order. -/
def ModbusMessage.addMany (m : ModbusMessage) (values : List Nat) : ModbusMessage :=
  values.foldl ModbusMessage.add m

/-- The pattern shared by the request constructors: a run of `add` calls, then
`CRC16` over the buffer for the length of the run, then `add` of its low and high byte. -/
def ModbusMessage.addManyWithCRC (m : ModbusMessage) (run : List Nat) : ModbusMessage :=
  let m := m.addMany run
  let CRC := CRC16 m._buffer run.length
  (m.add (low CRC)).add (high CRC)

/-! ## ModbusRequest and its nine subclasses -/

/-- The dynamic type of a request, which selects the override of the virtual
method `responseLength`. -/
inductive RequestClass where
  | Request01 | Request02 | Request03 | Request04 | Request05
  | Request06 | Request0F | Request16 | Request17
deriving DecidableEq, Repr

/-- The class `ModbusRequest`. -/
structure ModbusRequest extends ModbusMessage where
  _slaveAddress : Nat
  _functionCode : Nat
  _address : Nat
  _byteCount : Nat
  _priority : Nat
  cls : RequestClass
deriving DecidableEq, Repr

/-- The constructor `ModbusRequest(uint8_t length)`, for the subclass `cls`. -/
def ModbusRequest.new (cls : RequestClass) (length : Nat) : ModbusRequest :=
  { toModbusMessage := ModbusMessage.new length
    _slaveAddress := 0, _functionCode := 0, _address := 0, _byteCount := 0
    _priority := esp32Modbus.RELAY, cls := cls }

/-- The inherited method `add` on a request. -/
def ModbusRequest.add (r : ModbusRequest) (value : Nat) : ModbusRequest :=
  { r with toModbusMessage := r.toModbusMessage.add value }

/-- The method `getAddress`. -/
def ModbusRequest.getAddress (r : ModbusRequest) : Nat := r._address
/-- The method `getSlaveAddress`. -/
def ModbusRequest.getSlaveAddress (r : ModbusRequest) : Nat := r._slaveAddress
/-- The method `getFunctionCode`. -/
def ModbusRequest.getFunctionCode (r : ModbusRequest) : Nat := r._functionCode
/-- The method `getPriority`. -/
def ModbusRequest.getPriority (r : ModbusRequest) : Nat := r._priority
/-- The method `setPriority`. -/
def ModbusRequest.setPriority (r : ModbusRequest) (priority : Nat) : ModbusRequest :=
  { r with _priority := priority }

/-- The constructor `ModbusRequest01` (read coils). -/
def ModbusRequest01 (slaveAddress address numberCoils : Nat) : ModbusRequest :=
  let r := ModbusRequest.new .Request01 8
  let r := { r with _slaveAddress := slaveAddress, _functionCode := esp32Modbus.READ_COIL,
                    _address := address, _byteCount := ((numberCoils + 7) / 8) % 65536 }
  let r := r.add r._slaveAddress
  let r := r.add r._functionCode
  let r := r.add (high r._address)
  let r := r.add (low r._address)
  let r := r.add (high numberCoils)
  let r := r.add (low numberCoils)
  let CRC := CRC16 r._buffer 6
  let r := r.add (low CRC)
  r.add (high CRC)

/-- The constructor `ModbusRequest02` (read discrete inputs). -/
def ModbusRequest02 (slaveAddress address numberCoils : Nat) : ModbusRequest :=
  let r := ModbusRequest.new .Request02 8
  let r := { r with _slaveAddress := slaveAddress, _functionCode := esp32Modbus.READ_DISCR_INPUT,
                    _address := address, _byteCount := ((numberCoils + 7) / 8) % 65536 }
  let r := r.add r._slaveAddress
  let r := r.add r._functionCode
  let r := r.add (high r._address)
  let r := r.add (low r._address)
  let r := r.add (high numberCoils)
  let r := r.add (low numberCoils)
  let CRC := CRC16 r._buffer 6
  let r := r.add (low CRC)
  r.add (high CRC)

/-- The constructor `ModbusRequest03` (read holding registers). -/
def ModbusRequest03 (slaveAddress address numberRegisters : Nat) : ModbusRequest :=
  let r := ModbusRequest.new .Request03 8
  let r := { r with _slaveAddress := slaveAddress, _functionCode := esp32Modbus.READ_HOLD_REGISTER,
                    _address := address, _byteCount := (numberRegisters * 2) % 65536 }
  let r := r.add r._slaveAddress
  let r := r.add r._functionCode
  let r := r.add (high r._address)
  let r := r.add (low r._address)
  let r := r.add (high numberRegisters)
  let r := r.add (low numberRegisters)
  let CRC := CRC16 r._buffer 6
  let r := r.add (low CRC)
  r.add (high CRC)

/-- The constructor `ModbusRequest04` (read input registers). -/
def ModbusRequest04 (slaveAddress address numberRegisters : Nat) : ModbusRequest :=
  let r := ModbusRequest.new .Request04 8
  let r := { r with _slaveAddress := slaveAddress, _functionCode := esp32Modbus.READ_INPUT_REGISTER,
                    _address := address, _byteCount := (numberRegisters * 2) % 65536 }
  let r := r.add r._slaveAddress
  let r := r.add r._functionCode
  let r := r.add (high r._address)
  let r := r.add (low r._address)
  let r := r.add (high numberRegisters)
  let r := r.add (low numberRegisters)
  let CRC := CRC16 r._buffer 6
  let r := r.add (low CRC)
  r.add (high CRC)

/-- The constructor `ModbusRequest05` (write single coil). -/
def ModbusRequest05 (slaveAddress address : Nat) (value : Bool) : ModbusRequest :=
  let r := ModbusRequest.new .Request05 8
  let r := { r with _slaveAddress := slaveAddress, _functionCode := esp32Modbus.WRITE_COIL,
                    _address := address, _byteCount := 2 }
  let r := r.add r._slaveAddress
  let r := r.add r._functionCode
  let r := r.add (high r._address)
  let r := r.add (low r._address)
  let coilValue := if value then MODBUS_COIL_ON else MODBUS_COIL_OFF
  let r := r.add (high coilValue)
  let r := r.add (low coilValue)
  let CRC := CRC16 r._buffer 6
  let r := r.add (low CRC)
  r.add (high CRC)

/-- The constructor `ModbusRequest06` (write single holding register). -/
def ModbusRequest06 (slaveAddress address data : Nat) : ModbusRequest :=
  let r := ModbusRequest.new .Request06 8
  let r := { r with _slaveAddress := slaveAddress, _functionCode := esp32Modbus.WRITE_HOLD_REGISTER,
                    _address := address, _byteCount := 2 }
  let r := r.add r._slaveAddress
  let r := r.add r._functionCode
  let r := r.add (high r._address)
  let r := r.add (low r._address)
  let r := r.add (high data)
  let r := r.add (low data)
  let CRC := CRC16 r._buffer 6
  let r := r.add (low CRC)
  r.add (high CRC)

/-- The body that the constructors for FC 01 to 06 have in common, once the fields are
set: slave, function code, address, a 16-bit word, CRC. -/
def ModbusRequest.emit8 (r : ModbusRequest) (word : Nat) : ModbusRequest :=
  let r := r.add r._slaveAddress
  let r := r.add r._functionCode
  let r := r.add (high r._address)
  let r := r.add (low r._address)
  let r := r.add (high word)
  let r := r.add (low word)
  let CRC := CRC16 r._buffer 6
  let r := r.add (low CRC)
  r.add (high CRC)

/-- The inner loop of `ModbusRequest0F`: `for (bit = 0; bit < 8 && i*8+bit <
numberCoils; bit++)`; the first argument is `8 - bit`. Reading `values` past
its end is undefined in the source and yields `false` here. -/
def packBits (values : List Bool) (numberCoils i : Nat) : Nat → Nat → Nat → Nat
  | 0, _, byte => byte
  | fuel + 1, bit, byte =>
    if i * 8 + bit < numberCoils then
      packBits values numberCoils i fuel (bit + 1)
        (if values.getD (i * 8 + bit) false then (byte ||| (1 <<< bit)) % 256 else byte)
    else byte

/-- The constructor `ModbusRequest0F` (write multiple coils). -/
def ModbusRequest0F (slaveAddress address numberCoils : Nat) (values : List Bool) :
    ModbusRequest :=
  let r := ModbusRequest.new .Request0F (9 + ((numberCoils + 7) / 8))
  let r := { r with _slaveAddress := slaveAddress, _functionCode := esp32Modbus.WRITE_MULT_COILS,
                    _address := address, _byteCount := ((numberCoils + 7) / 8) % 65536 }
  let r := r.add r._slaveAddress
  let r := r.add r._functionCode
  let r := r.add (high r._address)
  let r := r.add (low r._address)
  let r := r.add (high numberCoils)
  let r := r.add (low numberCoils)
  let r := r.add r._byteCount
  let r := (List.range r._byteCount).foldl
    (fun (acc : ModbusRequest) i => acc.add (packBits values numberCoils i 8 0 0)) r
  let CRC := CRC16 r._buffer (7 + r._byteCount)
  let r := r.add (low CRC)
  r.add (high CRC)

/-- The constructor `ModbusRequest16` (write multiple holding registers).
Reading `data` past its end is undefined in the source and yields 0 here. -/
def ModbusRequest16 (slaveAddress address numberRegisters : Nat) (data : List Nat) :
    ModbusRequest :=
  let r := ModbusRequest.new .Request16 (9 + (numberRegisters * 2))
  let r := { r with _slaveAddress := slaveAddress,
                    _functionCode := esp32Modbus.WRITE_MULT_REGISTERS,
                    _address := address, _byteCount := (numberRegisters * 2) % 65536 }
  let r := r.add r._slaveAddress
  let r := r.add r._functionCode
  let r := r.add (high r._address)
  let r := r.add (low r._address)
  let r := r.add (high numberRegisters)
  let r := r.add (low numberRegisters)
  let r := r.add r._byteCount
  let r := (List.range r._byteCount).foldl
    (fun (acc : ModbusRequest) i => acc.add (data.getD i 0)) r
  let CRC := CRC16 r._buffer (7 + r._byteCount)
  let r := r.add (low CRC)
  r.add (high CRC)

/-- The constructor `ModbusRequest17` (read/write multiple registers).
Reading `writeData` past its end is undefined in the source and yields 0 here. -/
def ModbusRequest17 (slaveAddress readAddress readCount writeAddress writeCount : Nat)
    (writeData : List Nat) : ModbusRequest :=
  let r := ModbusRequest.new .Request17 (11 + (writeCount * 2))
  let r := { r with _slaveAddress := slaveAddress,
                    _functionCode := esp32Modbus.READ_WRITE_MULT_REGISTERS,
                    _address := readAddress, _byteCount := (readCount * 2) % 65536 }
  let r := r.add r._slaveAddress
  let r := r.add r._functionCode
  let r := r.add (high readAddress)
  let r := r.add (low readAddress)
  let r := r.add (high readCount)
  let r := r.add (low readCount)
  let r := r.add (high writeAddress)
  let r := r.add (low writeAddress)
  let r := r.add (high writeCount)
  let r := r.add (low writeCount)
  let r := r.add (writeCount * 2)
  let r := (List.range writeCount).foldl
    (fun (acc : ModbusRequest) i =>
      (acc.add (high (writeData.getD i 0))).add (low (writeData.getD i 0))) r
  let CRC := CRC16 r._buffer (11 + (writeCount * 2) - 2)
  let r := r.add (low CRC)
  r.add (high CRC)

/-- The virtual method `responseLength` (a `size_t`), by dynamic type. -/
def ModbusRequest.responseLength (r : ModbusRequest) : Nat :=
  match r.cls with
  | .Request01 => 5 + r._byteCount
  | .Request02 => 5 + r._byteCount
  | .Request03 => 5 + r._byteCount
  | .Request04 => 5 + r._byteCount
  | .Request05 => 8
  | .Request06 => 8
  | .Request0F => 8
  | .Request16 => 8
  | .Request17 => 5 + r._byteCount

/-! ## ModbusResponse -/

/-- The class `ModbusResponse`; `_request` is the request it answers. -/
structure ModbusResponse extends ModbusMessage where
  _request : ModbusRequest
  _error : Nat
deriving DecidableEq, Repr

/-- The constructor `ModbusResponse(uint8_t length, ModbusRequest* request)`. -/
def ModbusResponse.new (length : Nat) (request : ModbusRequest) : ModbusResponse :=
  { toModbusMessage := ModbusMessage.new length, _request := request
    _error := esp32Modbus.SUCCESS }

/-- The inherited method `add` on a response. -/
def ModbusResponse.add (r : ModbusResponse) (value : Nat) : ModbusResponse :=
  { r with toModbusMessage := r.toModbusMessage.add value }

/-- The method `isComplete`. -/
def ModbusResponse.isComplete (r : ModbusResponse) : Bool :=
  if (r._buffer.getD 1 0 &&& MODBUS_ERROR_FLAG) ≠ 0 ∧
      r._index = MODBUS_EXCEPTION_RESPONSE_LENGTH then true
  else if r._index = r._request.responseLength then true
  else false

/-- The method `checkCRC`. -/
def ModbusResponse.checkCRC (r : ModbusResponse) : Bool :=
  let CRC := CRC16 r._buffer (r._length - MODBUS_CRC_LENGTH)
  if low CRC = r._buffer.getD (r._length - 2) 0 ∧ high CRC = r._buffer.getD (r._length - 1) 0
  then true else false

/-- The method `isSuccess`: returns the boolean and the response with `_error`
recorded. -/
def ModbusResponse.isSuccess (r : ModbusResponse) : Bool × ModbusResponse :=
  let e :=
    if !r.isComplete then esp32Modbus.TIMEOUT
    else if (r._buffer.getD 1 0 &&& MODBUS_ERROR_FLAG) ≠ 0 then r._buffer.getD 2 0
    else if !r.checkCRC then esp32Modbus.CRC_ERROR
    else if r._buffer.getD 0 0 ≠ r._request.getSlaveAddress then esp32Modbus.INVALID_SLAVE
    else if r._buffer.getD 1 0 ≠ r._request.getFunctionCode then esp32Modbus.INVALID_RESPONSE
    else esp32Modbus.SUCCESS
  (decide (e = esp32Modbus.SUCCESS), { r with _error := e })

/-- The method `getError`. -/
def ModbusResponse.getError (r : ModbusResponse) : Nat := r._error

/-- The method `getSlaveAddress`. -/
def ModbusResponse.getSlaveAddress (r : ModbusResponse) : Nat := r._buffer.getD 0 0

/-- The method `getFunctionCode`. -/
def ModbusResponse.getFunctionCode (r : ModbusResponse) : Nat := r._buffer.getD 1 0

/-- The offset into `_buffer` of the pointer that `getData` returns. -/
def ModbusResponse.getDataOffset (r : ModbusResponse) : Nat :=
  let fc := r.getFunctionCode
  if fc = esp32Modbus.WRITE_COIL ∨ fc = esp32Modbus.WRITE_HOLD_REGISTER then 2 else 3

/-- The method `getData`: the pointer `&_buffer[k]` is the buffer from cell `k` on. -/
def ModbusResponse.getData (r : ModbusResponse) : List Nat :=
  r._buffer.drop r.getDataOffset

/-- The method `getByteCount`. -/
def ModbusResponse.getByteCount (r : ModbusResponse) : Nat :=
  let fc := r.getFunctionCode
  if fc = esp32Modbus.WRITE_COIL ∨ fc = esp32Modbus.WRITE_HOLD_REGISTER then 4
  else r._buffer.getD 2 0

/-- The last two bytes of `frame` are the low byte, then the high byte, of `CRC16`
over the bytes before them. -/
def crcTrailerMatches (frame : List Nat) : Prop :=
  low (CRC16 frame (frame.length - 2)) = frame.getD (frame.length - 2) 0 ∧
  high (CRC16 frame (frame.length - 2)) = frame.getD (frame.length - 1) 0

instance (frame : List Nat) : Decidable (crcTrailerMatches frame) := by
  unfold crcTrailerMatches
  infer_instance

/-- The frame property of the request encoders: the stored frame starts with the slave
address and the function code and ends with the CRC of what precedes, low byte first. -/
def FrameHasHeadAndCRC (r : ModbusRequest) (slave fc : Nat) : Prop :=
  r.stored.getD 0 0 = slave ∧ r.stored.getD 1 0 = fc ∧ crcTrailerMatches r.stored

/-- The payload handed to the data handler: `getByteCount()` bytes from `getData()`. -/
def ModbusResponse.payload (r : ModbusResponse) : List Nat :=
  r.getData.take r.getByteCount

end esp32ModbusRTUInternals

/-! ## esp32ModbusRTU: queues and scheduler (esp32ModbusRTU.cpp) -/

open esp32ModbusRTUInternals

/-- Constant `EMERGENCY_QUEUE_SIZE`. -/
def EMERGENCY_QUEUE_SIZE : Nat := 4
/-- Constant `SENSOR_QUEUE_SIZE`. -/
def SENSOR_QUEUE_SIZE : Nat := 8
/-- Constant `RELAY_QUEUE_SIZE`. -/
def RELAY_QUEUE_SIZE : Nat := 12
/-- Constant `STATUS_QUEUE_SIZE`. -/
def STATUS_QUEUE_SIZE : Nat := 4
/-- Constant `TIMEOUT_MS`. -/
def TIMEOUT_MS : Nat := 5000
/-- Constant `MODBUS_MAX_REGISTERS`. -/
def MODBUS_MAX_REGISTERS : Nat := 125
/-- Constant `MODBUS_MAX_COILS`. -/
def MODBUS_MAX_COILS : Nat := 2000
/-- Constant `MODBUS_MAX_MESSAGE_SIZE`. -/
def MODBUS_MAX_MESSAGE_SIZE : Nat := 256

/-- A FreeRTOS queue of request pointers: a FIFO of at most `uxLength` items. -/
structure Queue where
  items : List ModbusRequest
  uxLength : Nat
deriving DecidableEq, Repr

/-- FreeRTOS `xQueueCreate`: an empty queue of the given length. -/
def xQueueCreate (uxQueueLength : Nat) : Queue :=
  { items := [], uxLength := uxQueueLength }

/-- FreeRTOS `xQueueSend` with a zero block time: appends at the tail, or fails
(`none`) when the queue is full. -/
def xQueueSend (q : Queue) (item : ModbusRequest) : Option Queue :=
  if q.items.length < q.uxLength then some { q with items := q.items ++ [item] } else none

/-- FreeRTOS `xQueueReceive` with a zero block time: removes the head, or fails
(`none`) when the queue is empty. -/
def xQueueReceive (q : Queue) : Option (ModbusRequest × Queue) :=
  match q.items with
  | [] => none
  | item :: rest => some (item, { q with items := rest })

/-- The fields of class `esp32ModbusRTU` that the scheduler uses. `_queues p`
is `none` for a null handle; `_task` tells whether the task handle is set;
`_onData` and `_onError` tell whether the handler holds a callable (a
default-constructed `std::function` does not). -/
structure esp32ModbusRTU where
  TimeOutValue : Nat
  _lastMillis : Nat
  _interval : Nat
  _rtsPin : Int
  _task : Bool
  _shutdown : Bool
  _queues : Fin 4 → Option Queue
  _onData : Bool
  _onError : Bool

namespace esp32ModbusRTU

/-- The constructor, when `xQueueCreate` succeeds for all four queues. -/
def new (rtsPin : Int) : esp32ModbusRTU :=
  { TimeOutValue := TIMEOUT_MS, _lastMillis := 0, _interval := 0, _rtsPin := rtsPin
    _task := false, _shutdown := false, _onData := false, _onError := false
    _queues := fun p =>
      match p with
      | 0 => some (xQueueCreate EMERGENCY_QUEUE_SIZE)
      | 1 => some (xQueueCreate SENSOR_QUEUE_SIZE)
      | 2 => some (xQueueCreate RELAY_QUEUE_SIZE)
      | 3 => some (xQueueCreate STATUS_QUEUE_SIZE) }

/-- The method `begin`. `baudRate` is the value of `_serial->baudRate()` and
`taskCreated` tells whether `xTaskCreatePinnedToCore` set the task handle. The pin
set-up is input/output only. A baud rate of 0 divides by zero in the source; the
quotient is 0 here. -/
def begin (self : esp32ModbusRTU) (baudRate : Nat) (taskCreated : Bool) : esp32ModbusRTU :=
  let allQueuesCreated := (List.finRange 4).all (fun i => (self._queues i).isSome)
  if !allQueuesCreated then self
  else
    let interval := 40000 / baudRate
    { self with _task := taskCreated, _interval := if interval = 0 then 1 else interval }

/-- The method `_addToQueue`; a null `request` is `none`. The priority enum has
underlying type `uint8_t`, so the cast to `queueIndex` keeps its value. -/
def _addToQueue (self : esp32ModbusRTU) (request : Option ModbusRequest) :
    Bool × esp32ModbusRTU :=
  match request with
  | none => (false, self)
  | some req =>
    let priority := req.getPriority
    let queueIndex := priority
    if h : queueIndex >= 4 then (false, self)
    else
      match self._queues ⟨queueIndex, Nat.lt_of_not_ge h⟩ with
      | none => (false, self)
      | some q =>
        if !self._task then (false, self)
        else
          match xQueueSend q req with
          | none => (false, self)
          | some q' =>
            (true, { self with
              _queues := Function.update self._queues ⟨queueIndex, Nat.lt_of_not_ge h⟩ (some q') })

/-- The loop of `_dequeueByPriority` over the priorities still to be tried. -/
def dequeueLoop (self : esp32ModbusRTU) : List (Fin 4) → Option ModbusRequest × esp32ModbusRTU
  | [] => (none, self)
  | priority :: more =>
    match self._queues priority with
    | none => dequeueLoop self more
    | some q =>
      match xQueueReceive q with
      | some (request, q') =>
        (some request, { self with _queues := Function.update self._queues priority (some q') })
      | none => dequeueLoop self more

/-- The method `_dequeueByPriority`: `for (priority = 0; priority < 4; priority++)`. -/
def _dequeueByPriority (self : esp32ModbusRTU) : Option ModbusRequest × esp32ModbusRTU :=
  dequeueLoop self [0, 1, 2, 3]

/-- The first statements of `_receive`: the response buffer is created with the
expected response length, capped at `MODBUS_MAX_MESSAGE_SIZE`. -/
def newResponse (request : ModbusRequest) : ModbusResponse :=
  let responseLen := request.responseLength
  let responseLen :=
    if responseLen > MODBUS_MAX_MESSAGE_SIZE then MODBUS_MAX_MESSAGE_SIZE else responseLen
  ModbusResponse.new responseLen request

/-- The response of `_receive` after the bytes `bytes` have been read from the serial
line and passed to `add`, in order. -/
def receiveBytes (request : ModbusRequest) (bytes : List Nat) : ModbusResponse :=
  bytes.foldl ModbusResponse.add (newResponse request)

/-- The requests waiting in queue `p` (none for a null handle). -/
def waiting (self : esp32ModbusRTU) (p : Fin 4) : List ModbusRequest :=
  match self._queues p with
  | none => []
  | some q => q.items

/-- Submitting the requests of a list one after the other through `_addToQueue`;
returns the results and the final state. -/
def addAll (self : esp32ModbusRTU) : List ModbusRequest → List Bool × esp32ModbusRTU
  | [] => ([], self)
  | r :: rs =>
    let (ok, self1) := self._addToQueue (some r)
    let (oks, self2) := addAll self1 rs
    (ok :: oks, self2)

/-- Calling `_dequeueByPriority` until it returns null, at most `fuel` times;
returns the requests in the order obtained and the final state. -/
def drain : Nat → esp32ModbusRTU → List ModbusRequest × esp32ModbusRTU
  | 0, self => ([], self)
  | fuel + 1, self =>
    match self._dequeueByPriority with
    | (none, self1) => ([], self1)
    | (some r, self1) =>
      let (rs, self2) := drain fuel self1
      (r :: rs, self2)

/-! ### The public submitters (esp32ModbusRTU.cpp, lines 192-347)

`new` does not return null, so the request handed to `_addToQueue` is `some`. A pointer
argument is `none` when null. The submitters that dereference a pointer without a null
check read an empty array for `none` (undefined in the source). -/

/-- The method `readCoils`. -/
def readCoils (self : esp32ModbusRTU) (slaveAddress address numberCoils : Nat) :
    Bool × esp32ModbusRTU :=
  let request := ModbusRequest01 slaveAddress address numberCoils
  self._addToQueue (some request)

/-- The method `readDiscreteInputs`. -/
def readDiscreteInputs (self : esp32ModbusRTU) (slaveAddress address numberCoils : Nat) :
    Bool × esp32ModbusRTU :=
  let request := ModbusRequest02 slaveAddress address numberCoils
  self._addToQueue (some request)

/-- The method `readHoldingRegisters`. -/
def readHoldingRegisters (self : esp32ModbusRTU) (slaveAddress address numberRegisters : Nat) :
    Bool × esp32ModbusRTU :=
  let request := ModbusRequest03 slaveAddress address numberRegisters
  self._addToQueue (some request)

/-- The method `readInputRegisters`. -/
def readInputRegisters (self : esp32ModbusRTU) (slaveAddress address numberRegisters : Nat) :
    Bool × esp32ModbusRTU :=
  let request := ModbusRequest04 slaveAddress address numberRegisters
  self._addToQueue (some request)

/-- The method `writeSingleCoil`. -/
def writeSingleCoil (self : esp32ModbusRTU) (slaveAddress address : Nat) (value : Bool) :
    Bool × esp32ModbusRTU :=
  let request := ModbusRequest05 slaveAddress address value
  self._addToQueue (some request)

/-- The method `writeSingleHoldingRegister`. -/
def writeSingleHoldingRegister (self : esp32ModbusRTU) (slaveAddress address data : Nat) :
    Bool × esp32ModbusRTU :=
  let request := ModbusRequest06 slaveAddress address data
  self._addToQueue (some request)

/-- The method `writeMultipleCoils`. -/
def writeMultipleCoils (self : esp32ModbusRTU) (slaveAddress address numberCoils : Nat)
    (values : Option (List Bool)) : Bool × esp32ModbusRTU :=
  if numberCoils = 0 ∨ numberCoils > MODBUS_MAX_COILS ∨ values = none then (false, self)
  else
    let request := ModbusRequest0F slaveAddress address numberCoils (values.getD [])
    self._addToQueue (some request)

/-- The method `writeMultHoldingRegisters`. -/
def writeMultHoldingRegisters (self : esp32ModbusRTU) (slaveAddress address numberRegisters : Nat)
    (data : Option (List Nat)) : Bool × esp32ModbusRTU :=
  if numberRegisters = 0 ∨ numberRegisters > MODBUS_MAX_REGISTERS ∨ data = none then (false, self)
  else
    let request := ModbusRequest16 slaveAddress address numberRegisters (data.getD [])
    self._addToQueue (some request)

/-- The method `readWriteMultipleRegisters`. -/
def readWriteMultipleRegisters (self : esp32ModbusRTU)
    (slaveAddress readAddress readCount writeAddress writeCount : Nat)
    (writeData : Option (List Nat)) : Bool × esp32ModbusRTU :=
  if readCount = 0 ∨ readCount > MODBUS_MAX_REGISTERS ∨
      writeCount = 0 ∨ writeCount > MODBUS_MAX_REGISTERS ∨ writeData = none then (false, self)
  else
    let request := ModbusRequest17 slaveAddress readAddress readCount writeAddress writeCount
      (writeData.getD [])
    self._addToQueue (some request)

/-- The method `readCoilsWithPriority`. -/
def readCoilsWithPriority (self : esp32ModbusRTU) (slaveAddress address numberCoils : Nat)
    (priority : Nat) : Bool × esp32ModbusRTU :=
  let request := ModbusRequest01 slaveAddress address numberCoils
  let request := request.setPriority priority
  self._addToQueue (some request)

/-- The method `readDiscreteInputsWithPriority`. -/
def readDiscreteInputsWithPriority (self : esp32ModbusRTU) (slaveAddress address numberCoils : Nat)
    (priority : Nat) : Bool × esp32ModbusRTU :=
  let request := ModbusRequest02 slaveAddress address numberCoils
  let request := request.setPriority priority
  self._addToQueue (some request)

/-- The method `readHoldingRegistersWithPriority`. -/
def readHoldingRegistersWithPriority (self : esp32ModbusRTU) (slaveAddress address numberRegisters : Nat)
    (priority : Nat) : Bool × esp32ModbusRTU :=
  let request := ModbusRequest03 slaveAddress address numberRegisters
  let request := request.setPriority priority
  self._addToQueue (some request)

/-- The method `readInputRegistersWithPriority`. -/
def readInputRegistersWithPriority (self : esp32ModbusRTU) (slaveAddress address numberRegisters : Nat)
    (priority : Nat) : Bool × esp32ModbusRTU :=
  let request := ModbusRequest04 slaveAddress address numberRegisters
  let request := request.setPriority priority
  self._addToQueue (some request)

/-- The method `writeSingleCoilWithPriority`. -/
def writeSingleCoilWithPriority (self : esp32ModbusRTU) (slaveAddress address : Nat)
    (value : Bool) (priority : Nat) : Bool × esp32ModbusRTU :=
  let request := ModbusRequest05 slaveAddress address value
  let request := request.setPriority priority
  self._addToQueue (some request)

/-- The method `writeSingleHoldingRegisterWithPriority`. -/
def writeSingleHoldingRegisterWithPriority (self : esp32ModbusRTU)
    (slaveAddress address data : Nat) (priority : Nat) : Bool × esp32ModbusRTU :=
  let request := ModbusRequest06 slaveAddress address data
  let request := request.setPriority priority
  self._addToQueue (some request)

/-- The method `writeMultipleCoilsWithPriority`: no parameter check in the source. -/
def writeMultipleCoilsWithPriority (self : esp32ModbusRTU)
    (slaveAddress address numberCoils : Nat) (values : Option (List Bool)) (priority : Nat) :
    Bool × esp32ModbusRTU :=
  let request := ModbusRequest0F slaveAddress address numberCoils (values.getD [])
  let request := request.setPriority priority
  self._addToQueue (some request)

/-- The method `writeMultHoldingRegistersWithPriority`: no parameter check in the source. -/
def writeMultHoldingRegistersWithPriority (self : esp32ModbusRTU)
    (slaveAddress address numberRegisters : Nat) (data : Option (List Nat)) (priority : Nat) :
    Bool × esp32ModbusRTU :=
  let request := ModbusRequest16 slaveAddress address numberRegisters (data.getD [])
  let request := request.setPriority priority
  self._addToQueue (some request)

/-- The method `readWriteMultipleRegistersWithPriority`. -/
def readWriteMultipleRegistersWithPriority (self : esp32ModbusRTU)
    (slaveAddress readAddress readCount writeAddress writeCount : Nat)
    (writeData : Option (List Nat)) (priority : Nat) : Bool × esp32ModbusRTU :=
  if readCount = 0 ∨ readCount > MODBUS_MAX_REGISTERS ∨
      writeCount = 0 ∨ writeCount > MODBUS_MAX_REGISTERS ∨ writeData = none then (false, self)
  else
    let request := ModbusRequest17 slaveAddress readAddress readCount writeAddress writeCount
      (writeData.getD [])
    let request := request.setPriority priority
    self._addToQueue (some request)

/-- A call of one of the eighteen public submitters, with its arguments. -/
inductive Submit where
  | readCoils (slaveAddress address numberCoils : Nat)
  | readDiscreteInputs (slaveAddress address numberCoils : Nat)
  | readHoldingRegisters (slaveAddress address numberRegisters : Nat)
  | readInputRegisters (slaveAddress address numberRegisters : Nat)
  | writeSingleCoil (slaveAddress address : Nat) (value : Bool)
  | writeSingleHoldingRegister (slaveAddress address data : Nat)
  | writeMultipleCoils (slaveAddress address numberCoils : Nat) (values : Option (List Bool))
  | writeMultHoldingRegisters (slaveAddress address numberRegisters : Nat)
      (data : Option (List Nat))
  | readWriteMultipleRegisters (slaveAddress readAddress readCount writeAddress writeCount : Nat)
      (writeData : Option (List Nat))
  | readCoilsWithPriority (slaveAddress address numberCoils priority : Nat)
  | readDiscreteInputsWithPriority (slaveAddress address numberCoils priority : Nat)
  | readHoldingRegistersWithPriority (slaveAddress address numberRegisters priority : Nat)
  | readInputRegistersWithPriority (slaveAddress address numberRegisters priority : Nat)
  | writeSingleCoilWithPriority (slaveAddress address : Nat) (value : Bool) (priority : Nat)
  | writeSingleHoldingRegisterWithPriority (slaveAddress address data priority : Nat)
  | writeMultipleCoilsWithPriority (slaveAddress address numberCoils : Nat)
      (values : Option (List Bool)) (priority : Nat)
  | writeMultHoldingRegistersWithPriority (slaveAddress address numberRegisters : Nat)
      (data : Option (List Nat)) (priority : Nat)
  | readWriteMultipleRegistersWithPriority
      (slaveAddress readAddress readCount writeAddress writeCount : Nat)
      (writeData : Option (List Nat)) (priority : Nat)
deriving DecidableEq, Repr

/-- Performing a call of a public submitter. -/
def submit (self : esp32ModbusRTU) : Submit → Bool × esp32ModbusRTU
  | .readCoils s a n => self.readCoils s a n
  | .readDiscreteInputs s a n => self.readDiscreteInputs s a n
  | .readHoldingRegisters s a n => self.readHoldingRegisters s a n
  | .readInputRegisters s a n => self.readInputRegisters s a n
  | .writeSingleCoil s a v => self.writeSingleCoil s a v
  | .writeSingleHoldingRegister s a d => self.writeSingleHoldingRegister s a d
  | .writeMultipleCoils s a n v => self.writeMultipleCoils s a n v
  | .writeMultHoldingRegisters s a n d => self.writeMultHoldingRegisters s a n d
  | .readWriteMultipleRegisters s ra rc wa wc d => self.readWriteMultipleRegisters s ra rc wa wc d
  | .readCoilsWithPriority s a n p => self.readCoilsWithPriority s a n p
  | .readDiscreteInputsWithPriority s a n p => self.readDiscreteInputsWithPriority s a n p
  | .readHoldingRegistersWithPriority s a n p => self.readHoldingRegistersWithPriority s a n p
  | .readInputRegistersWithPriority s a n p => self.readInputRegistersWithPriority s a n p
  | .writeSingleCoilWithPriority s a v p => self.writeSingleCoilWithPriority s a v p
  | .writeSingleHoldingRegisterWithPriority s a d p =>
    self.writeSingleHoldingRegisterWithPriority s a d p
  | .writeMultipleCoilsWithPriority s a n v p => self.writeMultipleCoilsWithPriority s a n v p
  | .writeMultHoldingRegistersWithPriority s a n d p =>
    self.writeMultHoldingRegistersWithPriority s a n d p
  | .readWriteMultipleRegistersWithPriority s ra rc wa wc d p =>
    self.readWriteMultipleRegistersWithPriority s ra rc wa wc d p

/-- The request that a call builds, with the priority it carries when handed to
`_addToQueue` (whether or not the call passes its parameter check). -/
def Submit.request : Submit → ModbusRequest
  | .readCoils s a n => ModbusRequest01 s a n
  | .readDiscreteInputs s a n => ModbusRequest02 s a n
  | .readHoldingRegisters s a n => ModbusRequest03 s a n
  | .readInputRegisters s a n => ModbusRequest04 s a n
  | .writeSingleCoil s a v => ModbusRequest05 s a v
  | .writeSingleHoldingRegister s a d => ModbusRequest06 s a d
  | .writeMultipleCoils s a n v => ModbusRequest0F s a n (v.getD [])
  | .writeMultHoldingRegisters s a n d => ModbusRequest16 s a n (d.getD [])
  | .readWriteMultipleRegisters s ra rc wa wc d => ModbusRequest17 s ra rc wa wc (d.getD [])
  | .readCoilsWithPriority s a n p => (ModbusRequest01 s a n).setPriority p
  | .readDiscreteInputsWithPriority s a n p => (ModbusRequest02 s a n).setPriority p
  | .readHoldingRegistersWithPriority s a n p => (ModbusRequest03 s a n).setPriority p
  | .readInputRegistersWithPriority s a n p => (ModbusRequest04 s a n).setPriority p
  | .writeSingleCoilWithPriority s a v p => (ModbusRequest05 s a v).setPriority p
  | .writeSingleHoldingRegisterWithPriority s a d p => (ModbusRequest06 s a d).setPriority p
  | .writeMultipleCoilsWithPriority s a n v p => (ModbusRequest0F s a n (v.getD [])).setPriority p
  | .writeMultHoldingRegistersWithPriority s a n d p =>
    (ModbusRequest16 s a n (d.getD [])).setPriority p
  | .readWriteMultipleRegistersWithPriority s ra rc wa wc d p =>
    (ModbusRequest17 s ra rc wa wc (d.getD [])).setPriority p

/-- The priority argument of a call; `none` for the submitters without one. -/
def Submit.priorityArg : Submit → Option Nat
  | .readCoilsWithPriority _ _ _ p => some p
  | .readDiscreteInputsWithPriority _ _ _ p => some p
  | .readHoldingRegistersWithPriority _ _ _ p => some p
  | .readInputRegistersWithPriority _ _ _ p => some p
  | .writeSingleCoilWithPriority _ _ _ p => some p
  | .writeSingleHoldingRegisterWithPriority _ _ _ p => some p
  | .writeMultipleCoilsWithPriority _ _ _ _ p => some p
  | .writeMultHoldingRegistersWithPriority _ _ _ _ p => some p
  | .readWriteMultipleRegistersWithPriority _ _ _ _ _ _ p => some p
  | _ => none

/-- The explicit-priority call that corresponds to a default-priority call, with the
priority given (an explicit-priority call is returned with its priority replaced). -/
def Submit.withPriority (priority : Nat) : Submit → Submit
  | .readCoils s a n => .readCoilsWithPriority s a n priority
  | .readDiscreteInputs s a n => .readDiscreteInputsWithPriority s a n priority
  | .readHoldingRegisters s a n => .readHoldingRegistersWithPriority s a n priority
  | .readInputRegisters s a n => .readInputRegistersWithPriority s a n priority
  | .writeSingleCoil s a v => .writeSingleCoilWithPriority s a v priority
  | .writeSingleHoldingRegister s a d => .writeSingleHoldingRegisterWithPriority s a d priority
  | .writeMultipleCoils s a n v => .writeMultipleCoilsWithPriority s a n v priority
  | .writeMultHoldingRegisters s a n d => .writeMultHoldingRegistersWithPriority s a n d priority
  | .readWriteMultipleRegisters s ra rc wa wc d =>
    .readWriteMultipleRegistersWithPriority s ra rc wa wc d priority
  | .readCoilsWithPriority s a n _ => .readCoilsWithPriority s a n priority
  | .readDiscreteInputsWithPriority s a n _ => .readDiscreteInputsWithPriority s a n priority
  | .readHoldingRegistersWithPriority s a n _ => .readHoldingRegistersWithPriority s a n priority
  | .readInputRegistersWithPriority s a n _ => .readInputRegistersWithPriority s a n priority
  | .writeSingleCoilWithPriority s a v _ => .writeSingleCoilWithPriority s a v priority
  | .writeSingleHoldingRegisterWithPriority s a d _ =>
    .writeSingleHoldingRegisterWithPriority s a d priority
  | .writeMultipleCoilsWithPriority s a n v _ => .writeMultipleCoilsWithPriority s a n v priority
  | .writeMultHoldingRegistersWithPriority s a n d _ =>
    .writeMultHoldingRegistersWithPriority s a n d priority
  | .readWriteMultipleRegistersWithPriority s ra rc wa wc d _ =>
    .readWriteMultipleRegistersWithPriority s ra rc wa wc d priority

/-- The capacity that the constructor gives to the queue of class `p`. -/
def queueSize (p : Fin 4) : Nat :=
  match p with
  | 0 => EMERGENCY_QUEUE_SIZE
  | 1 => SENSOR_QUEUE_SIZE
  | 2 => RELAY_QUEUE_SIZE
  | 3 => STATUS_QUEUE_SIZE

/-- An operation on the queues: a request handed to `_addToQueue`, or a call of
`_dequeueByPriority`. -/
inductive Op where
  | enqueue (request : ModbusRequest)
  | dequeue
deriving DecidableEq, Repr

/-- Running a sequence of operations; returns the accepted requests in the order of
their submission, the dequeued requests in the order obtained, and the final state. -/
def runOps : esp32ModbusRTU → List Op →
    (List ModbusRequest × List ModbusRequest) × esp32ModbusRTU
  | self, [] => (([], []), self)
  | self, .enqueue r :: ops =>
    let (ok, self1) := self._addToQueue (some r)
    let ((accepted, dequeued), self2) := runOps self1 ops
    ((if ok then r :: accepted else accepted, dequeued), self2)
  | self, .dequeue :: ops =>
    let (res, self1) := self._dequeueByPriority
    let ((accepted, dequeued), self2) := runOps self1 ops
    ((accepted, match res with
      | some r => r :: dequeued
      | none => dequeued), self2)

/-! ### Handlers, timeout and the worker loop (esp32ModbusRTU.cpp, lines 349-357, 514-642) -/

/-- The method `onData`; `handler` tells whether the `std::function` passed holds a
callable. -/
def onData (self : esp32ModbusRTU) (handler : Bool) : esp32ModbusRTU :=
  { self with _onData := handler }

/-- The method `onError`; `handler` tells whether the `std::function` passed holds a
callable. -/
def onError (self : esp32ModbusRTU) (handler : Bool) : esp32ModbusRTU :=
  { self with _onError := handler }

/-- The method `setTimeOutValue`. -/
def setTimeOutValue (self : esp32ModbusRTU) (tov : Nat) : esp32ModbusRTU :=
  if tov ≠ 0 then { self with TimeOutValue := tov } else self

/-- What the worker does to the outside: a frame written to the serial line, a run of
`_receive` with the bytes it read, a call of the data handler with its five arguments,
a call of the error handler, an idle delay. -/
inductive Event where
  | send (frame : List Nat)
  | receive (bytes : List Nat)
  | onData (slaveAddress functionCode address : Nat) (data : List Nat) (length : Nat)
  | onError (error : Nat)
  | idle
deriving DecidableEq, Repr

/-- Whether an event is a call of one of the two handlers. -/
def Event.isCallback : Event → Bool
  | .onData _ _ _ _ _ => true
  | .onError _ => true
  | _ => false

/-- The method `_send(data, length)`: nothing happens for a length of 0 (the length is a
`uint8_t`); otherwise the first `length` bytes are written and `_lastMillis` is set to
`now`, the value of `millis()` after the write. The wait for the inter-frame interval and
the RTS pin are timing and output only. -/
def _send (self : esp32ModbusRTU) (data : List Nat) (length : Nat) (now : Nat) :
    List Event × esp32ModbusRTU :=
  if length % 256 = 0 then ([], self)
  else ([Event.send (data.take (length % 256))], { self with _lastMillis := now })

/-- The dispatch of `_handleConnection` (lines 536-552): the data handler on success,
the error handler with the recorded error otherwise, each only when it is set. -/
def dispatch (self : esp32ModbusRTU) (request : ModbusRequest) (response : ModbusResponse) :
    List Event :=
  let (ok, response) := response.isSuccess
  if ok then
    if self._onData then
      [Event.onData response.getSlaveAddress response.getFunctionCode request.getAddress
        response.getData response.getByteCount]
    else []
  else
    let error := response.getError
    if self._onError then [Event.onError error] else []

/-- What one pass of the worker loop takes from its surroundings: whether another task set
the shutdown flag between the loop test and the test after the dequeue; the bytes that
`_receive` read before it returned; the values of `millis()` after the write and at the
completion of the response. -/
structure WorkerInput where
  shutdownSetMeanwhile : Bool
  received : List Nat
  millisAfterSend : Nat
  millisAtComplete : Nat
deriving DecidableEq, Repr

/-- The outcome of one pass of the worker loop: the events in order, the request that
`delete request` destroyed, whether the loop was left, and the instance afterwards. -/
structure WorkerStep where
  events : List Event
  deleted : Option ModbusRequest
  exited : Bool
  state : esp32ModbusRTU

/-- One pass of the loop `while (!instance->_shutdown)` of `_handleConnection`. The
response of `_receive` is the buffer holding the bytes read; its polling and timing, the
watchdog and the logging are left out. -/
def workerIteration (self : esp32ModbusRTU) (inp : WorkerInput) : WorkerStep :=
  if self._shutdown then { events := [], deleted := none, exited := true, state := self }
  else
    match self._dequeueByPriority with
    | (some request, self1) =>
      let self1 := { self1 with _shutdown := self1._shutdown || inp.shutdownSetMeanwhile }
      if self1._shutdown then
        { events := [], deleted := some request, exited := true, state := self1 }
      else
        let (sent, self2) := self1._send request.getMessage request.getSize inp.millisAfterSend
        let response := receiveBytes request inp.received
        let self3 :=
          if response.isComplete then { self2 with _lastMillis := inp.millisAtComplete }
          else self2
        { events := sent ++ [Event.receive inp.received] ++ self3.dispatch request response
          deleted := some request, exited := false, state := self3 }
    | (none, self1) =>
      { events := [Event.idle], deleted := none, exited := false
        state := { self1 with _shutdown := self1._shutdown || inp.shutdownSetMeanwhile } }

/-! ### Scenario S5: four requests of four classes on a started instance -/

/-- An instance after the constructor and `begin` at 9600 baud, task created. -/
def startedInstance : esp32ModbusRTU := (esp32ModbusRTU.new (-1)).begin 9600 true

/-- Request R1 of scenario S5, class Relay. -/
def scenarioR1 : ModbusRequest := (ModbusRequest05 1 0x0010 true).setPriority esp32Modbus.RELAY
/-- Request R2 of scenario S5, class Status. -/
def scenarioR2 : ModbusRequest := (ModbusRequest03 1 0x0020 2).setPriority esp32Modbus.STATUS
/-- Request R3 of scenario S5, class Emergency. -/
def scenarioR3 : ModbusRequest :=
  (ModbusRequest05 1 0x0000 false).setPriority esp32Modbus.EMERGENCY
/-- Request R4 of scenario S5, class Sensor. -/
def scenarioR4 : ModbusRequest := (ModbusRequest04 2 0x0030 1).setPriority esp32Modbus.SENSOR

/-! ### Scenario: one read request on a started instance with both handlers set -/

/-- A started instance after `onData` and `onError` have each been given a callable, with
a read of three holding registers from address 0x006B of slave 0x11 submitted. -/
def handlersInstance : esp32ModbusRTU :=
  (((startedInstance.onData true).onError true).readHoldingRegisters 0x11 0x006B 3).2

/-- A pass in which no shutdown is requested and the slave answers
11 03 06 AE 41 56 52 43 40 49 AD. -/
def answeredPass : WorkerInput :=
  { shutdownSetMeanwhile := false
    received := [0x11, 0x03, 0x06, 0xAE, 0x41, 0x56, 0x52, 0x43, 0x40, 0x49, 0xAD]
    millisAfterSend := 10, millisAtComplete := 25 }

/-- A pass in which the shutdown flag is set while the worker takes the request. -/
def shutdownPass : WorkerInput :=
  { shutdownSetMeanwhile := true
    received := [0x11, 0x03, 0x06, 0xAE, 0x41, 0x56, 0x52, 0x43, 0x40, 0x49, 0xAD]
    millisAfterSend := 10, millisAtComplete := 25 }

end esp32ModbusRTU

/-! # Properties -/

set_option maxRecDepth 100000

namespace esp32ModbusRTUInternals

/-! ## Lemmas on CRC16 -/

theorem crcRefByte_eq (crc b : Nat) : crcRefByte crc b = crcRefBit8 (crc ^^^ b) := rfl

theorem shiftRight_one_xor (a b : Nat) : (a ^^^ b) >>> 1 = (a >>> 1) ^^^ (b >>> 1) := by
  apply Nat.eq_of_testBit_eq
  intro i
  simp [Nat.testBit_shiftRight, Nat.testBit_xor]

theorem crcRefBit_testBit (x : Nat) :
    crcRefBit x = (x >>> 1) ^^^ (if x.testBit 0 then 0xA001 else 0) := by
  unfold crcRefBit
  by_cases h : x % 2 = 1 <;> simp [Nat.testBit_zero, h]

theorem crcRefBit_xor (a b : Nat) : crcRefBit (a ^^^ b) = crcRefBit a ^^^ crcRefBit b := by
  simp only [crcRefBit_testBit, shiftRight_one_xor, Nat.testBit_xor]
  cases a.testBit 0 <;> cases b.testBit 0 <;>
    simp only [Bool.xor_false, Bool.xor_true, Bool.not_false, Bool.not_true, Bool.false_eq_true,
      if_false, if_true, Nat.xor_zero] <;>
    (apply Nat.eq_of_testBit_eq
     intro i
     simp only [Nat.testBit_xor]
     generalize (a >>> 1).testBit i = x
     generalize (b >>> 1).testBit i = y
     generalize (40961 : Nat).testBit i = z
     cases x <;> cases y <;> cases z <;> rfl)

theorem crcRefBit8_xor (a b : Nat) : crcRefBit8 (a ^^^ b) = crcRefBit8 a ^^^ crcRefBit8 b := by
  simp only [crcRefBit8, crcRefBit_xor]

theorem crcRefBit8_high : ∀ hi < 256, crcRefBit8 (hi <<< 8) = hi := by decide

theorem crcRefBit8_table : ∀ i < 256,
    crcRefBit8 i = (crcLoTable.getD i 0 <<< 8) ||| crcHiTable.getD i 0 := by decide

theorem crcTables_lt : ∀ i < 256, crcLoTable.getD i 0 < 256 ∧ crcHiTable.getD i 0 < 256 := by
  decide

theorem shl8_or_eq_xor (a b : Nat) (hb : b < 256) : a <<< 8 ||| b = a <<< 8 ^^^ b := by
  apply Nat.eq_of_testBit_eq
  intro i
  simp only [Nat.testBit_or, Nat.testBit_xor, Nat.testBit_shiftLeft]
  by_cases hi : i ≥ 8
  · have h2 : b < 2 ^ i :=
      lt_of_lt_of_le hb (by simpa using Nat.pow_le_pow_right (by decide : 0 < 2) hi)
    simp [Nat.testBit_lt_two_pow h2]
  · simp [hi]

theorem shl8_or_lt (a b : Nat) (ha : a < 256) (hb : b < 256) : a <<< 8 ||| b < 65536 := by
  have h1 : a <<< 8 < 2 ^ 16 := by rw [Nat.shiftLeft_eq]; omega
  have h2 : b < 2 ^ 16 := by omega
  simpa using Nat.or_lt_two_pow h1 h2

theorem crcStep_spec (hi lo b : Nat) (hhi : hi < 256) (hlo : lo < 256) (hb : b < 256) :
    (crcStep (hi, lo) b).1 < 256 ∧ (crcStep (hi, lo) b).2 < 256 ∧
    ((crcStep (hi, lo) b).1 <<< 8 ||| (crcStep (hi, lo) b).2) =
      crcRefByte (hi <<< 8 ||| lo) b := by
  have hidx : lo ^^^ b < 256 := by simpa using @Nat.xor_lt_two_pow lo b 8 hlo hb
  obtain ⟨hL, hH⟩ := crcTables_lt (lo ^^^ b) hidx
  have hx : hi ^^^ crcHiTable.getD (lo ^^^ b) 0 < 256 := by
    simpa using @Nat.xor_lt_two_pow hi (crcHiTable.getD (lo ^^^ b) 0) 8 hhi hH
  simp only [crcStep, Nat.mod_eq_of_lt hidx, Nat.mod_eq_of_lt hL, Nat.mod_eq_of_lt hx]
  refine ⟨hL, hx, ?_⟩
  rw [crcRefByte_eq, shl8_or_eq_xor hi lo hlo, Nat.xor_assoc, crcRefBit8_xor,
    crcRefBit8_high hi hhi, crcRefBit8_table _ hidx, shl8_or_eq_xor _ _ hH,
    shl8_or_eq_xor _ _ hx]
  apply Nat.eq_of_testBit_eq
  intro i
  simp only [Nat.testBit_xor]
  generalize (crcLoTable.getD (lo ^^^ b) 0 <<< 8).testBit i = x
  generalize (crcHiTable.getD (lo ^^^ b) 0).testBit i = y
  generalize hi.testBit i = z
  cases x <;> cases y <;> cases z <;> rfl

theorem crcLoop_spec : ∀ (msg : List Nat) (len hi lo : Nat), (∀ b ∈ msg, b < 256) →
    hi < 256 → lo < 256 →
    (crcLoop msg len (hi, lo)).1 < 256 ∧ (crcLoop msg len (hi, lo)).2 < 256 ∧
    ((crcLoop msg len (hi, lo)).1 <<< 8 ||| (crcLoop msg len (hi, lo)).2) =
      (msg.take len).foldl crcRefByte (hi <<< 8 ||| lo) := by
  intro msg
  induction msg with
  | nil =>
    intro len hi lo _ hhi hlo
    cases len <;> simp [crcLoop, hhi, hlo]
  | cons b rest ih =>
    intro len hi lo hmsg hhi hlo
    cases len with
    | zero => simp [crcLoop, hhi, hlo]
    | succ n =>
      obtain ⟨h1, h2, h3⟩ := crcStep_spec hi lo b hhi hlo (hmsg b (by simp))
      have hrest : ∀ x ∈ rest, x < 256 := fun x hx => hmsg x (by simp [hx])
      have := ih n (crcStep (hi, lo) b).1 (crcStep (hi, lo) b).2 hrest h1 h2
      simp only [crcLoop, List.take_succ_cons, List.foldl_cons]
      rw [← h3]
      exact this

theorem CRC16_eq_crcRef_take (msg : List Nat) (len : Nat) (h : ∀ b ∈ msg, b < 256) :
    CRC16 msg len = crcRef (msg.take len) := by
  obtain ⟨h1, h2, h3⟩ := crcLoop_spec msg len 0xFF 0xFF h (by decide) (by decide)
  unfold CRC16 crcRef
  simp only []
  rw [Nat.mod_eq_of_lt (shl8_or_lt _ _ h1 h2), h3]
  rfl

theorem CRC16_lt (msg : List Nat) (len : Nat) : CRC16 msg len < 65536 := by
  unfold CRC16
  exact Nat.mod_lt _ (by decide)

/-- C4: on every byte sequence the table-driven `CRC16` returns the value of the
bit-by-bit CRC-16/Modbus (initial value 0xFFFF, polynomial 0xA001 applied on each
1 bit shifted out, no final XOR), and that value fits in 16 bits. -/
theorem CRC16_refines_bitwise (msg : List Nat) (h : ∀ b ∈ msg, b < 256) :
    CRC16 msg msg.length = crcRef msg ∧ crcRef msg < 65536 := by
  have h1 := CRC16_eq_crcRef_take msg msg.length h
  rw [List.take_length] at h1
  exact ⟨h1, h1 ▸ CRC16_lt msg msg.length⟩

/-- Witness for C4 on the six header bytes of scenario S1. -/
theorem CRC16_refines_bitwise_witness :
    (∀ b ∈ [0x11, 0x03, 0x00, 0x6B, 0x00, 0x03], b < 256) ∧
    CRC16 [0x11, 0x03, 0x00, 0x6B, 0x00, 0x03] 6 = crcRef [0x11, 0x03, 0x00, 0x6B, 0x00, 0x03] ∧
    crcRef [0x11, 0x03, 0x00, 0x6B, 0x00, 0x03] = 0x8776 :=
  ⟨by decide, (CRC16_refines_bitwise [0x11, 0x03, 0x00, 0x6B, 0x00, 0x03] (by decide)).1,
    by rfl⟩


/-! ## Lemmas on message buffers -/

theorem and_error_flag_ne_zero (b : Nat) : (b &&& MODBUS_ERROR_FLAG) ≠ 0 ↔ b.testBit 7 = true := by
  have h : b &&& MODBUS_ERROR_FLAG = (b.testBit 7).toNat * 2 ^ 7 := Nat.and_two_pow b 7
  rw [h]
  cases b.testBit 7 <;> simp

/-- What a complete response looks like: the expected number of bytes, or five bytes
with bit 7 of the second one set. -/
theorem isComplete_cases (r : ModbusResponse) (h : r.isComplete = true) :
    r._index = r._request.responseLength ∨
      ((r._buffer.getD 1 0).testBit 7 = true ∧ r._index = 5) := by
  unfold ModbusResponse.isComplete at h
  simp only [and_error_flag_ne_zero, MODBUS_EXCEPTION_RESPONSE_LENGTH] at h
  by_cases h1 : (r._buffer.getD 1 0).testBit 7 = true ∧ r._index = 5
  · exact Or.inr h1
  · rw [if_neg h1] at h
    by_cases h2 : r._index = r._request.responseLength
    · exact Or.inl h2
    · rw [if_neg h2] at h
      exact absurd h (by decide)

/-- C1: `isComplete` is true exactly when the number of bytes stored equals the
request's expected response length, or the second byte has bit 7 set and exactly
5 bytes are stored; at every other length it is false. -/
theorem isComplete_iff (r : ModbusResponse) :
    r.isComplete = true ↔
      (r.getSize = r._request.responseLength ∨
        ((r._buffer.getD 1 0).testBit 7 = true ∧ r.getSize = 5)) := by
  unfold ModbusResponse.isComplete ModbusMessage.getSize
  simp only [and_error_flag_ne_zero, MODBUS_EXCEPTION_RESPONSE_LENGTH]
  by_cases h1 : (r._buffer.getD 1 0).testBit 7 = true ∧ r._index = 5
  · rw [if_pos h1]
    exact ⟨fun _ => Or.inr h1, fun _ => rfl⟩
  · rw [if_neg h1]
    by_cases h2 : r._index = r._request.responseLength
    · rw [if_pos h2]
      exact ⟨fun _ => Or.inl h2, fun _ => rfl⟩
    · rw [if_neg h2]
      constructor
      · intro h
        exact absurd h (by decide)
      · rintro (h | h)
        · exact absurd h h2
        · exact absurd h h1


theorem ModbusMessage.new_length (n : Nat) :
    (ModbusMessage.new n)._length = if n % 256 < 5 then 5 else n % 256 := by
  have h : n % 256 < 256 := Nat.mod_lt _ (by decide)
  simp only [ModbusMessage.new, MODBUS_MIN_RESPONSE_LENGTH]
  split <;> split <;> omega

theorem ModbusMessage.new_buffer_length (n : Nat) :
    (ModbusMessage.new n)._buffer.length = (ModbusMessage.new n)._length := by
  simp [ModbusMessage.new]

theorem ModbusMessage.new_index (n : Nat) : (ModbusMessage.new n)._index = 0 := rfl

theorem ModbusMessage.add_length (m : ModbusMessage) (v : Nat) :
    (m.add v)._length = m._length := by
  unfold ModbusMessage.add
  split <;> rfl

theorem ModbusMessage.add_buffer_length (m : ModbusMessage) (v : Nat) :
    (m.add v)._buffer.length = m._buffer.length := by
  unfold ModbusMessage.add
  split
  · rfl
  · simp

theorem ModbusMessage.add_index_le (m : ModbusMessage) (v : Nat) (h : m._index ≤ m._length) :
    (m.add v)._index ≤ m._length := by
  unfold ModbusMessage.add
  split
  · exact h
  · simp only
    omega

theorem ModbusRequest.responseLength_ge (req : ModbusRequest) : 5 ≤ req.responseLength := by
  unfold ModbusRequest.responseLength
  cases req.cls <;> simp

theorem newResponse_length (req : ModbusRequest) :
    (esp32ModbusRTU.newResponse req)._length =
      if req.responseLength ≤ 255 then req.responseLength else 5 := by
  have h5 := req.responseLength_ge
  simp only [esp32ModbusRTU.newResponse, ModbusResponse.new, ModbusMessage.new_length,
    MODBUS_MAX_MESSAGE_SIZE]
  split <;> split <;> split <;> omega

theorem receive_fold_inv (req : ModbusRequest) (L : Nat) (bytes : List Nat) :
    ∀ r0 : ModbusResponse, r0._request = req → r0._length = L → r0._buffer.length = L →
      r0._index ≤ L →
      (bytes.foldl ModbusResponse.add r0)._request = req ∧
      (bytes.foldl ModbusResponse.add r0)._length = L ∧
      (bytes.foldl ModbusResponse.add r0)._buffer.length = L ∧
      (bytes.foldl ModbusResponse.add r0)._index ≤ L := by
  induction bytes with
  | nil => intro r0 h1 h2 h3 h4; exact ⟨h1, h2, h3, h4⟩
  | cons b rest ih =>
    intro r0 h1 h2 h3 h4
    simp only [List.foldl_cons]
    apply ih
    · simpa [ModbusResponse.add] using h1
    · simpa [ModbusResponse.add, ModbusMessage.add_length] using h2
    · simpa [ModbusResponse.add, ModbusMessage.add_buffer_length] using h3
    · have := ModbusMessage.add_index_le r0.toModbusMessage b (by omega)
      simpa [ModbusResponse.add, h2] using this

theorem receiveBytes_inv (req : ModbusRequest) (bytes : List Nat) :
    (esp32ModbusRTU.receiveBytes req bytes)._request = req ∧
    (esp32ModbusRTU.receiveBytes req bytes)._length =
      (if req.responseLength ≤ 255 then req.responseLength else 5) ∧
    (esp32ModbusRTU.receiveBytes req bytes)._buffer.length =
      (if req.responseLength ≤ 255 then req.responseLength else 5) ∧
    (esp32ModbusRTU.receiveBytes req bytes)._index ≤
      (if req.responseLength ≤ 255 then req.responseLength else 5) := by
  unfold esp32ModbusRTU.receiveBytes
  apply receive_fold_inv
  · rfl
  · exact newResponse_length req
  · rw [← newResponse_length req]
    exact ModbusMessage.new_buffer_length _
  · simp [esp32ModbusRTU.newResponse, ModbusResponse.new, ModbusMessage.new_index]

theorem getD_take_of_lt (l : List Nat) (n k : Nat) (h : k < n) :
    (l.take n).getD k 0 = l.getD k 0 := by
  simp [List.getD_eq_getElem?_getD, List.getElem?_take, h]

/-- The error recorded by `isSuccess` on a received byte sequence, case by case in the
order of the source. -/
theorem isSuccess_error_classification (req : ModbusRequest) (bytes : List Nat) :
    (esp32ModbusRTU.receiveBytes req bytes).isSuccess.2.getError =
      if (esp32ModbusRTU.receiveBytes req bytes).isComplete = false then esp32Modbus.TIMEOUT
      else if ((esp32ModbusRTU.receiveBytes req bytes).stored.getD 1 0).testBit 7 = true then
        (esp32ModbusRTU.receiveBytes req bytes).stored.getD 2 0
      else if ¬ crcTrailerMatches (esp32ModbusRTU.receiveBytes req bytes).stored then
        esp32Modbus.CRC_ERROR
      else if (esp32ModbusRTU.receiveBytes req bytes).stored.getD 0 0 ≠ req.getSlaveAddress then
        esp32Modbus.INVALID_SLAVE
      else if (esp32ModbusRTU.receiveBytes req bytes).stored.getD 1 0 ≠ req.getFunctionCode then
        esp32Modbus.INVALID_RESPONSE
      else esp32Modbus.SUCCESS := by
  obtain ⟨hreq, hlen, hbuf, hidx⟩ := receiveBytes_inv req bytes
  generalize esp32ModbusRTU.receiveBytes req bytes = r at *
  have h5 := req.responseLength_ge
  simp only [ModbusResponse.isSuccess, ModbusResponse.getError]
  by_cases hc : r.isComplete = false
  · simp [hc]
  · have hc1 : r.isComplete = true := by simpa using hc
    have hcc := isComplete_cases r hc1
    simp only [hreq] at hcc
    have hi5 : 5 ≤ r._index := by rcases hcc with h | h <;> omega
    have e0 : r.stored.getD 0 0 = r._buffer.getD 0 0 := getD_take_of_lt _ _ _ (by omega)
    have e1 : r.stored.getD 1 0 = r._buffer.getD 1 0 := getD_take_of_lt _ _ _ (by omega)
    have e2 : r.stored.getD 2 0 = r._buffer.getD 2 0 := getD_take_of_lt _ _ _ (by omega)
    rw [e0, e1, e2, hreq]
    simp only [hc1, Bool.not_true, Bool.false_eq_true, Bool.true_eq_false, if_false,
      and_error_flag_ne_zero]
    by_cases hx : (r._buffer.getD 1 0).testBit 7 = true
    · rw [if_pos hx, if_pos hx]
    · have hrl : r._index = req.responseLength := by
        rcases hcc with h | h
        · exact h
        · exact absurd h.1 hx
      have hfull : r._index = r._buffer.length := by
        rw [hbuf]
        split at hidx <;> split <;> omega
      have hst : r.stored = r._buffer := by
        unfold ModbusMessage.stored
        rw [hfull]
        exact List.take_length _
      have hcrc : r.checkCRC = decide (crcTrailerMatches r.stored) := by
        rw [hst]
        unfold ModbusResponse.checkCRC crcTrailerMatches
        have hl : r._length = r._buffer.length := by rw [hlen, hbuf]
        simp [hl, MODBUS_CRC_LENGTH]
      rw [if_neg hx, if_neg hx, hcrc]
      by_cases hk : crcTrailerMatches r.stored <;> simp [hk]


/-- C3: for every request and every received byte sequence, the error recorded by
`isSuccess` is the first applicable case of: `TIMEOUT` when the response is not
complete; the value of byte 2 when byte 1 has bit 7 set; `CRC_ERROR` when the CRC
trailer of the received frame does not match; `INVALID_SLAVE` when byte 0 differs
from the request's slave address; `INVALID_RESPONSE` when byte 1 differs from the
request's function code; `SUCCESS` otherwise. The frame
11 03 06 AE 41 56 52 43 40 00 00 gives `CRC_ERROR`, against the request of slave
0x11 and also against a request of slave 0x12 (bad CRC and wrong slave). -/
theorem isSuccess_error_order :
    (∀ (req : ModbusRequest) (bytes : List Nat),
      (esp32ModbusRTU.receiveBytes req bytes).isSuccess.2.getError =
        if (esp32ModbusRTU.receiveBytes req bytes).isComplete = false then esp32Modbus.TIMEOUT
        else if ((esp32ModbusRTU.receiveBytes req bytes).stored.getD 1 0).testBit 7 = true then
          (esp32ModbusRTU.receiveBytes req bytes).stored.getD 2 0
        else if ¬ crcTrailerMatches (esp32ModbusRTU.receiveBytes req bytes).stored then
          esp32Modbus.CRC_ERROR
        else if (esp32ModbusRTU.receiveBytes req bytes).stored.getD 0 0 ≠ req.getSlaveAddress then
          esp32Modbus.INVALID_SLAVE
        else if (esp32ModbusRTU.receiveBytes req bytes).stored.getD 1 0 ≠ req.getFunctionCode then
          esp32Modbus.INVALID_RESPONSE
        else esp32Modbus.SUCCESS) ∧
    (esp32ModbusRTU.receiveBytes (ModbusRequest03 0x11 0x6B 3)
      [0x11, 0x03, 0x06, 0xAE, 0x41, 0x56, 0x52, 0x43, 0x40, 0x00, 0x00]).isSuccess.2.getError
      = esp32Modbus.CRC_ERROR ∧
    (esp32ModbusRTU.receiveBytes (ModbusRequest03 0x12 0x6B 3)
      [0x11, 0x03, 0x06, 0xAE, 0x41, 0x56, 0x52, 0x43, 0x40, 0x00, 0x00]).isSuccess.2.getError
      = esp32Modbus.CRC_ERROR :=
  ⟨isSuccess_error_classification, by decide, by decide⟩

/-- C2 (failing input): the 5-byte exception frame 11 83 00 with a valid CRC,
received for `readHoldingRegisters(0x11, 0x006B, 3)`, is complete, has bit 7 set in
its second byte, and `isSuccess` returns true, recording the error value 0. -/
theorem isSuccess_true_on_exception_code_zero :
    (esp32ModbusRTU.receiveBytes (ModbusRequest03 0x11 0x6B 3)
      [0x11, 0x83, 0x00, 0x40, 0xF5])._length = (ModbusRequest03 0x11 0x6B 3).responseLength ∧
    (esp32ModbusRTU.receiveBytes (ModbusRequest03 0x11 0x6B 3)
      [0x11, 0x83, 0x00, 0x40, 0xF5]).isComplete = true ∧
    ((esp32ModbusRTU.receiveBytes (ModbusRequest03 0x11 0x6B 3)
      [0x11, 0x83, 0x00, 0x40, 0xF5])._buffer.getD 1 0).testBit 7 = true ∧
    CRC16 [0x11, 0x83, 0x00] 3 = 0xF540 ∧
    (esp32ModbusRTU.receiveBytes (ModbusRequest03 0x11 0x6B 3)
      [0x11, 0x83, 0x00, 0x40, 0xF5]).isSuccess.1 = true ∧
    (esp32ModbusRTU.receiveBytes (ModbusRequest03 0x11 0x6B 3)
      [0x11, 0x83, 0x00, 0x40, 0xF5]).isSuccess.2.getError = esp32Modbus.SUCCESS := by
  decide


/-! ## Lemmas on the encoders -/

theorem low_eq_mod (x : Nat) : low x = x % 256 := Nat.and_pow_two_sub_one_eq_mod x 8

theorem high_eq_div_mod (x : Nat) : high x = x / 256 % 256 := by
  unfold high
  rw [Nat.shiftRight_eq_div_pow]
  exact Nat.and_pow_two_sub_one_eq_mod (x / 2 ^ 8) 8

theorem crcLoop_take (msg : List Nat) : ∀ (len : Nat) (st : Nat × Nat),
    crcLoop (msg.take len) len st = crcLoop msg len st := by
  induction msg with
  | nil => intro len st; simp
  | cons b rest ih =>
    intro len st
    cases len with
    | zero => simp [crcLoop]
    | succ n => simp [crcLoop, ih]

theorem CRC16_take (msg : List Nat) (len : Nat) : CRC16 (msg.take len) len = CRC16 msg len := by
  unfold CRC16
  rw [crcLoop_take]

/-- The constructors for FC 01 to 06 are `emit8` on a fresh 8-byte request. -/
theorem ModbusRequest01_eq (s a n : Nat) :
    ModbusRequest01 s a n =
      ({ ModbusRequest.new .Request01 8 with
          _slaveAddress := s, _functionCode := esp32Modbus.READ_COIL, _address := a,
          _byteCount := ((n + 7) / 8) % 65536 } : ModbusRequest).emit8 n := rfl

theorem ModbusRequest02_eq (s a n : Nat) :
    ModbusRequest02 s a n =
      ({ ModbusRequest.new .Request02 8 with
          _slaveAddress := s, _functionCode := esp32Modbus.READ_DISCR_INPUT, _address := a,
          _byteCount := ((n + 7) / 8) % 65536 } : ModbusRequest).emit8 n := rfl

theorem ModbusRequest03_eq (s a n : Nat) :
    ModbusRequest03 s a n =
      ({ ModbusRequest.new .Request03 8 with
          _slaveAddress := s, _functionCode := esp32Modbus.READ_HOLD_REGISTER, _address := a,
          _byteCount := (n * 2) % 65536 } : ModbusRequest).emit8 n := rfl

theorem ModbusRequest04_eq (s a n : Nat) :
    ModbusRequest04 s a n =
      ({ ModbusRequest.new .Request04 8 with
          _slaveAddress := s, _functionCode := esp32Modbus.READ_INPUT_REGISTER, _address := a,
          _byteCount := (n * 2) % 65536 } : ModbusRequest).emit8 n := rfl

theorem ModbusRequest05_eq (s a : Nat) (v : Bool) :
    ModbusRequest05 s a v =
      ({ ModbusRequest.new .Request05 8 with
          _slaveAddress := s, _functionCode := esp32Modbus.WRITE_COIL, _address := a,
          _byteCount := 2 } : ModbusRequest).emit8
        (if v then MODBUS_COIL_ON else MODBUS_COIL_OFF) := rfl

theorem ModbusRequest06_eq (s a d : Nat) :
    ModbusRequest06 s a d =
      ({ ModbusRequest.new .Request06 8 with
          _slaveAddress := s, _functionCode := esp32Modbus.WRITE_HOLD_REGISTER, _address := a,
          _byteCount := 2 } : ModbusRequest).emit8 d := rfl

/-- The frame that `emit8` writes into a fresh 8-byte buffer. -/
theorem emit8_spec (r : ModbusRequest) (word : Nat) (h : r.toModbusMessage = ModbusMessage.new 8) :
    (r.emit8 word)._buffer =
      [r._slaveAddress % 256, r._functionCode % 256, high r._address % 256,
        low r._address % 256, high word % 256, low word % 256,
        low (CRC16 [r._slaveAddress % 256, r._functionCode % 256, high r._address % 256,
          low r._address % 256, high word % 256, low word % 256] 6) % 256,
        high (CRC16 [r._slaveAddress % 256, r._functionCode % 256, high r._address % 256,
          low r._address % 256, high word % 256, low word % 256] 6) % 256] ∧
    (r.emit8 word)._index = 8 ∧ (r.emit8 word)._length = 8 := by
  have hc : ∀ a b c d e f : Nat, CRC16 [a, b, c, d, e, f, 0, 0] 6 = CRC16 [a, b, c, d, e, f] 6 :=
    fun a b c d e f => (CRC16_take [a, b, c, d, e, f, 0, 0] 6).symm
  simp [ModbusRequest.emit8, ModbusRequest.add, ModbusMessage.add, h, ModbusMessage.new,
    MODBUS_MIN_RESPONSE_LENGTH, List.replicate, hc]


/-- C5: for every slave address, 16-bit address and 16-bit count, the encoders of
FC 0x01, 0x02, 0x03 and 0x04 emit exactly 8 bytes: slave, function code, address high
and low byte, count high and low byte, then the low and the high byte of `CRC16` over
the first six bytes. The FC 0x03 encoder with slave 0x11, address 0x006B and count 3
emits 11 03 00 6B 00 03 76 87. -/
theorem read_encoders_emit_eight_bytes (slave address count : Nat)
    (hs : slave < 256) (ha : address < 65536) (hc : count < 65536) :
    (∀ enc ∈ [(ModbusRequest01, 0x01), (ModbusRequest02, 0x02), (ModbusRequest03, 0x03),
        (ModbusRequest04, 0x04)],
      (enc.1 slave address count).getSize = 8 ∧
      (enc.1 slave address count).getMessage =
        [slave, enc.2, address / 256, address % 256, count / 256, count % 256,
          CRC16 [slave, enc.2, address / 256, address % 256, count / 256, count % 256] 6 % 256,
          CRC16 [slave, enc.2, address / 256, address % 256, count / 256, count % 256] 6 / 256]) ∧
    (ModbusRequest03 0x11 0x006B 3).getMessage = [0x11, 0x03, 0x00, 0x6B, 0x00, 0x03, 0x76, 0x87] := by
  have e1 : slave % 256 = slave := Nat.mod_eq_of_lt hs
  have e2 : address / 256 % 256 = address / 256 := Nat.mod_eq_of_lt (by omega)
  have e3 : count / 256 % 256 = count / 256 := Nat.mod_eq_of_lt (by omega)
  have e4 : ∀ m len, CRC16 m len / 256 % 256 = CRC16 m len / 256 := fun m len =>
    Nat.mod_eq_of_lt (by have := CRC16_lt m len; omega)
  refine ⟨?_, by decide⟩
  intro enc henc
  simp only [List.mem_cons, List.mem_singleton, List.not_mem_nil, or_false] at henc
  rcases henc with rfl | rfl | rfl | rfl
  all_goals
    simp only [ModbusRequest01_eq, ModbusRequest02_eq, ModbusRequest03_eq, ModbusRequest04_eq,
      ModbusMessage.getSize, ModbusMessage.getMessage]
    refine ⟨(emit8_spec _ _ rfl).2.1, ?_⟩
    rw [(emit8_spec _ _ rfl).1]
    simp [low_eq_mod, high_eq_div_mod, e1, e2, e3, e4, esp32Modbus.READ_COIL,
      esp32Modbus.READ_DISCR_INPUT, esp32Modbus.READ_HOLD_REGISTER,
      esp32Modbus.READ_INPUT_REGISTER]

/-- Witness for C5: the FC 0x04 encoder at slave 0x11, address 0x0008, count 1. -/
theorem read_encoders_emit_eight_bytes_witness :
    (0x11 < 256 ∧ 0x0008 < 65536 ∧ 1 < 65536) ∧
    (ModbusRequest04 0x11 0x0008 1).getMessage =
      [0x11, 0x04, 0x0008 / 256, 0x0008 % 256, 1 / 256, 1 % 256,
        CRC16 [0x11, 0x04, 0x0008 / 256, 0x0008 % 256, 1 / 256, 1 % 256] 6 % 256,
        CRC16 [0x11, 0x04, 0x0008 / 256, 0x0008 % 256, 1 / 256, 1 % 256] 6 / 256] :=
  ⟨by decide,
    ((read_encoders_emit_eight_bytes 0x11 0x0008 1 (by decide) (by decide) (by decide)).1
      (ModbusRequest04, 0x04) (by simp)).2⟩


theorem ceil_div_eight (n : Nat) (h : 1 ≤ n) : ⌈(n : ℚ) / 8⌉₊ = (n + 7) / 8 := by
  have hk : (n + 7) / 8 ≠ 0 := by omega
  rw [Nat.ceil_eq_iff hk]
  have h1 : 8 * ((n + 7) / 8 - 1) < n := by omega
  have h2 : n ≤ 8 * ((n + 7) / 8) := by omega
  have h1q : (8 : ℚ) * (((n + 7) / 8 - 1 : Nat) : ℚ) < (n : ℚ) := by exact_mod_cast h1
  have h2q : (n : ℚ) ≤ 8 * (((n + 7) / 8 : Nat) : ℚ) := by exact_mod_cast h2
  constructor
  · rw [lt_div_iff₀ (by norm_num)]
    linarith
  · rw [div_le_iff₀ (by norm_num)]
    linarith

/-- C7: `responseLength()` of the read encoders follows the codec table: for FC 0x01
and 0x02 with a coil count in 1..=2000 it is 5 + ceil(count/8); for FC 0x03 and 0x04
with a register count in 1..=125 it is 5 + 2*count; it is 11 for FC 0x03 with count 3. -/
theorem read_encoders_responseLength (slave address count : Nat) :
    (1 ≤ count ∧ count ≤ 2000 →
      (ModbusRequest01 slave address count).responseLength = 5 + ⌈(count : ℚ) / 8⌉₊ ∧
      (ModbusRequest02 slave address count).responseLength = 5 + ⌈(count : ℚ) / 8⌉₊) ∧
    (1 ≤ count ∧ count ≤ 125 →
      (ModbusRequest03 slave address count).responseLength = 5 + 2 * count ∧
      (ModbusRequest04 slave address count).responseLength = 5 + 2 * count) ∧
    (ModbusRequest03 0x11 0x006B 3).responseLength = 11 := by
  refine ⟨?_, ?_, by decide⟩
  · rintro ⟨h1, h2⟩
    rw [ceil_div_eight count h1]
    have e : (count + 7) / 8 % 65536 = (count + 7) / 8 := Nat.mod_eq_of_lt (by omega)
    constructor
    · show 5 + (count + 7) / 8 % 65536 = _
      rw [e]
    · show 5 + (count + 7) / 8 % 65536 = _
      rw [e]
  · rintro ⟨h1, h2⟩
    have e : count * 2 % 65536 = 2 * count := by
      rw [Nat.mod_eq_of_lt (by omega)]
      omega
    constructor
    · show 5 + count * 2 % 65536 = _
      rw [e]
    · show 5 + count * 2 % 65536 = _
      rw [e]

/-- Witness for C7: 2000 coils and 125 registers, the largest counts of the table. -/
theorem read_encoders_responseLength_witness :
    (1 ≤ 2000 ∧ 2000 ≤ 2000) ∧
    (ModbusRequest01 0x11 0 2000).responseLength = 5 + ⌈((2000 : Nat) : ℚ) / 8⌉₊ ∧
    (1 ≤ 125 ∧ 125 ≤ 125) ∧
    (ModbusRequest04 0x11 0 125).responseLength = 5 + 2 * 125 :=
  ⟨by decide, ((read_encoders_responseLength 0x11 0 2000).1 (by decide)).1, by decide,
    ((read_encoders_responseLength 0x11 0 125).2.1 (by decide)).2⟩

/-- C8: when the second byte of a response is 0x05 or 0x06 the payload is the four
bytes from offset 2 and `getByteCount` is 4; when it is 0x01, 0x02, 0x03, 0x04 or 0x17
the payload starts at offset 3 and its length is the byte at offset 2. For the frame
11 03 06 AE 41 56 52 43 40 49 AD received for the request (slave 0x11, FC 0x03,
count 3), `isSuccess` is true and the payload is AE 41 56 52 43 40. -/
theorem payload_offset_and_length :
    (∀ r : ModbusResponse, r._buffer.getD 1 0 = 0x05 ∨ r._buffer.getD 1 0 = 0x06 →
      r.getData = r._buffer.drop 2 ∧ r.getByteCount = 4 ∧
      r.payload = (r._buffer.drop 2).take 4) ∧
    (∀ r : ModbusResponse, r._buffer.getD 1 0 ∈ [0x01, 0x02, 0x03, 0x04, 0x17] →
      r.getData = r._buffer.drop 3 ∧ r.getByteCount = r._buffer.getD 2 0 ∧
      r.payload = (r._buffer.drop 3).take (r._buffer.getD 2 0)) ∧
    (esp32ModbusRTU.receiveBytes (ModbusRequest03 0x11 0x006B 3)
      [0x11, 0x03, 0x06, 0xAE, 0x41, 0x56, 0x52, 0x43, 0x40, 0x49, 0xAD]).isSuccess.1 = true ∧
    (esp32ModbusRTU.receiveBytes (ModbusRequest03 0x11 0x006B 3)
      [0x11, 0x03, 0x06, 0xAE, 0x41, 0x56, 0x52, 0x43, 0x40, 0x49, 0xAD]).getDataOffset = 3 ∧
    (esp32ModbusRTU.receiveBytes (ModbusRequest03 0x11 0x006B 3)
      [0x11, 0x03, 0x06, 0xAE, 0x41, 0x56, 0x52, 0x43, 0x40, 0x49, 0xAD]).getByteCount = 6 ∧
    (esp32ModbusRTU.receiveBytes (ModbusRequest03 0x11 0x006B 3)
      [0x11, 0x03, 0x06, 0xAE, 0x41, 0x56, 0x52, 0x43, 0x40, 0x49, 0xAD]).payload =
      [0xAE, 0x41, 0x56, 0x52, 0x43, 0x40] := by
  refine ⟨?_, ?_, by decide, by decide, by decide, by decide⟩
  · intro r h
    have hw : r.getFunctionCode = esp32Modbus.WRITE_COIL ∨
        r.getFunctionCode = esp32Modbus.WRITE_HOLD_REGISTER := h
    simp only [ModbusResponse.payload, ModbusResponse.getData, ModbusResponse.getDataOffset,
      ModbusResponse.getByteCount, if_pos hw, and_self]
  · intro r h
    have hw : ¬ (r.getFunctionCode = esp32Modbus.WRITE_COIL ∨
        r.getFunctionCode = esp32Modbus.WRITE_HOLD_REGISTER) := by
      simp only [ModbusResponse.getFunctionCode, esp32Modbus.WRITE_COIL,
        esp32Modbus.WRITE_HOLD_REGISTER]
      simp only [List.mem_cons, List.mem_singleton, List.not_mem_nil, or_false] at h
      omega
    simp only [ModbusResponse.payload, ModbusResponse.getData, ModbusResponse.getDataOffset,
      ModbusResponse.getByteCount, if_neg hw, and_self]

/-- Witness for C8: a successful echo of FC 0x06 and a read response of FC 0x03. -/
theorem payload_offset_and_length_witness :
    (esp32ModbusRTU.receiveBytes (ModbusRequest06 0x11 0x0001 0x0003)
      (ModbusRequest06 0x11 0x0001 0x0003).getMessage).payload = [0x00, 0x01, 0x00, 0x03] ∧
    (esp32ModbusRTU.receiveBytes (ModbusRequest03 0x11 0x006B 3)
      [0x11, 0x03, 0x06, 0xAE, 0x41, 0x56, 0x52, 0x43, 0x40, 0x49, 0xAD]).getData =
      [0xAE, 0x41, 0x56, 0x52, 0x43, 0x40, 0x49, 0xAD] :=
  ⟨by
    have h := (payload_offset_and_length.1
      (esp32ModbusRTU.receiveBytes (ModbusRequest06 0x11 0x0001 0x0003)
        (ModbusRequest06 0x11 0x0001 0x0003).getMessage) (by decide)).2.2
    rw [h]
    decide,
   by
    have h := (payload_offset_and_length.2.1
      (esp32ModbusRTU.receiveBytes (ModbusRequest03 0x11 0x006B 3)
        [0x11, 0x03, 0x06, 0xAE, 0x41, 0x56, 0x52, 0x43, 0x40, 0x49, 0xAD]) (by decide)).1
    rw [h]
    decide⟩


/-- C6 (failing input): the FC 0x17 encoder at slave 0x11, read address 1, read count 2,
write address 3, write count 2 and write data 0x1234, 0x5678 emits 15 = 11 + 2*2 bytes,
the length of the codec table, but the buffer has no room for the CRC: the frame ends
with the last write value 56 78, while `CRC16` over its first 13 bytes is 0xEF96. -/
theorem request17_frame_has_no_crc :
    (ModbusRequest17 0x11 1 2 3 2 [0x1234, 0x5678]).getSize = 11 + 2 * 2 ∧
    (ModbusRequest17 0x11 1 2 3 2 [0x1234, 0x5678]).getMessage =
      [0x11, 0x17, 0x00, 0x01, 0x00, 0x02, 0x00, 0x03, 0x00, 0x02, 0x04,
        0x12, 0x34, 0x56, 0x78] ∧
    CRC16 (ModbusRequest17 0x11 1 2 3 2 [0x1234, 0x5678]).getMessage 13 = 0xEF96 ∧
    ¬ crcTrailerMatches (ModbusRequest17 0x11 1 2 3 2 [0x1234, 0x5678]).getMessage := by
  decide

end esp32ModbusRTUInternals

namespace esp32ModbusRTU

/-! ## Lemmas on the scheduler -/

theorem dequeueLoop_skip (s : esp32ModbusRTU) (p : Fin 4) (ps : List (Fin 4))
    (h : s.waiting p = []) : s.dequeueLoop (p :: ps) = s.dequeueLoop ps := by
  unfold waiting at h
  cases hq : s._queues p with
  | none => simp [dequeueLoop, hq]
  | some q =>
    rw [hq] at h
    simp only at h
    simp [dequeueLoop, hq, xQueueReceive, h]

theorem dequeueLoop_hit (s : esp32ModbusRTU) (p : Fin 4) (ps : List (Fin 4))
    (r : ModbusRequest) (rest : List ModbusRequest) (h : s.waiting p = r :: rest) :
    ∃ q, s._queues p = some q ∧
      s.dequeueLoop (p :: ps) =
        (some r, { s with _queues := Function.update s._queues p (some { q with items := rest }) }) := by
  unfold waiting at h
  cases hq : s._queues p with
  | none => rw [hq] at h; simp at h
  | some q =>
    rw [hq] at h
    simp only at h
    exact ⟨q, rfl, by simp [dequeueLoop, hq, xQueueReceive, h]⟩

theorem dequeueLoop_none (s : esp32ModbusRTU) (ps : List (Fin 4))
    (h : ∀ p ∈ ps, s.waiting p = []) : s.dequeueLoop ps = (none, s) := by
  induction ps with
  | nil => rfl
  | cons p ps ih =>
    rw [dequeueLoop_skip s p ps (h p (by simp))]
    exact ih (fun p' hp' => h p' (by simp [hp']))

/-- The result of `_dequeueByPriority` when queue `p` is the first one that holds a
request. -/
theorem dequeue_first_nonempty (s : esp32ModbusRTU) (p : Fin 4) (r : ModbusRequest)
    (rest : List ModbusRequest) (h : s.waiting p = r :: rest)
    (hlt : ∀ p' : Fin 4, p' < p → s.waiting p' = []) :
    ∃ q, s._queues p = some q ∧
      s._dequeueByPriority =
        (some r, { s with _queues := Function.update s._queues p (some { q with items := rest }) }) := by
  unfold _dequeueByPriority
  fin_cases p
  · exact dequeueLoop_hit s 0 _ r rest h
  · rw [dequeueLoop_skip s 0 _ (hlt 0 (by decide))]
    exact dequeueLoop_hit s 1 _ r rest h
  · rw [dequeueLoop_skip s 0 _ (hlt 0 (by decide)), dequeueLoop_skip s 1 _ (hlt 1 (by decide))]
    exact dequeueLoop_hit s 2 _ r rest h
  · rw [dequeueLoop_skip s 0 _ (hlt 0 (by decide)), dequeueLoop_skip s 1 _ (hlt 1 (by decide)),
      dequeueLoop_skip s 2 _ (hlt 2 (by decide))]
    exact dequeueLoop_hit s 3 _ r rest h

theorem dequeue_all_empty (s : esp32ModbusRTU) (h : ∀ p, s.waiting p = []) :
    s._dequeueByPriority = (none, s) :=
  dequeueLoop_none s _ (fun p _ => h p)

/-- Some queue is the first non-empty one unless all are empty. -/
theorem first_nonempty (s : esp32ModbusRTU) :
    (∀ p, s.waiting p = []) ∨
    ∃ (p : Fin 4) (r : ModbusRequest) (rest : List ModbusRequest),
      s.waiting p = r :: rest ∧ ∀ p' : Fin 4, p' < p → s.waiting p' = [] := by
  by_cases h : ∀ p, s.waiting p = []
  · exact Or.inl h
  · right
    have hex : ∃ p : Fin 4, s.waiting p ≠ [] := by
      by_contra hn
      exact h (fun p => by_contra (fun hp => hn ⟨p, hp⟩))
    classical
    let p := Finset.min' (Finset.univ.filter (fun p : Fin 4 => s.waiting p ≠ []))
      (by obtain ⟨p, hp⟩ := hex; exact ⟨p, by simp [hp]⟩)
    have hp : p ∈ Finset.univ.filter (fun p : Fin 4 => s.waiting p ≠ []) := Finset.min'_mem _ _
    have hp1 : s.waiting p ≠ [] := by simpa using hp
    obtain ⟨r, rest, hr⟩ := List.exists_cons_of_ne_nil hp1
    refine ⟨p, r, rest, hr, ?_⟩
    intro p' hlt
    by_contra hne
    have : p ≤ p' := Finset.min'_le _ p' (by simp [hne])
    exact absurd hlt (not_lt.mpr this)

theorem waiting_update_same (s : esp32ModbusRTU) (p : Fin 4) (q : Queue) :
    ({ s with _queues := Function.update s._queues p (some q) } : esp32ModbusRTU).waiting p
      = q.items := by
  simp [waiting]

theorem waiting_update_other (s : esp32ModbusRTU) (p p' : Fin 4) (q : Queue) (h : p' ≠ p) :
    ({ s with _queues := Function.update s._queues p (some q) } : esp32ModbusRTU).waiting p'
      = s.waiting p' := by
  simp [waiting, Function.update_noteq h]

/-- C9: `_dequeueByPriority` returns and removes the head of the first non-empty queue
in the order Emergency, Sensor, Relay, Status; the rest of that queue, the other three
queues and every other field stay as they were; it returns nothing exactly when all
four queues are empty, and then the state is unchanged. -/
theorem dequeueByPriority_takes_first_nonempty (s : esp32ModbusRTU) :
    (∀ (p : Fin 4) (r : ModbusRequest) (rest : List ModbusRequest),
      s.waiting p = r :: rest → (∀ p' : Fin 4, p' < p → s.waiting p' = []) →
        s._dequeueByPriority.1 = some r ∧
        s._dequeueByPriority.2.waiting p = rest ∧
        (∀ p' : Fin 4, p' ≠ p → s._dequeueByPriority.2._queues p' = s._queues p') ∧
        (∃ q, s._queues p = some q ∧
          s._dequeueByPriority.2 =
            { s with _queues := Function.update s._queues p (some { q with items := rest }) })) ∧
    (s._dequeueByPriority.1 = none ↔ ∀ p, s.waiting p = []) ∧
    (s._dequeueByPriority.1 = none → s._dequeueByPriority.2 = s) := by
  refine ⟨?_, ?_, ?_⟩
  · intro p r rest h hlt
    obtain ⟨q, hq, hd⟩ := dequeue_first_nonempty s p r rest h hlt
    rw [hd]
    refine ⟨rfl, waiting_update_same s p _, ?_, q, hq, rfl⟩
    intro p' hne
    simp [Function.update_noteq hne]
  · constructor
    · intro hnone
      rcases first_nonempty s with h | ⟨p, r, rest, h, hlt⟩
      · exact h
      · obtain ⟨q, _, hd⟩ := dequeue_first_nonempty s p r rest h hlt
        rw [hd] at hnone
        simp at hnone
    · intro h
      rw [dequeue_all_empty s h]
  · intro hnone
    rcases first_nonempty s with h | ⟨p, r, rest, h, hlt⟩
    · rw [dequeue_all_empty s h]
    · obtain ⟨q, _, hd⟩ := dequeue_first_nonempty s p r rest h hlt
      rw [hd] at hnone
      simp at hnone


theorem addToQueue_accepted (s : esp32ModbusRTU) (r : ModbusRequest)
    (h : (s._addToQueue (some r)).1 = true) :
    ∃ p : Fin 4, p.val = r._priority ∧ s._task = true ∧
      (s._addToQueue (some r)).2.waiting p = s.waiting p ++ [r] ∧
      ∀ p' : Fin 4, p' ≠ p → (s._addToQueue (some r)).2.waiting p' = s.waiting p' := by
  unfold _addToQueue at h ⊢
  simp only [ModbusRequest.getPriority] at h ⊢
  by_cases hp : r._priority ≥ 4
  · simp [hp] at h
  · rw [dif_neg hp] at h ⊢
    cases hq : s._queues ⟨r._priority, Nat.lt_of_not_ge hp⟩ with
    | none => simp [hq] at h
    | some q =>
      simp only [hq] at h ⊢
      cases ht : s._task with
      | false => simp [ht] at h
      | true =>
        simp only [ht, Bool.not_true, Bool.false_eq_true, if_false] at h ⊢
        cases hs : xQueueSend q r with
        | none => simp [hs] at h
        | some q' =>
          simp only [hs]
          have hq' : q'.items = q.items ++ [r] := by
            unfold xQueueSend at hs
            split at hs
            · cases hs; rfl
            · cases hs
          refine ⟨⟨r._priority, Nat.lt_of_not_ge hp⟩, rfl, trivial, ?_, ?_⟩
          · simp [waiting, hq, hq']
          · intro p' hne
            simp [waiting, Function.update_noteq hne]

theorem addAll_accepted (rs : List ModbusRequest) :
    ∀ s : esp32ModbusRTU, (∀ b ∈ (s.addAll rs).1, b = true) →
      ∀ p : Fin 4, (s.addAll rs).2.waiting p =
        s.waiting p ++ rs.filter (fun r => r._priority = p.val) := by
  induction rs with
  | nil => intro s _ p; simp [addAll]
  | cons r rs ih =>
    intro s h p
    simp only [addAll] at h ⊢
    have h1 : (s._addToQueue (some r)).1 = true := h _ (by simp)
    have h2 : ∀ b ∈ ((s._addToQueue (some r)).2.addAll rs).1, b = true :=
      fun b hb => h b (by simp [hb])
    obtain ⟨p0, hp0, _, hsame, hother⟩ := addToQueue_accepted s r h1
    rw [ih _ h2 p]
    by_cases hpp : p = p0
    · subst hpp
      rw [hsame]
      simp [List.filter_cons, hp0]
    · rw [hother p hpp]
      have : ¬ r._priority = p.val := fun e => hpp (Fin.ext (by omega))
      simp [List.filter_cons, this]

theorem drain_all (fuel : Nat) : ∀ s : esp32ModbusRTU,
    (s.waiting 0).length + (s.waiting 1).length + (s.waiting 2).length +
      (s.waiting 3).length ≤ fuel →
    (s.drain fuel).1 = s.waiting 0 ++ s.waiting 1 ++ s.waiting 2 ++ s.waiting 3 ∧
    ∀ p, (s.drain fuel).2.waiting p = [] := by
  induction fuel with
  | zero =>
    intro s h
    have h0 : s.waiting 0 = [] := List.length_eq_zero.mp (by omega)
    have h1 : s.waiting 1 = [] := List.length_eq_zero.mp (by omega)
    have h2 : s.waiting 2 = [] := List.length_eq_zero.mp (by omega)
    have h3 : s.waiting 3 = [] := List.length_eq_zero.mp (by omega)
    refine ⟨by simp [drain, h0, h1, h2, h3], ?_⟩
    intro p
    fin_cases p <;> simp [drain, h0, h1, h2, h3]
  | succ n ih =>
    intro s h
    rcases first_nonempty s with he | ⟨p, r, rest, hp, hlt⟩
    · simp only [drain, dequeue_all_empty s he]
      exact ⟨by simp [he], he⟩
    · obtain ⟨q, hq, hd⟩ := dequeue_first_nonempty s p r rest hp hlt
      simp only [drain, hd]
      have hsame := waiting_update_same s p { q with items := rest }
      have hother := fun p' h => waiting_update_other s p p' { q with items := rest } h
      simp only at hsame
      generalize ({ s with _queues := Function.update s._queues p (some { q with items := rest }) }
        : esp32ModbusRTU) = s' at hsame hother ⊢
      have key : (s'.waiting 0).length + (s'.waiting 1).length + (s'.waiting 2).length +
          (s'.waiting 3).length ≤ n ∧
          r :: (s'.waiting 0 ++ s'.waiting 1 ++ s'.waiting 2 ++ s'.waiting 3) =
            s.waiting 0 ++ s.waiting 1 ++ s.waiting 2 ++ s.waiting 3 := by
        fin_cases p
        · have e1 := hother 1 (by decide)
          have e2 := hother 2 (by decide)
          have e3 := hother 3 (by decide)
          simp only [Fin.zero_eta] at hsame hp
          rw [hsame, e1, e2, e3]
          rw [hp] at h ⊢
          simp only [List.length_cons] at h
          exact ⟨by omega, by simp⟩
        · have e0 := hother 0 (by decide)
          have e2 := hother 2 (by decide)
          have e3 := hother 3 (by decide)
          have z0 := hlt 0 (by decide)
          simp only [Fin.mk_one] at hsame hp
          rw [hsame, e0, e2, e3]
          rw [hp, z0] at h ⊢
          simp only [List.length_cons] at h
          exact ⟨by simpa using (by omega : rest.length + (s.waiting 2).length +
            (s.waiting 3).length ≤ n), by simp⟩
        · have e0 := hother 0 (by decide)
          have e1 := hother 1 (by decide)
          have e3 := hother 3 (by decide)
          have z0 := hlt 0 (by decide)
          have z1 := hlt 1 (by decide)
          have hp2 : s.waiting 2 = r :: rest := hp
          have hs2 : s'.waiting 2 = rest := hsame
          rw [hs2, e0, e1, e3]
          rw [hp2, z0, z1] at h ⊢
          simp only [List.length_cons] at h
          exact ⟨by simpa using (by omega : rest.length + (s.waiting 3).length ≤ n), by simp⟩
        · have e0 := hother 0 (by decide)
          have e1 := hother 1 (by decide)
          have e2 := hother 2 (by decide)
          have z0 := hlt 0 (by decide)
          have z1 := hlt 1 (by decide)
          have z2 := hlt 2 (by decide)
          have hp3 : s.waiting 3 = r :: rest := hp
          have hs3 : s'.waiting 3 = rest := hsame
          rw [hs3, e0, e1, e2]
          rw [hp3, z0, z1, z2] at h ⊢
          simp only [List.length_cons] at h
          exact ⟨by simpa using (by omega : rest.length ≤ n), by simp⟩
      obtain ⟨ih1, ih2⟩ := ih s' key.1
      exact ⟨by rw [ih1]; exact key.2, ih2⟩


theorem addAll_accepted_priority (rs : List ModbusRequest) :
    ∀ s : esp32ModbusRTU, (∀ b ∈ (s.addAll rs).1, b = true) → ∀ r ∈ rs, r._priority < 4 := by
  induction rs with
  | nil => intro s _ r hr; simp at hr
  | cons r0 rs ih =>
    intro s h r hr
    simp only [addAll] at h
    have h1 : (s._addToQueue (some r0)).1 = true := h _ (by simp)
    have h2 : ∀ b ∈ ((s._addToQueue (some r0)).2.addAll rs).1, b = true :=
      fun b hb => h b (by simp [hb])
    rcases List.mem_cons.mp hr with rfl | hr'
    · obtain ⟨p0, hp0, _⟩ := addToQueue_accepted s r h1
      omega
    · exact ih _ h2 r hr'

theorem filter_classes_perm (rs : List ModbusRequest) (h : ∀ r ∈ rs, r._priority < 4) :
    (rs.filter (fun r => r._priority = 0) ++ rs.filter (fun r => r._priority = 1) ++
      rs.filter (fun r => r._priority = 2) ++ rs.filter (fun r => r._priority = 3)).Perm rs := by
  induction rs with
  | nil => simp
  | cons r rs ih =>
    have ih' := ih (fun x hx => h x (by simp [hx]))
    have hr : r._priority < 4 := h r (by simp)
    obtain h0 | h1 | h2 | h3 :
        r._priority = 0 ∨ r._priority = 1 ∨ r._priority = 2 ∨ r._priority = 3 := by omega
    · simp only [List.filter_cons, h0]
      simpa using ih'
    · simp only [List.filter_cons, h1]
      simp only [List.append_assoc] at ih' ⊢
      simpa using List.perm_middle.trans (List.Perm.cons r ih')
    · simp only [List.filter_cons, h2]
      simp only [List.append_assoc] at ih' ⊢
      rw [← List.append_assoc]
      refine List.perm_middle.trans (List.Perm.cons r ?_)
      simpa using ih'
    · simp only [List.filter_cons, h3]
      simp only [List.append_assoc] at ih' ⊢
      rw [← List.append_assoc, ← List.append_assoc]
      refine List.perm_middle.trans (List.Perm.cons r ?_)
      simpa using ih'

/-- C10: when a sequence of requests is submitted to empty queues and every submit is
accepted, dequeuing until empty (any number of attempts not below the number of
requests) yields all Emergency requests in their enqueue order, then all Sensor, then
all Relay, then all Status requests, each request exactly once, and leaves the queues
empty. Submitting R1 (Relay), R2 (Status), R3 (Emergency), R4 (Sensor) to a started
instance yields R3, R4, R1, R2. -/
theorem drain_yields_priority_classes_in_order (s : esp32ModbusRTU) (rs : List ModbusRequest)
    (fuel : Nat) (hempty : ∀ p, s.waiting p = [])
    (haccepted : ∀ b ∈ (s.addAll rs).1, b = true) (hfuel : rs.length ≤ fuel) :
    ((s.addAll rs).2.drain fuel).1 =
      rs.filter (fun r => r._priority = esp32Modbus.EMERGENCY) ++
      rs.filter (fun r => r._priority = esp32Modbus.SENSOR) ++
      rs.filter (fun r => r._priority = esp32Modbus.RELAY) ++
      rs.filter (fun r => r._priority = esp32Modbus.STATUS) ∧
    ((s.addAll rs).2.drain fuel).1.Perm rs ∧
    (∀ p, ((s.addAll rs).2.drain fuel).2.waiting p = []) ∧
    ((startedInstance.addAll [scenarioR1, scenarioR2, scenarioR3, scenarioR4]).2.drain 4).1 =
      [scenarioR3, scenarioR4, scenarioR1, scenarioR2] := by
  have hw := addAll_accepted rs s haccepted
  have hperm := filter_classes_perm rs (addAll_accepted_priority rs s haccepted)
  have w0 : (s.addAll rs).2.waiting 0 = rs.filter (fun r => r._priority = 0) := by
    simpa [hempty] using hw 0
  have w1 : (s.addAll rs).2.waiting 1 = rs.filter (fun r => r._priority = 1) := by
    simpa [hempty] using hw 1
  have w2 : (s.addAll rs).2.waiting 2 = rs.filter (fun r => r._priority = 2) := by
    simpa [hempty] using hw 2
  have w3 : (s.addAll rs).2.waiting 3 = rs.filter (fun r => r._priority = 3) := by
    simpa [hempty] using hw 3
  have hlen := hperm.length_eq
  simp only [List.length_append] at hlen
  obtain ⟨d1, d2⟩ := drain_all fuel (s.addAll rs).2 (by rw [w0, w1, w2, w3]; omega)
  rw [w0, w1, w2, w3] at d1
  refine ⟨?_, ?_, d2, by decide⟩
  · rw [d1]
    rfl
  · rw [d1]
    exact hperm

/-- Witness for C10: scenario S5 on a started instance, four accepted submits. -/
theorem drain_yields_priority_classes_in_order_witness :
    (∀ p, startedInstance.waiting p = []) ∧
    (startedInstance.addAll [scenarioR1, scenarioR2, scenarioR3, scenarioR4]).1
      = [true, true, true, true] ∧
    ((startedInstance.addAll [scenarioR1, scenarioR2, scenarioR3, scenarioR4]).2.drain 4).1.Perm
      [scenarioR1, scenarioR2, scenarioR3, scenarioR4] :=
  ⟨by decide, by decide,
    (drain_yields_priority_classes_in_order startedInstance
      [scenarioR1, scenarioR2, scenarioR3, scenarioR4] 4 (by decide) (by decide)
      (by decide)).2.1⟩

/-- Witness for C9: with R1 (Relay) and R2 (Status) waiting, the Relay queue is the first
non-empty one and `_dequeueByPriority` returns R1, leaving R2 in the Status queue. -/
theorem dequeueByPriority_takes_first_nonempty_witness :
    (startedInstance.addAll [scenarioR1, scenarioR2]).2.waiting 2 = scenarioR1 :: [] ∧
    (∀ p' : Fin 4, p' < 2 → (startedInstance.addAll [scenarioR1, scenarioR2]).2.waiting p' = []) ∧
    (startedInstance.addAll [scenarioR1, scenarioR2]).2._dequeueByPriority.1 = some scenarioR1 ∧
    (startedInstance.addAll [scenarioR1, scenarioR2]).2._dequeueByPriority.2.waiting 2 = [] ∧
    (startedInstance.addAll [scenarioR1, scenarioR2]).2._dequeueByPriority.2.waiting 3 =
      [scenarioR2] :=
  ⟨by decide, by decide,
    ((dequeueByPriority_takes_first_nonempty
      (startedInstance.addAll [scenarioR1, scenarioR2]).2).1 2 scenarioR1 []
      (by decide) (by decide)).1,
    ((dequeueByPriority_takes_first_nonempty
      (startedInstance.addAll [scenarioR1, scenarioR2]).2).1 2 scenarioR1 []
      (by decide) (by decide)).2.1,
    by decide⟩

end esp32ModbusRTU

namespace esp32ModbusRTUInternals

/-! ## Lemmas on runs of `add` -/

theorem take_succ_set (l : List Nat) : ∀ (i x : Nat), i < l.length →
    (l.set i x).take (i + 1) = l.take i ++ [x] := by
  induction l with
  | nil => intro i x h; simp at h
  | cons a l ih =>
    intro i x h
    cases i with
    | zero => simp
    | succ j =>
      simp only [List.set_cons_succ, List.take_succ_cons, List.cons_append, List.cons.injEq,
        true_and]
      exact ih j x (by simpa using h)

/-- One `add` on a buffer with room appends the byte to the stored bytes. -/
theorem ModbusMessage.add_stored (m : ModbusMessage) (v : Nat)
    (hb : m._buffer.length = m._length) (hi : m._index < m._length) :
    (m.add v).stored = m.stored ++ [v % 256] ∧ (m.add v)._index = m._index + 1 := by
  unfold ModbusMessage.add ModbusMessage.stored
  rw [if_neg (by omega)]
  exact ⟨take_succ_set _ _ _ (by omega), rfl⟩

theorem ModbusMessage.add_full (m : ModbusMessage) (v : Nat) (hi : m._length ≤ m._index) :
    m.add v = m := by
  unfold ModbusMessage.add
  rw [if_pos hi]

/-- A run of `add` calls that fits into the buffer appends all its bytes. -/
theorem ModbusMessage.addMany_stored (values : List Nat) : ∀ m : ModbusMessage,
    m._buffer.length = m._length → m._index + values.length ≤ m._length →
    (m.addMany values).stored = m.stored ++ values.map (· % 256) ∧
    (m.addMany values)._index = m._index + values.length ∧
    (m.addMany values)._length = m._length ∧
    (m.addMany values)._buffer.length = m._length := by
  induction values with
  | nil => intro m hb _; simp [ModbusMessage.addMany, hb]
  | cons v vs ih =>
    intro m hb hi
    simp only [List.length_cons] at hi
    obtain ⟨h1, h2⟩ := m.add_stored v hb (by omega)
    have hl := m.add_length v
    have hbl := m.add_buffer_length v
    obtain ⟨a, b, c, d⟩ := ih (m.add v) (by omega) (by omega)
    simp only [ModbusMessage.addMany, List.foldl_cons] at a b c d ⊢
    refine ⟨?_, ?_, ?_, ?_⟩
    · rw [a, h1]; simp
    · rw [b, h2]; simp only [List.length_cons]; omega
    · rw [c, hl]
    · rw [d, hl]

/-- The index after a run of `add` calls never exceeds what the run can add. -/
theorem ModbusMessage.addMany_index_le (values : List Nat) : ∀ m : ModbusMessage,
    (m.addMany values)._index ≤ m._index + values.length ∧
    m._index ≤ (m.addMany values)._index := by
  induction values with
  | nil => intro m; simp [ModbusMessage.addMany]
  | cons v vs ih =>
    intro m
    have h := ih (m.add v)
    simp only [ModbusMessage.addMany, List.foldl_cons, List.length_cons] at h ⊢
    have h2 : (m.add v)._index ≤ m._index + 1 ∧ m._index ≤ (m.add v)._index := by
      unfold ModbusMessage.add
      split <;> simp
    omega

theorem ModbusMessage.addMany_append (m : ModbusMessage) (xs ys : List Nat) :
    m.addMany (xs ++ ys) = (m.addMany xs).addMany ys := by
  simp [ModbusMessage.addMany, List.foldl_append]

theorem ModbusMessage.addMany_length (values : List Nat) : ∀ m : ModbusMessage,
    (m.addMany values)._length = m._length ∧
    (m.addMany values)._buffer.length = m._buffer.length := by
  induction values with
  | nil => intro m; simp [ModbusMessage.addMany]
  | cons v vs ih =>
    intro m
    have h := ih (m.add v)
    simp only [ModbusMessage.addMany, List.foldl_cons] at h ⊢
    rw [h.1, h.2, m.add_length, m.add_buffer_length]
    exact ⟨rfl, rfl⟩

/-- When a run of `add` calls on an empty buffer ends with as many bytes stored as the
run has values, the stored bytes are the values of the run. -/
theorem ModbusMessage.addMany_new_stored (n : Nat) (values : List Nat)
    (h : ((ModbusMessage.new n).addMany values)._index = values.length) :
    ((ModbusMessage.new n).addMany values).stored = values.map (· % 256) ∧
    values.length ≤ (ModbusMessage.new n)._length := by
  have hlen := (ModbusMessage.addMany_length values (ModbusMessage.new n)).1
  have hfit : values.length ≤ (ModbusMessage.new n)._length := by
    by_contra hc
    have hle : ((ModbusMessage.new n).addMany values)._index ≤ (ModbusMessage.new n)._length := by
      have : ∀ (vs : List Nat) (m : ModbusMessage), m._index ≤ m._length →
          (m.addMany vs)._index ≤ m._length := by
        intro vs
        induction vs with
        | nil => intro m hm; simpa [ModbusMessage.addMany] using hm
        | cons v vs ih =>
          intro m hm
          have := ih (m.add v) (by rw [m.add_length]; exact m.add_index_le v hm)
          simpa [ModbusMessage.addMany, m.add_length] using this
      exact this values _ (by simp [ModbusMessage.new_index])
    omega
  obtain ⟨a, _⟩ := ModbusMessage.addMany_stored values (ModbusMessage.new n)
    (ModbusMessage.new_buffer_length n) (by simpa [ModbusMessage.new_index] using hfit)
  refine ⟨?_, hfit⟩
  rw [a]
  simp [ModbusMessage.stored, ModbusMessage.new_index]


/-! ## Frames built by a header, data and CRC run -/

theorem ModbusRequest.fold_add_eq (f : Nat → Nat) (l : List Nat) : ∀ r : ModbusRequest,
    l.foldl (fun (acc : ModbusRequest) i => acc.add (f i)) r =
      { r with toModbusMessage := r.toModbusMessage.addMany (l.map f) } := by
  induction l with
  | nil => intro r; rfl
  | cons i l ih =>
    intro r
    simp only [List.foldl_cons, List.map_cons, ModbusMessage.addMany]
    rw [ih (r.add (f i))]
    rfl

theorem getD_append_pair (P : List Nat) (x y : Nat) :
    (P ++ [x, y]).getD P.length 0 = x ∧ (P ++ [x, y]).getD (P.length + 1) 0 = y := by
  induction P with
  | nil => exact ⟨rfl, rfl⟩
  | cons a P ih => simpa using ih

/-- A frame followed by the low and the high byte of its `CRC16` has a matching trailer. -/
theorem crcTrailerMatches_append (P : List Nat) (crc : Nat) (h : crc = CRC16 P P.length) :
    crcTrailerMatches (P ++ [low crc % 256, high crc % 256]) := by
  have hl : (P ++ [low crc % 256, high crc % 256]).length - 2 = P.length := by simp
  have ht : (P ++ [low crc % 256, high crc % 256]).take P.length = P := by simp
  have hc : CRC16 (P ++ [low crc % 256, high crc % 256]) P.length = crc := by
    rw [← CRC16_take, ht, h]
  unfold crcTrailerMatches
  rw [hl, hc]
  have h1 : (P ++ [low crc % 256, high crc % 256]).length - 1 = P.length + 1 := by simp
  rw [h1]
  rw [(getD_append_pair P _ _).1, (getD_append_pair P _ _).2]
  constructor
  · simp [low_eq_mod]
  · simp [high_eq_div_mod]

theorem ModbusMessage.addManyWithCRC_eq (m : ModbusMessage) (P : List Nat) :
    m.addManyWithCRC P =
      m.addMany (P ++ [low (CRC16 (m.addMany P)._buffer P.length),
        high (CRC16 (m.addMany P)._buffer P.length)]) := by
  simp only [ModbusMessage.addManyWithCRC, ModbusMessage.addMany, List.foldl_append,
    List.foldl_cons, List.foldl_nil]

/-- The stored bytes of a buffer filled by a run `P` and then the two bytes of `CRC16` over
the buffer, when everything fitted: the run followed by its CRC, low byte first. -/
theorem frame_of_run (L : Nat) (P : List Nat)
    (hidx : ((ModbusMessage.new L).addManyWithCRC P)._index = P.length + 2) :
    ((ModbusMessage.new L).addManyWithCRC P).stored =
      P.map (· % 256) ++
        [low (CRC16 (P.map (· % 256)) P.length) % 256,
         high (CRC16 (P.map (· % 256)) P.length) % 256] ∧
    crcTrailerMatches ((ModbusMessage.new L).addManyWithCRC P).stored := by
  rw [ModbusMessage.addManyWithCRC_eq] at hidx ⊢
  generalize hcrc : CRC16 ((ModbusMessage.new L).addMany P)._buffer P.length = crc at hidx ⊢
  obtain ⟨hst, hfit⟩ := ModbusMessage.addMany_new_stored L (P ++ [low crc, high crc])
    (by simpa using hidx)
  simp only [List.length_append, List.length_cons, List.length_nil] at hfit
  obtain ⟨hP, hPi, _, _⟩ := ModbusMessage.addMany_stored P (ModbusMessage.new L)
    (ModbusMessage.new_buffer_length L) (by simp [ModbusMessage.new_index]; omega)
  have hPs : ((ModbusMessage.new L).addMany P)._buffer.take P.length = P.map (· % 256) := by
    have := hP
    simp only [ModbusMessage.stored, hPi, ModbusMessage.new_index, Nat.zero_add, List.take_zero,
      List.nil_append] at this
    exact this
  have hcrc2 : crc = CRC16 (P.map (· % 256)) (P.map (· % 256)).length := by
    rw [← hcrc, ← CRC16_take, hPs]
    simp
  have hst2 : ((ModbusMessage.new L).addMany (P ++ [low crc, high crc])).stored =
      P.map (· % 256) ++ [low crc % 256, high crc % 256] := by
    rw [hst]; simp
  refine ⟨?_, ?_⟩
  · rw [hst2, hcrc2]; simp
  · rw [hst2]
    exact crcTrailerMatches_append _ crc hcrc2


theorem emit8_run (r : ModbusRequest) (word : Nat) :
    (r.emit8 word).toModbusMessage =
      r.toModbusMessage.addManyWithCRC
        [r._slaveAddress, r._functionCode, high r._address, low r._address, high word,
          low word] := by
  simp only [ModbusRequest.emit8, ModbusRequest.add, ModbusMessage.addManyWithCRC,
    ModbusMessage.addMany, List.foldl_cons, List.foldl_nil, List.length_cons, List.length_nil]

theorem request0F_run (s a n : Nat) (values : List Bool) :
    (ModbusRequest0F s a n values).toModbusMessage =
      (ModbusMessage.new (9 + (n + 7) / 8)).addManyWithCRC
        ([s, esp32Modbus.WRITE_MULT_COILS, high a, low a, high n, low n, (n + 7) / 8 % 65536] ++
          (List.range ((n + 7) / 8 % 65536)).map (fun i => packBits values n i 8 0 0)) := by
  have hlen : ([s, esp32Modbus.WRITE_MULT_COILS, high a, low a, high n, low n,
      (n + 7) / 8 % 65536] ++ (List.range ((n + 7) / 8 % 65536)).map
        (fun i => packBits values n i 8 0 0)).length = 7 + (n + 7) / 8 % 65536 := by
    simp; omega
  simp only [ModbusMessage.addManyWithCRC, hlen]
  simp only [ModbusRequest0F, ModbusRequest.fold_add_eq]
  simp only [ModbusRequest.add, ModbusRequest.new, ModbusMessage.addMany, List.foldl_append,
    List.foldl_cons, List.foldl_nil]

theorem request16_run (s a n : Nat) (data : List Nat) :
    (ModbusRequest16 s a n data).toModbusMessage =
      (ModbusMessage.new (9 + n * 2)).addManyWithCRC
        ([s, esp32Modbus.WRITE_MULT_REGISTERS, high a, low a, high n, low n, n * 2 % 65536] ++
          (List.range (n * 2 % 65536)).map (fun i => data.getD i 0)) := by
  have hlen : ([s, esp32Modbus.WRITE_MULT_REGISTERS, high a, low a, high n, low n,
      n * 2 % 65536] ++ (List.range (n * 2 % 65536)).map
        (fun i => data.getD i 0)).length = 7 + n * 2 % 65536 := by
    simp; omega
  simp only [ModbusMessage.addManyWithCRC, hlen]
  simp only [ModbusRequest16, ModbusRequest.fold_add_eq]
  simp only [ModbusRequest.add, ModbusRequest.new, ModbusMessage.addMany, List.foldl_append,
    List.foldl_cons, List.foldl_nil]


theorem ModbusMessage.addMany_index_le_length (values : List Nat) : ∀ m : ModbusMessage,
    m._index ≤ m._length → (m.addMany values)._index ≤ m._length := by
  induction values with
  | nil => intro m hm; simpa [ModbusMessage.addMany] using hm
  | cons v vs ih =>
    intro m hm
    have := ih (m.add v) (by rw [m.add_length]; exact m.add_index_le v hm)
    simpa [ModbusMessage.addMany, m.add_length] using this

theorem ModbusMessage.addManyWithCRC_index_le (L : Nat) (P : List Nat) :
    ((ModbusMessage.new L).addManyWithCRC P)._index ≤ 255 := by
  rw [ModbusMessage.addManyWithCRC_eq]
  have h1 := ModbusMessage.addMany_index_le_length
    (P ++ [low (CRC16 ((ModbusMessage.new L).addMany P)._buffer P.length),
      high (CRC16 ((ModbusMessage.new L).addMany P)._buffer P.length)])
    (ModbusMessage.new L) (by simp [ModbusMessage.new_index])
  have h3 : (ModbusMessage.new L)._length ≤ 255 := by
    rw [ModbusMessage.new_length]
    split <;> omega
  omega

/-- A frame built by `addManyWithCRC` that holds the whole run and the CRC starts with the
first two values of the run and ends with the CRC of what precedes. -/
theorem frame_head_and_trailer (L s fc : Nat) (rest : List Nat)
    (hidx : ((ModbusMessage.new L).addManyWithCRC (s :: fc :: rest))._index = rest.length + 4) :
    ((ModbusMessage.new L).addManyWithCRC (s :: fc :: rest)).stored.getD 0 0 = s % 256 ∧
    ((ModbusMessage.new L).addManyWithCRC (s :: fc :: rest)).stored.getD 1 0 = fc % 256 ∧
    crcTrailerMatches ((ModbusMessage.new L).addManyWithCRC (s :: fc :: rest)).stored := by
  obtain ⟨h1, h2⟩ := frame_of_run L (s :: fc :: rest) (by simpa using hidx)
  refine ⟨?_, ?_, h2⟩
  · rw [h1]; simp
  · rw [h1]; simp

theorem emit8_frame (r : ModbusRequest) (word : Nat) (h : r.toModbusMessage = ModbusMessage.new 8)
    (hs : r._slaveAddress < 256) (hf : r._functionCode < 256) :
    (r.emit8 word).getSize = 8 ∧ FrameHasHeadAndCRC (r.emit8 word) r._slaveAddress r._functionCode := by
  have hi := (emit8_spec r word h).2.1
  refine ⟨hi, ?_⟩
  unfold FrameHasHeadAndCRC
  have hrun := emit8_run r word
  rw [h] at hrun
  have hidx : ((ModbusMessage.new 8).addManyWithCRC [r._slaveAddress, r._functionCode,
      high r._address, low r._address, high word, low word])._index =
      [high r._address, low r._address, high word, low word].length + 4 := by
    rw [← hrun]; exact hi
  have := frame_head_and_trailer 8 _ _ _ hidx
  rw [← hrun, Nat.mod_eq_of_lt hs, Nat.mod_eq_of_lt hf] at this
  exact this

/-- The encoders other than FC 0x17 frame their request with slave address, function
code and CRC: for FC 0x01
to 0x06 the frame always has the 8 bytes of the table; for FC 0x0F and 0x10, whenever the
emitted frame has the length of the table. -/
theorem encoders_other_than_17_frame_crc (slave address word count : Nat) (value : Bool)
    (values : List Bool) (data : List Nat) (hs : slave < 256) (hc : count < 65536) :
    ((ModbusRequest01 slave address word).getSize = 8 ∧
      FrameHasHeadAndCRC (ModbusRequest01 slave address word) slave 0x01) ∧
    ((ModbusRequest02 slave address word).getSize = 8 ∧
      FrameHasHeadAndCRC (ModbusRequest02 slave address word) slave 0x02) ∧
    ((ModbusRequest03 slave address word).getSize = 8 ∧
      FrameHasHeadAndCRC (ModbusRequest03 slave address word) slave 0x03) ∧
    ((ModbusRequest04 slave address word).getSize = 8 ∧
      FrameHasHeadAndCRC (ModbusRequest04 slave address word) slave 0x04) ∧
    ((ModbusRequest05 slave address value).getSize = 8 ∧
      FrameHasHeadAndCRC (ModbusRequest05 slave address value) slave 0x05) ∧
    ((ModbusRequest06 slave address word).getSize = 8 ∧
      FrameHasHeadAndCRC (ModbusRequest06 slave address word) slave 0x06) ∧
    ((ModbusRequest0F slave address count values).getSize = 9 + (count + 7) / 8 →
      FrameHasHeadAndCRC (ModbusRequest0F slave address count values) slave 0x0F) ∧
    ((ModbusRequest16 slave address count data).getSize = 9 + 2 * count →
      FrameHasHeadAndCRC (ModbusRequest16 slave address count data) slave 0x10) := by
  rw [ModbusRequest01_eq, ModbusRequest02_eq, ModbusRequest03_eq, ModbusRequest04_eq,
    ModbusRequest05_eq, ModbusRequest06_eq]
  refine ⟨emit8_frame _ _ rfl hs (show esp32Modbus.READ_COIL < 256 by decide),
    emit8_frame _ _ rfl hs (show esp32Modbus.READ_DISCR_INPUT < 256 by decide),
    emit8_frame _ _ rfl hs (show esp32Modbus.READ_HOLD_REGISTER < 256 by decide),
    emit8_frame _ _ rfl hs (show esp32Modbus.READ_INPUT_REGISTER < 256 by decide),
    emit8_frame _ _ rfl hs (show esp32Modbus.WRITE_COIL < 256 by decide),
    emit8_frame _ _ rfl hs (show esp32Modbus.WRITE_HOLD_REGISTER < 256 by decide), ?_, ?_⟩
  · intro hsize
    have hrun := request0F_run slave address count values
    have hbc : (count + 7) / 8 % 65536 = (count + 7) / 8 := Nat.mod_eq_of_lt (by omega)
    unfold FrameHasHeadAndCRC
    simp only [ModbusMessage.getSize] at hsize
    rw [hrun] at hsize ⊢
    simp only [List.cons_append, List.nil_append] at hsize ⊢
    have := frame_head_and_trailer _ slave esp32Modbus.WRITE_MULT_COILS _
      (by rw [hsize]; simp [hbc]; omega)
    rw [Nat.mod_eq_of_lt hs] at this
    exact this
  · intro hsize
    have hrun := request16_run slave address count data
    have hbc : count * 2 % 65536 = count * 2 := by
      by_cases h : count * 2 < 65536
      · exact Nat.mod_eq_of_lt h
      · exfalso
        have hle : (ModbusRequest16 slave address count data).toModbusMessage._index ≤ 255 := by
          rw [hrun]
          exact ModbusMessage.addManyWithCRC_index_le _ _
        simp only [ModbusMessage.getSize] at hsize
        omega
    unfold FrameHasHeadAndCRC
    simp only [ModbusMessage.getSize] at hsize
    rw [hrun] at hsize ⊢
    simp only [List.cons_append, List.nil_append] at hsize ⊢
    have := frame_head_and_trailer _ slave esp32Modbus.WRITE_MULT_REGISTERS _
      (by rw [hsize]; simp [hbc]; omega)
    rw [Nat.mod_eq_of_lt hs] at this
    exact this

/-- The FC 0x0F and FC 0x10 encoders at 10 coils and 2 registers emit frames of the table
length, which carry their CRC. -/
theorem encoders_other_than_17_frame_crc_example :
    (ModbusRequest0F 0x11 0x13 10 [true, false, true, true, false, false, true, true, true,
      false]).getSize = 9 + (10 + 7) / 8 ∧
    FrameHasHeadAndCRC (ModbusRequest0F 0x11 0x13 10 [true, false, true, true, false, false,
      true, true, true, false]) 0x11 0x0F ∧
    (ModbusRequest16 0x11 1 2 [0, 10, 1, 2]).getSize = 9 + 2 * 2 ∧
    FrameHasHeadAndCRC (ModbusRequest16 0x11 1 2 [0, 10, 1, 2]) 0x11 0x10 :=
  ⟨by decide,
   (encoders_other_than_17_frame_crc 0x11 0x13 0 10 true [true, false, true, true, false, false,
      true, true, true, false] [] (by decide) (by decide)).2.2.2.2.2.2.1 (by decide),
   by decide,
   (encoders_other_than_17_frame_crc 0x11 1 0 2 true [] [0, 10, 1, 2]
      (by decide) (by decide)).2.2.2.2.2.2.2 (by decide)⟩

/-- How `isSuccess` decides on a complete response: with bit 7 of byte 1 clear it is true
exactly when the CRC trailer matches and bytes 0 and 1 are the request's slave address and
function code; with bit 7 set it is true exactly when byte 2 is 0. -/
theorem isSuccess_iff_cases (req : ModbusRequest) (bytes : List Nat)
    (hc : (esp32ModbusRTU.receiveBytes req bytes).isComplete = true) :
    (((esp32ModbusRTU.receiveBytes req bytes).stored.getD 1 0).testBit 7 = false →
      ((esp32ModbusRTU.receiveBytes req bytes).isSuccess.1 = true ↔
        crcTrailerMatches (esp32ModbusRTU.receiveBytes req bytes).stored ∧
        (esp32ModbusRTU.receiveBytes req bytes).stored.getD 0 0 = req.getSlaveAddress ∧
        (esp32ModbusRTU.receiveBytes req bytes).stored.getD 1 0 = req.getFunctionCode)) ∧
    (((esp32ModbusRTU.receiveBytes req bytes).stored.getD 1 0).testBit 7 = true →
      ((esp32ModbusRTU.receiveBytes req bytes).isSuccess.1 = true ↔
        (esp32ModbusRTU.receiveBytes req bytes).stored.getD 2 0 = 0)) := by
  have hcls := isSuccess_error_classification req bytes
  have h1 : (esp32ModbusRTU.receiveBytes req bytes).isSuccess.1 =
      decide ((esp32ModbusRTU.receiveBytes req bytes).isSuccess.2.getError = esp32Modbus.SUCCESS) :=
    rfl
  rw [h1, hcls]
  simp only [hc, Bool.true_eq_false, if_false, decide_eq_true_eq]
  constructor
  · intro hb
    simp only [hb, Bool.false_eq_true, if_false]
    by_cases k1 : crcTrailerMatches (esp32ModbusRTU.receiveBytes req bytes).stored
    · rw [if_neg (not_not.mpr k1)]
      by_cases k2 : (esp32ModbusRTU.receiveBytes req bytes).stored.getD 0 0 = req.getSlaveAddress
      · rw [if_neg (not_not.mpr k2)]
        by_cases k3 :
          (esp32ModbusRTU.receiveBytes req bytes).stored.getD 1 0 = req.getFunctionCode
        · rw [if_neg (not_not.mpr k3)]
          exact ⟨fun _ => ⟨k1, k2, k3⟩, fun _ => rfl⟩
        · rw [if_pos k3]
          exact ⟨fun h => absurd h (by decide), fun h => absurd h.2.2 k3⟩
      · rw [if_pos k2]
        exact ⟨fun h => absurd h (by decide), fun h => absurd h.2.1 k2⟩
    · rw [if_pos k1]
      exact ⟨fun h => absurd h (by decide), fun h => absurd h.1 k1⟩
  · intro hb
    simp only [hb, if_true, esp32Modbus.SUCCESS]

end esp32ModbusRTUInternals

namespace esp32ModbusRTU

/-! ## Submitting: acceptance and rejection -/

/-- A rejected `_addToQueue` leaves the instance as it was. -/
theorem addToQueue_rejected (s : esp32ModbusRTU) (request : Option ModbusRequest)
    (h : (s._addToQueue request).1 = false) : (s._addToQueue request).2 = s := by
  unfold _addToQueue at h ⊢
  cases request with
  | none => rfl
  | some r =>
    simp only at h ⊢
    by_cases hp : r.getPriority ≥ 4
    · rw [dif_pos hp]
    · rw [dif_neg hp] at h ⊢
      cases hq : s._queues ⟨r.getPriority, Nat.lt_of_not_ge hp⟩ with
      | none => rfl
      | some q =>
        simp only [hq] at h ⊢
        cases ht : s._task with
        | false => rfl
        | true =>
          simp only [ht, Bool.not_true, Bool.false_eq_true, if_false] at h ⊢
          cases hs : xQueueSend q r with
          | none => rfl
          | some q' => simp [hs] at h

/-- Without a task handle `_addToQueue` rejects every request. -/
theorem addToQueue_no_task (s : esp32ModbusRTU) (request : Option ModbusRequest)
    (h : s._task = false) : s._addToQueue request = (false, s) := by
  unfold _addToQueue
  cases request with
  | none => rfl
  | some r =>
    simp only
    by_cases hp : r.getPriority ≥ 4
    · rw [dif_pos hp]
    · rw [dif_neg hp]
      cases hq : s._queues ⟨r.getPriority, Nat.lt_of_not_ge hp⟩ with
      | none => rfl
      | some q => simp [h]

/-- What an accepted `_addToQueue` does: the queue of the request's priority had room
and gets the request at its tail; nothing else changes. -/
theorem addToQueue_true (s : esp32ModbusRTU) (r : ModbusRequest)
    (h : (s._addToQueue (some r)).1 = true) :
    ∃ (p : Fin 4) (q : Queue), p.val = r._priority ∧ s._task = true ∧ s._queues p = some q ∧
      q.items.length < q.uxLength ∧
      (s._addToQueue (some r)).2 =
        { s with _queues := Function.update s._queues p (some { q with items := q.items ++ [r] }) } := by
  unfold _addToQueue at h ⊢
  simp only [ModbusRequest.getPriority] at h ⊢
  by_cases hp : r._priority ≥ 4
  · simp [hp] at h
  · rw [dif_neg hp] at h ⊢
    cases hq : s._queues ⟨r._priority, Nat.lt_of_not_ge hp⟩ with
    | none => simp [hq] at h
    | some q =>
      simp only [hq] at h ⊢
      cases ht : s._task with
      | false => simp [ht] at h
      | true =>
        simp only [ht, Bool.not_true, Bool.false_eq_true, if_false] at h ⊢
        by_cases hroom : q.items.length < q.uxLength
        · refine ⟨⟨r._priority, Nat.lt_of_not_ge hp⟩, q, rfl, trivial, hq, hroom, ?_⟩
          simp [xQueueSend, hroom]
        · simp [xQueueSend, hroom] at h

/-- With a task handle, a valid priority and room in the queue, `_addToQueue` accepts. -/
theorem addToQueue_of_room (s : esp32ModbusRTU) (r : ModbusRequest) (p : Fin 4) (q : Queue)
    (hp : p.val = r._priority) (ht : s._task = true) (hq : s._queues p = some q)
    (hroom : q.items.length < q.uxLength) :
    s._addToQueue (some r) =
      (true, { s with
        _queues := Function.update s._queues p (some { q with items := q.items ++ [r] }) }) := by
  have hlt : ¬ r._priority ≥ 4 := by have := p.isLt; omega
  have hpe : (⟨r._priority, Nat.lt_of_not_ge hlt⟩ : Fin 4) = p := Fin.ext hp.symm
  unfold _addToQueue
  simp only [ModbusRequest.getPriority]
  rw [dif_neg hlt]
  simp only [hpe, hq, ht, Bool.not_true, Bool.false_eq_true, if_false, xQueueSend, hroom, if_true]

/-- With a task handle and a full queue, `_addToQueue` rejects. -/
theorem addToQueue_of_full (s : esp32ModbusRTU) (r : ModbusRequest) (p : Fin 4) (q : Queue)
    (hp : p.val = r._priority) (hq : s._queues p = some q)
    (hfull : ¬ q.items.length < q.uxLength) :
    s._addToQueue (some r) = (false, s) := by
  have hlt : ¬ r._priority ≥ 4 := by have := p.isLt; omega
  have hpe : (⟨r._priority, Nat.lt_of_not_ge hlt⟩ : Fin 4) = p := Fin.ext hp.symm
  unfold _addToQueue
  simp only [ModbusRequest.getPriority]
  rw [dif_neg hlt]
  simp only [hpe, hq, xQueueSend, hfull, if_false]
  cases s._task <;> rfl


theorem fold_priority (g : ModbusRequest → Nat → ModbusRequest)
    (hg : ∀ acc i, (g acc i)._priority = acc._priority) (l : List Nat) :
    ∀ r : ModbusRequest, (l.foldl g r)._priority = r._priority := by
  induction l with
  | nil => intro r; rfl
  | cons i l ih => intro r; rw [List.foldl_cons, ih, hg]

theorem ModbusRequest0F_priority (s a n : Nat) (values : List Bool) :
    (ModbusRequest0F s a n values)._priority = esp32Modbus.RELAY := by
  simp only [ModbusRequest0F, ModbusRequest.add]
  refine (fold_priority _ ?_ _ _).trans rfl
  intro _ _
  rfl

theorem ModbusRequest16_priority (s a n : Nat) (data : List Nat) :
    (ModbusRequest16 s a n data)._priority = esp32Modbus.RELAY := by
  simp only [ModbusRequest16, ModbusRequest.add]
  refine (fold_priority _ ?_ _ _).trans rfl
  intro _ _
  rfl

theorem ModbusRequest17_priority (s ra rc wa wc : Nat) (data : List Nat) :
    (ModbusRequest17 s ra rc wa wc data)._priority = esp32Modbus.RELAY := by
  simp only [ModbusRequest17, ModbusRequest.add]
  refine (fold_priority _ ?_ _ _).trans rfl
  intro _ _
  rfl

/-- The priority of the request a call builds: Relay without a priority argument, the
argument otherwise. -/
theorem Submit.request_priority (c : Submit) :
    c.request._priority = (c.priorityArg).getD esp32Modbus.RELAY := by
  cases c with
  | writeMultipleCoils => exact ModbusRequest0F_priority _ _ _ _
  | writeMultHoldingRegisters => exact ModbusRequest16_priority _ _ _ _
  | readWriteMultipleRegisters => exact ModbusRequest17_priority _ _ _ _ _ _
  | _ => rfl

/-- A call either fails its parameter check, leaving the instance as it was, or hands
the request it builds to `_addToQueue`. -/
theorem submit_cases (s : esp32ModbusRTU) (c : Submit) :
    s.submit c = (false, s) ∨ s.submit c = s._addToQueue (some c.request) := by
  cases c with
  | writeMultipleCoils sl a n v =>
    simp only [submit, writeMultipleCoils, Submit.request]
    split
    · exact Or.inl rfl
    · exact Or.inr rfl
  | writeMultHoldingRegisters sl a n d =>
    simp only [submit, writeMultHoldingRegisters, Submit.request]
    split
    · exact Or.inl rfl
    · exact Or.inr rfl
  | readWriteMultipleRegisters sl ra rc wa wc d =>
    simp only [submit, readWriteMultipleRegisters, Submit.request]
    split
    · exact Or.inl rfl
    · exact Or.inr rfl
  | readWriteMultipleRegistersWithPriority sl ra rc wa wc d p =>
    simp only [submit, readWriteMultipleRegistersWithPriority, Submit.request]
    split
    · exact Or.inl rfl
    · exact Or.inr rfl
  | _ => exact Or.inr rfl

/-- C14: while the task handle is null (the state the constructor leaves, and the state
after a `begin` that did not create the task), every submitter returns false for every
argument and leaves the instance, its four queues included, unchanged. -/
theorem submit_without_worker (s : esp32ModbusRTU) (c : Submit) (h : s._task = false) :
    s.submit c = (false, s) ∧
    (∀ rtsPin, (esp32ModbusRTU.new rtsPin)._task = false) ∧
    (∀ rtsPin baud, ((esp32ModbusRTU.new rtsPin).begin baud false)._task = false) := by
  refine ⟨?_, fun _ => rfl, fun _ _ => rfl⟩
  rcases submit_cases s c with h1 | h1
  · exact h1
  · rw [h1, addToQueue_no_task s _ h]

/-- Witness for C14: `readHoldingRegisters(0x11, 0x006B, 3)` on a fresh instance. -/
theorem submit_without_worker_witness :
    (esp32ModbusRTU.new (-1))._task = false ∧
    ((esp32ModbusRTU.new (-1)).submit (.readHoldingRegisters 0x11 0x006B 3)).1 = false ∧
    ∀ p, ((esp32ModbusRTU.new (-1)).submit (.readHoldingRegisters 0x11 0x006B 3)).2.waiting p
      = [] :=
  ⟨rfl,
    congrArg Prod.fst (submit_without_worker (esp32ModbusRTU.new (-1))
      (.readHoldingRegisters 0x11 0x006B 3) rfl).1,
    by
      rw [(submit_without_worker (esp32ModbusRTU.new (-1))
        (.readHoldingRegisters 0x11 0x006B 3) rfl).1]
      decide⟩

/-- C13: an accepted submit appends the request it built at the tail of the queue of
that request's priority and leaves the other three queues unchanged; that queue is the
Relay queue for the submitters without a priority argument and the queue of the priority
passed for the explicit-priority submitters. -/
theorem accepted_submit_appends_to_its_queue (s : esp32ModbusRTU) (c : Submit)
    (h : (s.submit c).1 = true) :
    ∃ p : Fin 4, p.val = c.request._priority ∧
      (s.submit c).2.waiting p = s.waiting p ++ [c.request] ∧
      (∀ p' : Fin 4, p' ≠ p → (s.submit c).2._queues p' = s._queues p') ∧
      (c.priorityArg = none → p.val = esp32Modbus.RELAY) ∧
      (∀ priority, c.priorityArg = some priority → p.val = priority) := by
  rcases submit_cases s c with h1 | h1
  · rw [h1] at h
    cases h
  · rw [h1] at h ⊢
    obtain ⟨p, q, hp, _, hq, _, hs⟩ := addToQueue_true s c.request h
    refine ⟨p, hp, ?_, ?_, ?_, ?_⟩
    · rw [hs]
      simp [waiting, hq]
    · intro p' hne
      rw [hs]
      simp [Function.update_noteq hne]
    · intro hn
      rw [hp, Submit.request_priority, hn]
      rfl
    · intro priority hn
      rw [hp, Submit.request_priority, hn]
      rfl

/-- Witness for C13: a default-priority and an explicit-priority submit on a started
instance. -/
theorem accepted_submit_appends_to_its_queue_witness :
    (startedInstance.submit (.readHoldingRegisters 0x11 0x006B 3)).1 = true ∧
    (∃ p : Fin 4, p.val = esp32Modbus.RELAY ∧
      (startedInstance.submit (.readHoldingRegisters 0x11 0x006B 3)).2.waiting p =
        startedInstance.waiting p ++ [ModbusRequest03 0x11 0x006B 3]) ∧
    (startedInstance.submit (.readInputRegistersWithPriority 2 0x0030 1 esp32Modbus.SENSOR)).2.waiting 1
      = [scenarioR4] := by
  refine ⟨by decide, ?_, by decide⟩
  obtain ⟨p, hp, hw, _, hr, _⟩ := accepted_submit_appends_to_its_queue startedInstance
    (.readHoldingRegisters 0x11 0x006B 3) (by decide)
  exact ⟨p, hr rfl, hw⟩


/-- C16: `writeMultipleCoils` returns false and leaves the instance unchanged whenever
the coil count is 0, exceeds 2000, or the values pointer is null; so does
`writeMultHoldingRegisters` whenever the register count is 0, exceeds 125, or the data
pointer is null; so does `readWriteMultipleRegisters` whenever the read count or the write
count is 0 or exceeds 125, or the write-data pointer is null. -/
theorem write_submitters_reject_bad_parameters (s : esp32ModbusRTU) (slave address : Nat) :
    (∀ (count : Nat) (values : Option (List Bool)),
      count = 0 ∨ count > 2000 ∨ values = none →
        s.writeMultipleCoils slave address count values = (false, s)) ∧
    (∀ (count : Nat) (data : Option (List Nat)),
      count = 0 ∨ count > 125 ∨ data = none →
        s.writeMultHoldingRegisters slave address count data = (false, s)) ∧
    (∀ (readCount writeAddress writeCount : Nat) (writeData : Option (List Nat)),
      readCount = 0 ∨ readCount > 125 ∨ writeCount = 0 ∨ writeCount > 125 ∨ writeData = none →
        s.readWriteMultipleRegisters slave address readCount writeAddress writeCount writeData
          = (false, s)) := by
  refine ⟨?_, ?_, ?_⟩
  · intro count values h
    unfold writeMultipleCoils
    rw [if_pos (by simpa [ MODBUS_MAX_COILS] using h)]
  · intro count data h
    unfold writeMultHoldingRegisters
    rw [if_pos (by simpa [ MODBUS_MAX_REGISTERS] using h)]
  · intro rc wa wc d h
    unfold readWriteMultipleRegisters
    rw [if_pos (by simpa [ MODBUS_MAX_REGISTERS] using h)]

/-- Witness for C16: 2001 coils, a null data pointer and a write count of 0 on a started
instance. -/
theorem write_submitters_reject_bad_parameters_witness :
    (startedInstance.writeMultipleCoils 1 0 2001 (some (List.replicate 2001 true))).1 = false ∧
    (∀ p, (startedInstance.writeMultHoldingRegisters 1 0 2 none).2.waiting p = []) ∧
    (startedInstance.readWriteMultipleRegisters 1 0 2 0 0 (some [])).1 = false :=
  ⟨congrArg Prod.fst ((write_submitters_reject_bad_parameters startedInstance 1 0).1 2001
      (some (List.replicate 2001 true)) (Or.inr (Or.inl (by decide)))),
   by
    rw [(write_submitters_reject_bad_parameters startedInstance 1 0).2.1 2 none
      (Or.inr (Or.inr rfl))]
    decide,
   congrArg Prod.fst ((write_submitters_reject_bad_parameters startedInstance 1 0).2.2 2 0 0
      (some []) (Or.inr (Or.inr (Or.inl rfl))))⟩


/-! ## Bounded admission -/

theorem addAll_cons (s : esp32ModbusRTU) (r : ModbusRequest) (rs : List ModbusRequest) :
    (s.addAll (r :: rs)).1 =
      (s._addToQueue (some r)).1 :: ((s._addToQueue (some r)).2.addAll rs).1 := by
  simp [addAll]

theorem count_pos_of_getElem (rs : List ModbusRequest) (p : Nat) :
    ∀ (i : Nat) (r : ModbusRequest), rs[i]? = some r → r._priority = p →
      1 ≤ ((rs.take (i + 1)).filter (fun x => x._priority = p)).length := by
  induction rs with
  | nil => intro i r h; simp at h
  | cons r0 rs ih =>
    intro i r h hp
    cases i with
    | zero =>
      simp only [List.getElem?_cons_zero, Option.some.injEq] at h
      subst h
      simp [List.filter_cons, hp]
    | succ j =>
      simp only [List.getElem?_cons_succ] at h
      have := ih j r h hp
      simp only [List.take_succ_cons, List.filter_cons]
      split
      · simp
      · exact this

/-- The result of the submit at position `i` of a run of submits, on an instance with a
task whose queues have the constructor's capacities: accepted exactly when the requests
already waiting in its class plus the submits into that class up to this one fit. -/
theorem addAll_result (rs : List ModbusRequest) :
    ∀ (s : esp32ModbusRTU), s._task = true →
      (∀ p : Fin 4, ∃ q, s._queues p = some q ∧ q.uxLength = queueSize p) →
      (∀ r ∈ rs, r._priority < 4) →
      ∀ (i : Nat) (r : ModbusRequest) (p : Fin 4), rs[i]? = some r → r._priority = p.val →
        (s.addAll rs).1[i]? = some (decide ((s.waiting p).length +
          ((rs.take (i + 1)).filter (fun x => x._priority = p.val)).length ≤ queueSize p)) := by
  induction rs with
  | nil => intro s _ _ _ i r p h; simp at h
  | cons r0 rs ih =>
    intro s ht hq hpr i r p h hp
    have hp0 : r0._priority < 4 := hpr r0 (by simp)
    obtain ⟨q0, hq0, hc0⟩ := hq ⟨r0._priority, hp0⟩
    have hw0 : s.waiting ⟨r0._priority, hp0⟩ = q0.items := by simp [waiting, hq0]
    rw [addAll_cons]
    cases i with
    | zero =>
      simp only [List.getElem?_cons_zero, Option.some.injEq] at h
      subst h
      have hpe : (⟨r0._priority, hp0⟩ : Fin 4) = p := Fin.ext hp
      rw [hpe] at hq0 hw0 hc0
      simp only [List.getElem?_cons_zero, Option.some.injEq, zero_add, List.take_succ_cons,
        List.take_zero, List.filter_cons, hp, decide_True, if_true, List.filter_nil,
        List.length_singleton, hw0]
      by_cases hroom : q0.items.length < q0.uxLength
      · rw [addToQueue_of_room s r0 p q0 hp.symm ht hq0 hroom]
        simp only [true_eq_decide_iff]
        omega
      · rw [addToQueue_of_full s r0 p q0 hp.symm hq0 hroom]
        simp only [false_eq_decide_iff]
        omega
    | succ j =>
      simp only [List.getElem?_cons_succ] at h ⊢
      have hcount := count_pos_of_getElem rs p.val j r h hp
      by_cases hroom : q0.items.length < q0.uxLength
      · have hadd := addToQueue_of_room s r0 ⟨r0._priority, hp0⟩ q0 rfl ht hq0 hroom
        have hsame := waiting_update_same s ⟨r0._priority, hp0⟩
          { q0 with items := q0.items ++ [r0] }
        have hother := fun p' h => waiting_update_other s ⟨r0._priority, hp0⟩ p'
          { q0 with items := q0.items ++ [r0] } h
        have hinv : ∀ p' : Fin 4, ∃ q,
            (Function.update s._queues ⟨r0._priority, hp0⟩
              (some { q0 with items := q0.items ++ [r0] })) p' = some q ∧
            q.uxLength = queueSize p' := by
          intro p'
          by_cases hpp : p' = ⟨r0._priority, hp0⟩
          · subst hpp
            exact ⟨{ q0 with items := q0.items ++ [r0] }, by simp, hc0⟩
          · simpa [Function.update_noteq hpp] using hq p'
        rw [hadd]
        simp only
        generalize hs1 : ({ s with _queues := (Function.update s._queues ⟨r0._priority, hp0⟩
          (some { q0 with items := q0.items ++ [r0] })) } : esp32ModbusRTU) = s1 at hsame hother ⊢
        have ht1 : s1._task = true := by rw [← hs1]; exact ht
        have hinv1 : ∀ p' : Fin 4, ∃ q, s1._queues p' = some q ∧ q.uxLength = queueSize p' := by
          rw [← hs1]; exact hinv
        rw [ih s1 ht1 hinv1 (fun x hx => hpr x (by simp [hx])) j r p h hp]
        congr 1
        by_cases hpp : p = ⟨r0._priority, hp0⟩
        · have hpv : r0._priority = p.val := by rw [hpp]
          rw [← hpp] at hsame hw0 hc0
          simp only [hsame, List.take_succ_cons, List.filter_cons, hpv, decide_True,
            if_true, List.length_cons, List.length_append, List.length_singleton, List.length_nil, hw0]
          apply decide_eq_decide.mpr
          omega
        · have hne : ¬ r0._priority = p.val := fun e => hpp (Fin.ext e.symm)
          simp only [hother p hpp, List.take_succ_cons, List.filter_cons,
            hne, decide_False, Bool.false_eq_true, if_false]
      · have hadd := addToQueue_of_full s r0 ⟨r0._priority, hp0⟩ q0 rfl hq0 hroom
        rw [hadd]
        simp only
        rw [ih s ht hq (fun x hx => hpr x (by simp [hx])) j r p h hp]
        congr 1
        by_cases hpp : p = ⟨r0._priority, hp0⟩
        · have hpv : r0._priority = p.val := by rw [hpp]
          rw [← hpp] at hw0 hc0
          simp only [List.take_succ_cons, List.filter_cons, hpv, decide_True, if_true,
            List.length_cons, hw0]
          apply decide_eq_decide.mpr
          rw [hc0] at hroom
          omega
        · have hne : ¬ r0._priority = p.val := fun e => hpp (Fin.ext e.symm)
          simp only [List.take_succ_cons, List.filter_cons, hne, decide_False,
            Bool.false_eq_true, if_false]


theorem started_task (rtsPin : Int) (baud : Nat) :
    ((esp32ModbusRTU.new rtsPin).begin baud true)._task = true := rfl

theorem started_queues (rtsPin : Int) (baud : Nat) (p : Fin 4) :
    ((esp32ModbusRTU.new rtsPin).begin baud true)._queues p = some (xQueueCreate (queueSize p)) := by
  fin_cases p <;> rfl

theorem started_waiting (rtsPin : Int) (baud : Nat) (p : Fin 4) :
    ((esp32ModbusRTU.new rtsPin).begin baud true).waiting p = [] := by
  simp [waiting, started_queues, xQueueCreate]

/-- A rejected submit leaves the instance as it was. -/
theorem submit_rejected (s : esp32ModbusRTU) (c : Submit) (h : (s.submit c).1 = false) :
    (s.submit c).2 = s := by
  rcases submit_cases s c with h1 | h1
  · rw [h1]
  · rw [h1] at h ⊢
    exact addToQueue_rejected s _ h

/-- C12: on an instance whose worker was started, with empty queues and no dequeue in
between, the k-th submit into a priority class returns true if and only if k is at most
the capacity of the class (Emergency 4, Sensor 8, Relay 12, Status 4), also when submits
into other classes come in between; a rejected submit leaves the instance, its four
queues included, unchanged. -/
theorem submits_accepted_up_to_capacity (rtsPin : Int) (baud : Nat) (rs : List ModbusRequest)
    (hpr : ∀ r ∈ rs, r._priority < 4) :
    (∀ (i : Nat) (r : ModbusRequest) (p : Fin 4), rs[i]? = some r → r._priority = p.val →
      (((esp32ModbusRTU.new rtsPin).begin baud true).addAll rs).1[i]? =
        some (decide (((rs.take (i + 1)).filter (fun x => x._priority = p.val)).length
          ≤ queueSize p))) ∧
    (∀ p : Fin 4, (∀ r ∈ rs, r._priority = p.val) → ∀ k, 1 ≤ k → k ≤ rs.length →
      (((esp32ModbusRTU.new rtsPin).begin baud true).addAll rs).1[k - 1]? =
        some (decide (k ≤ queueSize p))) ∧
    (queueSize 0 = 4 ∧ queueSize 1 = 8 ∧ queueSize 2 = 12 ∧ queueSize 3 = 4) ∧
    (∀ (s : esp32ModbusRTU) (r : ModbusRequest),
      (s._addToQueue (some r)).1 = false → (s._addToQueue (some r)).2 = s) ∧
    (∀ (s : esp32ModbusRTU) (c : Submit), (s.submit c).1 = false → (s.submit c).2 = s) := by
  have hgen : ∀ (i : Nat) (r : ModbusRequest) (p : Fin 4), rs[i]? = some r →
      r._priority = p.val →
      (((esp32ModbusRTU.new rtsPin).begin baud true).addAll rs).1[i]? =
        some (decide (((rs.take (i + 1)).filter (fun x => x._priority = p.val)).length
          ≤ queueSize p)) := by
    intro i r p h hp
    have := addAll_result rs _ (started_task rtsPin baud)
      (fun p' => ⟨_, started_queues rtsPin baud p', rfl⟩) hpr i r p h hp
    rw [started_waiting] at this
    simpa using this
  refine ⟨hgen, ?_, ⟨rfl, rfl, rfl, rfl⟩, fun s r h => addToQueue_rejected s _ h,
    submit_rejected⟩
  intro p hall k hk1 hk2
  have hlt : k - 1 < rs.length := by omega
  have hget : rs[k - 1]? = some rs[k - 1] := List.getElem?_eq_getElem hlt
  rw [hgen (k - 1) rs[k - 1] p hget (hall _ (List.getElem_mem _))]
  have hfil : (rs.take (k - 1 + 1)).filter (fun x => decide (x._priority = p.val)) =
      rs.take (k - 1 + 1) := by
    apply List.filter_eq_self.mpr
    intro x hx
    simpa using hall x (List.mem_of_mem_take hx)
  rw [hfil, List.length_take]
  congr 1
  apply decide_eq_decide.mpr
  omega

/-- Witness for C12: five Emergency submits on a started instance; the fifth is
rejected. -/
theorem submits_accepted_up_to_capacity_witness :
    (∀ r ∈ List.replicate 5 scenarioR3, r._priority < 4) ∧
    (startedInstance.addAll (List.replicate 5 scenarioR3)).1 = [true, true, true, true, false] ∧
    (startedInstance.addAll (List.replicate 5 scenarioR3)).1[5 - 1]? =
      some (decide (5 ≤ queueSize 0)) :=
  ⟨by decide, by decide,
    (submits_accepted_up_to_capacity (-1) 9600 (List.replicate 5 scenarioR3) (by decide)).2.1 0
      (by decide) 5 (by decide) (by decide)⟩


/-! ## First in, first out within a class -/

theorem runOps_enqueue (s : esp32ModbusRTU) (r : ModbusRequest) (ops : List Op) :
    s.runOps (.enqueue r :: ops) =
      ((if (s._addToQueue (some r)).1 then
          r :: ((s._addToQueue (some r)).2.runOps ops).1.1
        else ((s._addToQueue (some r)).2.runOps ops).1.1,
        ((s._addToQueue (some r)).2.runOps ops).1.2),
       ((s._addToQueue (some r)).2.runOps ops).2) := by
  simp [runOps]

theorem runOps_dequeue_some (s s1 : esp32ModbusRTU) (r : ModbusRequest) (ops : List Op)
    (h : s._dequeueByPriority = (some r, s1)) :
    s.runOps (.dequeue :: ops) =
      (((s1.runOps ops).1.1, r :: (s1.runOps ops).1.2), (s1.runOps ops).2) := by
  simp [runOps, h]

theorem runOps_dequeue_none (s s1 : esp32ModbusRTU) (ops : List Op)
    (h : s._dequeueByPriority = (none, s1)) :
    s.runOps (.dequeue :: ops) = s1.runOps ops := by
  simp [runOps, h]

/-- The requests accepted into a class, after those already waiting there, are the
requests dequeued from the class followed by those still waiting. -/
theorem runOps_fifo (ops : List Op) : ∀ s : esp32ModbusRTU,
    (∀ (p : Fin 4), ∀ r ∈ s.waiting p, r._priority = p.val) →
    ∀ p : Fin 4,
      s.waiting p ++ (s.runOps ops).1.1.filter (fun r => r._priority = p.val) =
        (s.runOps ops).1.2.filter (fun r => r._priority = p.val) ++ (s.runOps ops).2.waiting p := by
  induction ops with
  | nil => intro s _ p; simp [runOps]
  | cons op ops ih =>
    intro s hinv p
    cases op with
    | enqueue r =>
      rw [runOps_enqueue]
      cases hok : (s._addToQueue (some r)).1 with
      | false =>
        rw [addToQueue_rejected s _ hok]
        simpa using ih s hinv p
      | true =>
        obtain ⟨p0, q, hp0, _, hq, _, hs⟩ := addToQueue_true s r hok
        have hsame := waiting_update_same s p0 { q with items := q.items ++ [r] }
        have hother := fun p' h => waiting_update_other s p0 p'
          { q with items := q.items ++ [r] } h
        have hw0 : s.waiting p0 = q.items := by simp [waiting, hq]
        rw [hs]
        generalize ({ s with _queues := (Function.update s._queues p0
          (some { q with items := q.items ++ [r] })) } : esp32ModbusRTU) = s1 at hsame hother ⊢
        simp only at hsame
        have hinv1 : ∀ (p : Fin 4), ∀ x ∈ s1.waiting p, x._priority = p.val := by
          intro p' x hx
          by_cases hpp : p' = p0
          · rw [hpp, hsame] at hx
            rcases List.mem_append.mp hx with h1 | h1
            · rw [hpp]; exact hinv p0 x (by rw [hw0]; exact h1)
            · simp only [List.mem_singleton] at h1
              rw [hpp, h1, hp0]
          · rw [hother p' hpp] at hx
            exact hinv p' x hx
        have := ih s1 hinv1 p
        simp only [if_true]
        by_cases hpp : p = p0
        · have hpv : r._priority = p.val := by rw [hpp, hp0]
          rw [hpp] at this ⊢
          rw [hsame] at this
          rw [← this, hw0]
          simp [List.filter_cons, hp0]
        · have hne : ¬ r._priority = p.val := fun e => hpp (Fin.ext (by omega))
          rw [hother p hpp] at this
          rw [← this]
          simp [List.filter_cons, hne]
    | dequeue =>
      rcases first_nonempty s with he | ⟨p0, r, rest, hp0, hlt⟩
      · rw [runOps_dequeue_none s s ops (dequeue_all_empty s he)]
        exact ih s hinv p
      · obtain ⟨q, hq, hd⟩ := dequeue_first_nonempty s p0 r rest hp0 hlt
        have hsame := waiting_update_same s p0 { q with items := rest }
        have hother := fun p' h => waiting_update_other s p0 p' { q with items := rest } h
        rw [runOps_dequeue_some s _ r ops hd]
        generalize ({ s with _queues := (Function.update s._queues p0
          (some { q with items := rest })) } : esp32ModbusRTU) = s1 at hsame hother ⊢
        simp only at hsame
        have hr : r._priority = p0.val := hinv p0 r (by rw [hp0]; simp)
        have hinv1 : ∀ (p : Fin 4), ∀ x ∈ s1.waiting p, x._priority = p.val := by
          intro p' x hx
          by_cases hpp : p' = p0
          · rw [hpp, hsame] at hx
            rw [hpp]
            exact hinv p0 x (by rw [hp0]; simp [hx])
          · rw [hother p' hpp] at hx
            exact hinv p' x hx
        have := ih s1 hinv1 p
        by_cases hpp : p = p0
        · rw [hpp] at this ⊢
          rw [hsame] at this
          rw [hp0]
          simp only [List.filter_cons, hr, decide_True, if_true, List.cons_append]
          rw [← this]
        · have hne : ¬ r._priority = p.val := fun e => hpp (Fin.ext (by omega))
          rw [hother p hpp] at this
          simp only [List.filter_cons, hne, decide_False, Bool.false_eq_true, if_false]
          exact this

/-- C11: for every sequence of submits and dequeues that starts from empty queues, the
requests dequeued from a priority class are, in the same order, an initial segment of the
requests accepted into that class (what remains is still waiting in its queue); so the
i-th request dequeued from a class is the i-th request accepted into it, and two requests
accepted into the same class are dequeued in the order of their submission. -/
theorem fifo_within_class (s : esp32ModbusRTU) (ops : List Op)
    (hempty : ∀ p, s.waiting p = []) (p : Fin 4) :
    (s.runOps ops).1.1.filter (fun r => r._priority = p.val) =
      (s.runOps ops).1.2.filter (fun r => r._priority = p.val) ++ (s.runOps ops).2.waiting p ∧
    (∀ (i : Nat) (r : ModbusRequest),
      ((s.runOps ops).1.2.filter (fun r => r._priority = p.val))[i]? = some r →
      ((s.runOps ops).1.1.filter (fun r => r._priority = p.val))[i]? = some r) := by
  have h := runOps_fifo ops s (fun p' r hr => by rw [hempty p'] at hr; simp at hr) p
  rw [hempty p, List.nil_append] at h
  refine ⟨h, ?_⟩
  intro i r hi
  rw [h]
  have hlt : i < ((s.runOps ops).1.2.filter (fun r => r._priority = p.val)).length := by
    by_contra hc
    rw [List.getElem?_eq_none (by omega)] at hi
    cases hi
  rw [List.getElem?_append_left hlt]
  exact hi

/-- Witness for C11: R1 (Relay), R1 again after a dequeue, R2 (Status) and R3 (Emergency)
interleaved with three dequeues on a started instance. -/
theorem fifo_within_class_witness :
    (∀ p, startedInstance.waiting p = []) ∧
    (startedInstance.runOps [.enqueue scenarioR1, .enqueue scenarioR2, .dequeue,
      .enqueue scenarioR4, .enqueue scenarioR1, .dequeue, .enqueue scenarioR3,
      .dequeue]).1.2 = [scenarioR1, scenarioR4, scenarioR3] ∧
    ((startedInstance.runOps [.enqueue scenarioR1, .enqueue scenarioR2, .dequeue,
      .enqueue scenarioR4, .enqueue scenarioR1, .dequeue, .enqueue scenarioR3,
      .dequeue]).1.1.filter (fun r => r._priority = (2 : Fin 4).val))[0]? = some scenarioR1 :=
  ⟨by decide, by decide,
    (fifo_within_class startedInstance [.enqueue scenarioR1, .enqueue scenarioR2, .dequeue,
      .enqueue scenarioR4, .enqueue scenarioR1, .dequeue, .enqueue scenarioR3, .dequeue]
      (by decide) 2).2 0 scenarioR1 (by decide)⟩


/-! ## Parameter checks of the submitters -/

/-- C15 (counterexample): on a started instance with empty queues, `readDiscreteInputs(0,
0, 0)`, the call the destructor uses as its shutdown sentinel, returns true and puts its
request into the Relay queue, although the coil count 0 is outside 1..=2000; so does
`readHoldingRegisters(1, 0, 126)`. -/
theorem read_submitters_accept_counts_outside_bounds :
    ¬ (1 ≤ 0 ∧ 0 ≤ 2000) ∧
    (startedInstance.readDiscreteInputs 0 0 0).1 = true ∧
    (startedInstance.readDiscreteInputs 0 0 0).2.waiting 2 = [ModbusRequest02 0 0 0] ∧
    ¬ (1 ≤ 126 ∧ 126 ≤ 125) ∧
    (startedInstance.readHoldingRegisters 1 0 126).1 = true ∧
    (startedInstance.readHoldingRegisters 1 0 126).2.waiting 2 = [ModbusRequest03 1 0 126] := by
  decide

/-- C15 (amended): with a task handle and room in the Relay queue, `readDiscreteInputs`
with a coil count of 0 returns true and appends its request to the Relay queue, leaving
everything else unchanged. -/
theorem readDiscreteInputs_zero_count_accepted (s : esp32ModbusRTU) (slave address : Nat)
    (q : Queue) (ht : s._task = true) (hq : s._queues 2 = some q)
    (hroom : q.items.length < q.uxLength) :
    s.readDiscreteInputs slave address 0 =
      (true, { s with _queues := (Function.update s._queues 2
        (some { q with items := q.items ++ [ModbusRequest02 slave address 0] })) }) := by
  unfold readDiscreteInputs
  exact addToQueue_of_room s _ 2 q rfl ht hq hroom

/-- Witness for the amended C15: the shutdown sentinel on a started instance. -/
theorem readDiscreteInputs_zero_count_accepted_witness :
    startedInstance._task = true ∧
    startedInstance._queues 2 = some (xQueueCreate RELAY_QUEUE_SIZE) ∧
    (xQueueCreate RELAY_QUEUE_SIZE).items.length < (xQueueCreate RELAY_QUEUE_SIZE).uxLength ∧
    (startedInstance.readDiscreteInputs 0 0 0).1 = true :=
  ⟨rfl, rfl, by decide,
    congrArg Prod.fst (readDiscreteInputs_zero_count_accepted startedInstance 0 0
      (xQueueCreate RELAY_QUEUE_SIZE) rfl rfl (by decide))⟩

/-- C17 (failing input): `writeMultHoldingRegisters` with 125 registers, whose frame per
the codec table has 259 bytes, passes the parameter check on a started instance: it
returns true and enqueues a request whose buffer has 5 cells and holds the 5 bytes
01 10 00 00 00. -/
theorem oversize_write_is_accepted :
    9 + 2 * 125 = 259 ∧
    (startedInstance.writeMultHoldingRegisters 1 0 125 (some (List.replicate 250 0))).1 = true ∧
    ((startedInstance.writeMultHoldingRegisters 1 0 125
      (some (List.replicate 250 0))).2.waiting 2).map (fun r => (r.getSize, r.stored)) =
      [(5, [0x01, 0x10, 0x00, 0x00, 0x00])] ∧
    (startedInstance.writeMultipleCoils 1 0 1977 (some (List.replicate 1977 true))).1 = true ∧
    (startedInstance.readWriteMultipleRegisters 1 0 1 0 123
      (some (List.replicate 123 0))).1 = true := by
  decide

/-- C18 (failing input): on a started instance `writeMultipleCoils` with a coil count of 0
fails its parameter check and returns false, while `writeMultipleCoilsWithPriority` with
the same arguments and priority Relay has no check, returns true and enqueues a request;
the same holds for `writeMultHoldingRegisters` and its explicit-priority variant. -/
theorem explicit_priority_write_skips_check :
    (startedInstance.writeMultipleCoils 1 0 0 (some [])).1 = false ∧
    (startedInstance.writeMultipleCoilsWithPriority 1 0 0 (some []) esp32Modbus.RELAY).1 = true ∧
    (startedInstance.writeMultipleCoils 1 0 0 (some [])).2.waiting 2 = [] ∧
    (startedInstance.writeMultipleCoilsWithPriority 1 0 0 (some []) esp32Modbus.RELAY).2.waiting 2
      = [ModbusRequest0F 1 0 0 []] ∧
    (startedInstance.writeMultHoldingRegisters 1 0 0 (some [])).1 = false ∧
    (startedInstance.writeMultHoldingRegistersWithPriority 1 0 0 (some [])
      esp32Modbus.RELAY).1 = true := by
  decide

theorem ModbusRequest.setPriority_self (r : ModbusRequest) (p : Nat) (h : r._priority = p) :
    r.setPriority p = r := by
  cases r
  simp only [ModbusRequest.setPriority] at h ⊢
  subst h
  rfl

/-- Where the explicit-priority submitters agree with the default ones: called with
priority Relay they behave alike for the seven function codes other than 0x0F and 0x10,
and for those two whenever the call passes the parameter check of the default submitter. -/
theorem explicit_priority_relay_agrees (s : esp32ModbusRTU) (c : Submit)
    (hc : c.priorityArg = none)
    (hcheck : ∀ sl a n v, c = .writeMultipleCoils sl a n v →
      ¬ (n = 0 ∨ n > MODBUS_MAX_COILS ∨ v = none))
    (hcheck2 : ∀ sl a n d, c = .writeMultHoldingRegisters sl a n d →
      ¬ (n = 0 ∨ n > MODBUS_MAX_REGISTERS ∨ d = none)) :
    s.submit (c.withPriority esp32Modbus.RELAY) = s.submit c := by
  cases c with
  | writeMultipleCoils sl a n v =>
    simp only [submit, Submit.withPriority, writeMultipleCoils, writeMultipleCoilsWithPriority,
      if_neg (hcheck sl a n v rfl)]
    rw [ModbusRequest.setPriority_self _ _ (ModbusRequest0F_priority _ _ _ _)]
  | writeMultHoldingRegisters sl a n d =>
    simp only [submit, Submit.withPriority, writeMultHoldingRegisters,
      writeMultHoldingRegistersWithPriority, if_neg (hcheck2 sl a n d rfl)]
    rw [ModbusRequest.setPriority_self _ _ (ModbusRequest16_priority _ _ _ _)]
  | readWriteMultipleRegisters sl ra rc wa wc d =>
    simp only [submit, Submit.withPriority, readWriteMultipleRegisters,
      readWriteMultipleRegistersWithPriority]
    rw [ModbusRequest.setPriority_self _ _ (ModbusRequest17_priority _ _ _ _ _ _)]
  | readCoils sl a n =>
    simp only [submit, Submit.withPriority, readCoils, readCoilsWithPriority]
    rw [ModbusRequest.setPriority_self (ModbusRequest01 sl a n) esp32Modbus.RELAY rfl]
  | readDiscreteInputs sl a n =>
    simp only [submit, Submit.withPriority, readDiscreteInputs, readDiscreteInputsWithPriority]
    rw [ModbusRequest.setPriority_self (ModbusRequest02 sl a n) esp32Modbus.RELAY rfl]
  | readHoldingRegisters sl a n =>
    simp only [submit, Submit.withPriority, readHoldingRegisters,
      readHoldingRegistersWithPriority]
    rw [ModbusRequest.setPriority_self (ModbusRequest03 sl a n) esp32Modbus.RELAY rfl]
  | readInputRegisters sl a n =>
    simp only [submit, Submit.withPriority, readInputRegisters, readInputRegistersWithPriority]
    rw [ModbusRequest.setPriority_self (ModbusRequest04 sl a n) esp32Modbus.RELAY rfl]
  | writeSingleCoil sl a v =>
    simp only [submit, Submit.withPriority, writeSingleCoil, writeSingleCoilWithPriority]
    rw [ModbusRequest.setPriority_self (ModbusRequest05 sl a v) esp32Modbus.RELAY rfl]
  | writeSingleHoldingRegister sl a d =>
    simp only [submit, Submit.withPriority, writeSingleHoldingRegister,
      writeSingleHoldingRegisterWithPriority]
    rw [ModbusRequest.setPriority_self (ModbusRequest06 sl a d) esp32Modbus.RELAY rfl]
  | _ => cases hc

end esp32ModbusRTU

namespace esp32ModbusRTUInternals

/-! ## Coil packing of FC 0x0F -/

theorem testBit_false_of_lt (x a i : Nat) (h : x < 2 ^ a) (hi : a ≤ i) : x.testBit i = false :=
  Nat.testBit_lt_two_pow (lt_of_lt_of_le h (Nat.pow_le_pow_right (by decide) hi))

/-- The byte built by one step of the inner loop: bit `bit` is set to the coil value. -/
theorem packBits_step (byte bit : Nat) (v : Bool) (hb : byte < 2 ^ bit) (h8 : bit < 8) :
    (if v then (byte ||| (1 <<< bit)) % 256 else byte) < 2 ^ (bit + 1) ∧
    ∀ i, (if v then (byte ||| (1 <<< bit)) % 256 else byte).testBit i =
      if i = bit then v else byte.testBit i := by
  have h1 : (1 <<< bit : Nat) = 2 ^ bit := by simp [Nat.shiftLeft_eq]
  have hlt : byte ||| 2 ^ bit < 2 ^ (bit + 1) :=
    Nat.or_lt_two_pow (lt_of_lt_of_le hb (Nat.pow_le_pow_right (by decide) (by omega)))
      (Nat.pow_lt_pow_right (by decide) (by omega))
  have h256 : 2 ^ (bit + 1) ≤ 256 := by
    have : 2 ^ (bit + 1) ≤ 2 ^ 8 := Nat.pow_le_pow_right (by decide) (by omega)
    simpa using this
  cases v with
  | false =>
    simp only [Bool.false_eq_true, if_false]
    refine ⟨lt_of_lt_of_le hb (Nat.pow_le_pow_right (by decide) (by omega)), ?_⟩
    intro i
    by_cases hi : i = bit
    · rw [if_pos hi, hi]
      exact testBit_false_of_lt byte bit bit hb (le_refl _)
    · rw [if_neg hi]
  | true =>
    simp only [if_true, h1]
    have hm : (byte ||| 2 ^ bit) % 256 = byte ||| 2 ^ bit := Nat.mod_eq_of_lt (by omega)
    rw [hm]
    refine ⟨hlt, ?_⟩
    intro i
    rw [Nat.testBit_or, Nat.testBit_two_pow]
    by_cases hi : i = bit
    · rw [if_pos hi, hi]
      simp
    · rw [if_neg hi]
      have : ¬ bit = i := fun e => hi e.symm
      simp [this]

/-- The bits of the byte that the inner loop of `ModbusRequest0F` builds. -/
theorem packBits_testBit (values : List Bool) (n j : Nat) :
    ∀ (fuel bit byte i : Nat), byte < 2 ^ bit → bit + fuel ≤ 8 →
      (packBits values n j fuel bit byte).testBit i =
        if bit ≤ i ∧ i < bit + fuel then
          (decide (j * 8 + i < n) && values.getD (j * 8 + i) false)
        else byte.testBit i := by
  intro fuel
  induction fuel with
  | zero =>
    intro bit byte i _ _
    rw [if_neg (by omega)]
    rfl
  | succ f ih =>
    intro bit byte i hb h8
    unfold packBits
    by_cases hc : j * 8 + bit < n
    · rw [if_pos hc]
      obtain ⟨hlt, hbits⟩ := packBits_step byte bit (values.getD (j * 8 + bit) false) hb
        (by omega)
      rw [ih (bit + 1) _ i hlt (by omega), hbits i]
      by_cases h1 : bit + 1 ≤ i ∧ i < bit + 1 + f
      · rw [if_pos h1, if_pos (by omega)]
      · rw [if_neg h1]
        by_cases h2 : i = bit
        · rw [if_pos h2, if_pos (by omega), h2]
          simp [hc]
        · rw [if_neg h2, if_neg (by omega)]
    · rw [if_neg hc]
      by_cases h1 : bit ≤ i ∧ i < bit + (f + 1)
      · rw [if_pos h1, testBit_false_of_lt byte bit i hb h1.1]
        have : ¬ j * 8 + i < n := by omega
        simp [this]
      · rw [if_neg h1]

/-- Bit `i` of data byte `j` of an FC 0x0F request is set exactly when coil `8j+i` exists
and is on. -/
theorem packBits_bit (values : List Bool) (n j i : Nat) (hi : i < 8) :
    ((packBits values n j 8 0 0) % 256).testBit i =
      (decide (8 * j + i < n) && values.getD (8 * j + i) false) := by
  have h := Nat.testBit_mod_two_pow (packBits values n j 8 0 0) 8 i
  simp only [Nat.reducePow] at h
  rw [h, packBits_testBit values n j 8 0 0 i (by decide) (by decide), if_pos (by omega),
    Nat.mul_comm j 8]
  simp [hi]


theorem ceil_div_eight_all (n : Nat) : ⌈(n : ℚ) / 8⌉₊ = (n + 7) / 8 := by
  by_cases h : 1 ≤ n
  · exact ceil_div_eight n h
  · have h0 : n = 0 := by omega
    subst h0
    simp

theorem ModbusMessage.new_length_of_fit (L : Nat) (h5 : 5 ≤ L) (h255 : L ≤ 255) :
    (ModbusMessage.new L)._length = L := by
  rw [ModbusMessage.new_length, Nat.mod_eq_of_lt (by omega), if_neg (by omega)]

/-- A run with its CRC that fits into the buffer is stored completely. -/
theorem ModbusMessage.addManyWithCRC_fits (L : Nat) (P : List Nat) (h5 : 5 ≤ L)
    (h255 : L ≤ 255) (hlen : P.length + 2 ≤ L) :
    ((ModbusMessage.new L).addManyWithCRC P)._index = P.length + 2 := by
  rw [ModbusMessage.addManyWithCRC_eq]
  obtain ⟨_, hi, _, _⟩ := ModbusMessage.addMany_stored
    (P ++ [low (CRC16 ((ModbusMessage.new L).addMany P)._buffer P.length),
      high (CRC16 ((ModbusMessage.new L).addMany P)._buffer P.length)])
    (ModbusMessage.new L) (ModbusMessage.new_buffer_length L)
    (by rw [ModbusMessage.new_length_of_fit L h5 h255, ModbusMessage.new_index]; simp; omega)
  rw [hi, ModbusMessage.new_index]
  simp

theorem fold_cls (g : ModbusRequest → Nat → ModbusRequest)
    (hg : ∀ acc i, (g acc i).cls = acc.cls) (l : List Nat) :
    ∀ r : ModbusRequest, (l.foldl g r).cls = r.cls := by
  induction l with
  | nil => intro r; rfl
  | cons i l ih => intro r; rw [List.foldl_cons, ih, hg]

theorem ModbusRequest0F_responseLength (s a n : Nat) (values : List Bool) :
    (ModbusRequest0F s a n values).responseLength = 8 := by
  have hcls : (ModbusRequest0F s a n values).cls = .Request0F := by
    simp only [ModbusRequest0F, ModbusRequest.add]
    refine (fold_cls _ ?_ _ _).trans rfl
    intro _ _
    rfl
  unfold ModbusRequest.responseLength
  rw [hcls]

/-- The stored frame of an FC 0x0F request that has the length of the codec table: seven
header bytes, the packed coil bytes, the CRC. -/
theorem request0F_stored (s a n : Nat) (values : List Bool) (hn : n < 65536)
    (hidx : (ModbusRequest0F s a n values).getSize = 9 + (n + 7) / 8) :
    (ModbusRequest0F s a n values).stored =
      [s % 256, esp32Modbus.WRITE_MULT_COILS % 256, high a % 256, low a % 256, high n % 256,
        low n % 256, (n + 7) / 8 % 256] ++
      (List.range ((n + 7) / 8)).map (fun j => packBits values n j 8 0 0 % 256) ++
      [low (CRC16 (([s, esp32Modbus.WRITE_MULT_COILS, high a, low a, high n, low n,
            (n + 7) / 8] ++
          (List.range ((n + 7) / 8)).map (fun j => packBits values n j 8 0 0)).map (· % 256))
          (7 + (n + 7) / 8)) % 256,
       high (CRC16 (([s, esp32Modbus.WRITE_MULT_COILS, high a, low a, high n, low n,
            (n + 7) / 8] ++
          (List.range ((n + 7) / 8)).map (fun j => packBits values n j 8 0 0)).map (· % 256))
          (7 + (n + 7) / 8)) % 256] := by
  have hbc : (n + 7) / 8 % 65536 = (n + 7) / 8 := Nat.mod_eq_of_lt (by omega)
  have hrun := request0F_run s a n values
  rw [hbc] at hrun
  simp only [ModbusMessage.getSize] at hidx
  unfold ModbusMessage.stored at *
  rw [hrun] at hidx ⊢
  have hlen : ([s, esp32Modbus.WRITE_MULT_COILS, high a, low a, high n, low n, (n + 7) / 8] ++
      (List.range ((n + 7) / 8)).map (fun j => packBits values n j 8 0 0)).length
        = 7 + (n + 7) / 8 := by
    simp; omega
  have := (frame_of_run _ _ (by rw [hidx, hlen]; omega)).1
  unfold ModbusMessage.stored at this
  rw [this, hlen]
  simp


/-- C19 (counterexample): 1969 coils are inside 1..=2000 and the frame of the codec table
has 9 + 247 = 256 bytes, at most 256; the FC 0x0F encoder emits 5 bytes. -/
theorem request0F_of_256_bytes_is_cut :
    (1 ≤ 1969 ∧ 1969 ≤ 2000) ∧ 9 + ⌈((1969 : Nat) : ℚ) / 8⌉₊ = 256 ∧
    (ModbusRequest0F 1 0 1969 (List.replicate 1969 true)).getSize = 5 ∧
    (ModbusRequest0F 1 0 1969 (List.replicate 1969 true)).getSize ≠
      9 + ⌈((1969 : Nat) : ℚ) / 8⌉₊ := by
  have hceil : ⌈((1969 : Nat) : ℚ) / 8⌉₊ = 247 := by rw [ceil_div_eight_all]
  rw [hceil]
  decide

/-- C19 (amended): for every slave, address and coil count of at least 1 whose frame
length 9 + ceil(count/8) per the codec table is at most 255, that is for every count
up to 1968, the FC 0x0F encoder emits exactly 9 + ceil(count/8) bytes; they start with
slave and 0x0F, bytes 2..6 are the address (big-endian), the count (big-endian) and the
byte count ceil(count/8); `responseLength()` is 8. -/
theorem request0F_frame_layout (slave address count : Nat) (values : List Bool)
    (hs : slave < 256) (ha : address < 65536) (hc : 1 ≤ count)
    (hlen : 9 + ⌈(count : ℚ) / 8⌉₊ ≤ 255) :
    count ≤ 1968 ∧
    (ModbusRequest0F slave address count values).getSize = 9 + ⌈(count : ℚ) / 8⌉₊ ∧
    (ModbusRequest0F slave address count values).stored.length = 9 + ⌈(count : ℚ) / 8⌉₊ ∧
    (ModbusRequest0F slave address count values).stored.take 7 =
      [slave, 0x0F, address / 256, address % 256, count / 256, count % 256,
        ⌈(count : ℚ) / 8⌉₊] ∧
    (ModbusRequest0F slave address count values).responseLength = 8 ∧
    (∀ n : Nat, 9 + ⌈(n : ℚ) / 8⌉₊ ≤ 255 ↔ n ≤ 1968) := by
  rw [ceil_div_eight_all] at hlen ⊢
  have hc2 : count ≤ 1968 := by omega
  have hbc : (count + 7) / 8 % 65536 = (count + 7) / 8 := Nat.mod_eq_of_lt (by omega)
  have hidx : (ModbusRequest0F slave address count values).getSize = 9 + (count + 7) / 8 := by
    simp only [ModbusMessage.getSize]
    rw [request0F_run, hbc, ModbusMessage.addManyWithCRC_fits _ _ (by omega) hlen
      (by simp; omega)]
    simp
    omega
  have hst := request0F_stored slave address count values (by omega) hidx
  refine ⟨hc2, hidx, ?_, ?_, ModbusRequest0F_responseLength _ _ _ _, ?_⟩
  · rw [hst]
    simp
    omega
  · rw [hst]
    have e1 : slave % 256 = slave := Nat.mod_eq_of_lt hs
    have e2 : address / 256 % 256 = address / 256 := Nat.mod_eq_of_lt (by omega)
    have e3 : count / 256 % 256 = count / 256 := Nat.mod_eq_of_lt (by omega)
    have e4 : (count + 7) / 8 % 256 = (count + 7) / 8 := Nat.mod_eq_of_lt (by omega)
    simp [low_eq_mod, high_eq_div_mod, e1, e2, e3, e4, esp32Modbus.WRITE_MULT_COILS]
  · intro n
    rw [ceil_div_eight_all]
    omega

/-- Witness for the amended C19: 1968 coils, the largest count whose frame fits. -/
theorem request0F_frame_layout_witness :
    (0x11 < 256 ∧ 0x0013 < 65536 ∧ 1 ≤ 1968) ∧ 9 + ⌈((1968 : Nat) : ℚ) / 8⌉₊ ≤ 255 ∧
    (ModbusRequest0F 0x11 0x0013 1968 (List.replicate 1968 true)).getSize =
      9 + ⌈((1968 : Nat) : ℚ) / 8⌉₊ :=
  ⟨by decide, by rw [ceil_div_eight_all],
    (request0F_frame_layout 0x11 0x0013 1968 (List.replicate 1968 true) (by decide) (by decide)
      (by decide) (by rw [ceil_div_eight_all])).2.1⟩

theorem getD_after_seven (a0 a1 a2 a3 a4 a5 a6 : Nat) (d t : List Nat) (j : Nat)
    (hj : j < d.length) :
    ([a0, a1, a2, a3, a4, a5, a6] ++ d ++ t).getD (7 + j) 0 = d.getD j 0 := by
  rw [Nat.add_comm 7 j]
  show (d ++ t).getD j 0 = d.getD j 0
  exact List.getD_append d t 0 j hj

/-- C20: in every FC 0x0F request whose emitted frame has the table length
9 + ceil(count/8), bit `i` (0..7, bit 0 least significant) of data byte `j` (frame offset
7 + j, j below ceil(count/8)) is set if and only if 8j+i is below the count and the coil
value at index 8j+i is true; the bits of the last data byte past the count are zero. -/
theorem request0F_coil_bits (slave address count : Nat) (values : List Bool)
    (hc : count < 65536)
    (hsize : (ModbusRequest0F slave address count values).getSize = 9 + ⌈(count : ℚ) / 8⌉₊) :
    ∀ j i : Nat, j < ⌈(count : ℚ) / 8⌉₊ → i < 8 →
      ((((ModbusRequest0F slave address count values).stored.getD (7 + j) 0).testBit i = true ↔
        (8 * j + i < count ∧ values.getD (8 * j + i) false = true)) ∧
       (count ≤ 8 * j + i →
        ((ModbusRequest0F slave address count values).stored.getD (7 + j) 0).testBit i
          = false)) := by
  rw [ceil_div_eight_all] at hsize ⊢
  intro j i hj hi
  have hst := request0F_stored slave address count values hc hsize
  have hbyte : (ModbusRequest0F slave address count values).stored.getD (7 + j) 0 =
      packBits values count j 8 0 0 % 256 := by
    rw [hst, getD_after_seven _ _ _ _ _ _ _ _ _ j (by simpa using hj)]
    simp [List.getD_eq_getElem?_getD, hj]
  rw [hbyte, packBits_bit values count j i hi]
  constructor
  · simp
  · intro hge
    have : ¬ 8 * j + i < count := by omega
    simp [this]

/-- Witness for C20: ten coils CD 01; bit 0 of data byte 1 is coil 8, which is on. -/
theorem request0F_coil_bits_witness :
    (10 < 65536) ∧
    (ModbusRequest0F 0x11 0x0013 10 [true, false, true, true, false, false, true, true, true,
      false]).stored = [0x11, 0x0F, 0x00, 0x13, 0x00, 0x0A, 0x02, 0xCD, 0x01, 0xBF, 0x0B] ∧
    (((ModbusRequest0F 0x11 0x0013 10 [true, false, true, true, false, false, true, true, true,
      false]).stored.getD (7 + 1) 0).testBit 0 = true ↔
      (8 * 1 + 0 < 10 ∧ [true, false, true, true, false, false, true, true, true,
        false].getD (8 * 1 + 0) false = true)) :=
  ⟨by decide, by decide,
    (request0F_coil_bits 0x11 0x0013 10 [true, false, true, true, false, false, true, true,
      true, false] (by decide) (by rw [ceil_div_eight_all]; decide) 1 0
      (by rw [ceil_div_eight_all]; decide) (by decide)).1⟩

/-! ## The write encoders for one coil, one register and many registers; FC 0x17 -/

/-- C23: for every slave and address the FC 0x05 encoder emits the 8 bytes slave, 0x05,
address high and low, then FF 00 for true and 00 00 for false, then the low and the high
byte of `CRC16` over the first six; for every slave, address and 16-bit value the
FC 0x06 encoder emits slave, 0x06, address high and low, value high and low, CRC low and
high; `responseLength()` of both is 8. -/
theorem write_single_encoders_emit_eight_bytes (slave address data : Nat) (value : Bool)
    (hs : slave < 256) (ha : address < 65536) (hd : data < 65536) :
    ((ModbusRequest05 slave address value).getSize = 8 ∧
      (ModbusRequest05 slave address value).getMessage =
        [slave, 0x05, address / 256, address % 256, if value then 0xFF else 0x00, 0x00,
          CRC16 [slave, 0x05, address / 256, address % 256, if value then 0xFF else 0x00,
            0x00] 6 % 256,
          CRC16 [slave, 0x05, address / 256, address % 256, if value then 0xFF else 0x00,
            0x00] 6 / 256] ∧
      (ModbusRequest05 slave address value).responseLength = 8) ∧
    ((ModbusRequest06 slave address data).getSize = 8 ∧
      (ModbusRequest06 slave address data).getMessage =
        [slave, 0x06, address / 256, address % 256, data / 256, data % 256,
          CRC16 [slave, 0x06, address / 256, address % 256, data / 256, data % 256] 6 % 256,
          CRC16 [slave, 0x06, address / 256, address % 256, data / 256, data % 256] 6 / 256] ∧
      (ModbusRequest06 slave address data).responseLength = 8) := by
  have e1 : slave % 256 = slave := Nat.mod_eq_of_lt hs
  have e2 : address / 256 % 256 = address / 256 := Nat.mod_eq_of_lt (by omega)
  have e3 : data / 256 % 256 = data / 256 := Nat.mod_eq_of_lt (by omega)
  have e4 : ∀ m len, CRC16 m len / 256 % 256 = CRC16 m len / 256 := fun m len =>
    Nat.mod_eq_of_lt (by have := CRC16_lt m len; omega)
  refine ⟨⟨?_, ?_, ?_⟩, ⟨?_, ?_, ?_⟩⟩
  · rw [ModbusRequest05_eq]
    exact (emit8_spec _ _ rfl).2.1
  · rw [ModbusRequest05_eq]
    simp only [ModbusMessage.getMessage]
    rw [(emit8_spec _ _ rfl).1]
    cases value <;>
      simp [low_eq_mod, high_eq_div_mod, e1, e2, e4, esp32Modbus.WRITE_COIL, MODBUS_COIL_ON,
        MODBUS_COIL_OFF]
  · rfl
  · rw [ModbusRequest06_eq]
    exact (emit8_spec _ _ rfl).2.1
  · rw [ModbusRequest06_eq]
    simp only [ModbusMessage.getMessage]
    rw [(emit8_spec _ _ rfl).1]
    simp [low_eq_mod, high_eq_div_mod, e1, e2, e3, e4, esp32Modbus.WRITE_HOLD_REGISTER]
  · rfl

/-- Witness for C23: coil 0x00AC of slave 0x11 switched on gives 11 05 00 AC FF 00 4E 8B;
register 0x0001 of slave 0x11 set to 0x0003 gives 11 06 00 01 00 03 9A 9B. -/
theorem write_single_encoders_emit_eight_bytes_witness :
    (0x11 < 256 ∧ 0x00AC < 65536 ∧ 0x0003 < 65536) ∧
    (ModbusRequest05 0x11 0x00AC true).getSize = 8 ∧
    (ModbusRequest05 0x11 0x00AC true).getMessage =
      [0x11, 0x05, 0x00, 0xAC, 0xFF, 0x00, 0x4E, 0x8B] ∧
    (ModbusRequest06 0x11 0x0001 0x0003).getMessage =
      [0x11, 0x06, 0x00, 0x01, 0x00, 0x03, 0x9A, 0x9B] :=
  ⟨by decide,
    (write_single_encoders_emit_eight_bytes 0x11 0x00AC 0x0003 true (by decide) (by decide)
      (by decide)).1.1,
    by decide, by decide⟩

theorem range_map_getD (data : List Nat) (k : Nat) (h : k ≤ data.length) :
    (List.range k).map (fun i => data.getD i 0) = data.take k := by
  apply List.ext_getElem
  · simp [Nat.min_eq_left h]
  · intro i h1 h2
    simp only [List.length_map, List.length_range] at h1
    simp only [List.getElem_map, List.getElem_range, List.getElem_take]
    rw [List.getD_eq_getElem _ _ (by omega)]

theorem map_mod_of_lt (l : List Nat) (h : ∀ b ∈ l, b < 256) : l.map (· % 256) = l := by
  conv_rhs => rw [← List.map_id l]
  apply List.map_congr_left
  intro v hv
  exact Nat.mod_eq_of_lt (h v hv)

theorem ModbusRequest16_responseLength (s a n : Nat) (data : List Nat) :
    (ModbusRequest16 s a n data).responseLength = 8 := by
  have hcls : (ModbusRequest16 s a n data).cls = .Request16 := by
    simp only [ModbusRequest16, ModbusRequest.add]
    refine (fold_cls _ ?_ _ _).trans rfl
    intro _ _
    rfl
  unfold ModbusRequest.responseLength
  rw [hcls]

/-- C21: for every slave, address and register count in 1..=125 whose frame length
9 + 2*count per the codec table is at most 256, the FC 0x10 encoder emits exactly
9 + 2*count bytes: slave, 0x10, address high and low, count high and low, the byte count
2*count, the first 2*count bytes of the caller data unchanged and in order, then the low
and the high byte of `CRC16` over all that precedes; `responseLength()` is 8. -/
theorem request16_frame_layout (slave address count : Nat) (data : List Nat)
    (hs : slave < 256) (ha : address < 65536) (hc : 1 ≤ count ∧ count ≤ 125)
    (hlen : 9 + 2 * count ≤ 256) (hd : ∀ b ∈ data, b < 256)
    (hdl : 2 * count ≤ data.length) :
    (ModbusRequest16 slave address count data).getSize = 9 + 2 * count ∧
    (ModbusRequest16 slave address count data).stored =
      [slave, 0x10, address / 256, address % 256, count / 256, count % 256, 2 * count] ++
        data.take (2 * count) ++
        [CRC16 ([slave, 0x10, address / 256, address % 256, count / 256, count % 256,
            2 * count] ++ data.take (2 * count)) (7 + 2 * count) % 256,
         CRC16 ([slave, 0x10, address / 256, address % 256, count / 256, count % 256,
            2 * count] ++ data.take (2 * count)) (7 + 2 * count) / 256] ∧
    (ModbusRequest16 slave address count data).responseLength = 8 := by
  obtain ⟨hc1, hc2⟩ := hc
  have hbc : count * 2 % 65536 = 2 * count := by
    rw [Nat.mod_eq_of_lt (by omega)]; omega
  have hL : 9 + count * 2 = 9 + 2 * count := by omega
  have hrun := request16_run slave address count data
  rw [hbc, hL, range_map_getD data (2 * count) hdl] at hrun
  have hPlen : ([slave, esp32Modbus.WRITE_MULT_REGISTERS, high address, low address,
      high count, low count, 2 * count] ++ data.take (2 * count)).length = 7 + 2 * count := by
    simp [Nat.min_eq_left hdl]; omega
  have hidx := ModbusMessage.addManyWithCRC_fits (9 + 2 * count)
    ([slave, esp32Modbus.WRITE_MULT_REGISTERS, high address, low address,
      high count, low count, 2 * count] ++ data.take (2 * count)) (by omega) (by omega)
    (by rw [hPlen]; omega)
  have hst := (frame_of_run _ _ hidx).1
  have htake : ∀ b ∈ data.take (2 * count), b < 256 :=
    fun b hb => hd b (List.mem_of_mem_take hb)
  have e1 : slave % 256 = slave := Nat.mod_eq_of_lt hs
  have e2 : address / 256 % 256 = address / 256 := Nat.mod_eq_of_lt (by omega)
  have e3 : count / 256 % 256 = count / 256 := Nat.mod_eq_of_lt (by omega)
  have e4 : 2 * count % 256 = 2 * count := Nat.mod_eq_of_lt (by omega)
  have e5 : count % 256 = count := Nat.mod_eq_of_lt (by omega)
  have e6 : ∀ m len, CRC16 m len / 256 % 256 = CRC16 m len / 256 := fun m len =>
    Nat.mod_eq_of_lt (by have := CRC16_lt m len; omega)
  have hmap : ([slave, esp32Modbus.WRITE_MULT_REGISTERS, high address, low address,
      high count, low count, 2 * count] ++ data.take (2 * count)).map (· % 256) =
      [slave, 0x10, address / 256, address % 256, count / 256, count % 256, 2 * count] ++
        data.take (2 * count) := by
    rw [List.map_append, map_mod_of_lt _ htake]
    simp [low_eq_mod, high_eq_div_mod, e1, e2, e3, e4, e5, esp32Modbus.WRITE_MULT_REGISTERS]
  rw [hmap, hPlen] at hst
  refine ⟨?_, ?_, ModbusRequest16_responseLength _ _ _ _⟩
  · simp only [ModbusMessage.getSize]
    rw [hrun, hidx, hPlen]
    omega
  · unfold ModbusMessage.stored at hst ⊢
    rw [hrun, hst]
    simp [low_eq_mod, high_eq_div_mod, e6]

/-- Witness for C21: two registers 0x000A and 0x0102 written from address 0x0001 of slave
0x11 give 11 10 00 01 00 02 04 00 0A 01 02 and the CRC. -/
theorem request16_frame_layout_witness :
    (0x11 < 256 ∧ 0x0001 < 65536 ∧ (1 ≤ 2 ∧ 2 ≤ 125) ∧ 9 + 2 * 2 ≤ 256) ∧
    (ModbusRequest16 0x11 0x0001 2 [0x00, 0x0A, 0x01, 0x02]).getSize = 9 + 2 * 2 ∧
    (ModbusRequest16 0x11 0x0001 2 [0x00, 0x0A, 0x01, 0x02]).getMessage =
      [0x11, 0x10, 0x00, 0x01, 0x00, 0x02, 0x04, 0x00, 0x0A, 0x01, 0x02, 0xC6, 0xF0] :=
  ⟨by decide,
    (request16_frame_layout 0x11 0x0001 2 [0x00, 0x0A, 0x01, 0x02] (by decide) (by decide)
      (by decide) (by decide) (by decide) (by decide)).1,
    by decide⟩

theorem ModbusRequest.fold_add2_eq (f g : Nat → Nat) (l : List Nat) : ∀ r : ModbusRequest,
    l.foldl (fun (acc : ModbusRequest) i => (acc.add (f i)).add (g i)) r =
      { r with toModbusMessage :=
          r.toModbusMessage.addMany (l.flatMap (fun i => [f i, g i])) } := by
  induction l with
  | nil => intro r; rfl
  | cons i l ih =>
    intro r
    simp only [List.foldl_cons, List.flatMap_cons, ModbusMessage.addMany, List.foldl_append,
      List.foldl_nil]
    rw [ih ((r.add (f i)).add (g i))]
    rfl

/-- The FC 0x17 constructor as a run of `add` calls on the buffer, followed by the two
`add` calls for the CRC. -/
theorem request17_run (s ra rc wa wc : Nat) (wd : List Nat) :
    (ModbusRequest17 s ra rc wa wc wd).toModbusMessage =
      (((ModbusMessage.new (11 + wc * 2)).addMany
          ([s, esp32Modbus.READ_WRITE_MULT_REGISTERS, high ra, low ra, high rc, low rc,
              high wa, low wa, high wc, low wc, wc * 2] ++
            (List.range wc).flatMap (fun i => [high (wd.getD i 0), low (wd.getD i 0)]))).add
        (low (CRC16 ((ModbusMessage.new (11 + wc * 2)).addMany
          ([s, esp32Modbus.READ_WRITE_MULT_REGISTERS, high ra, low ra, high rc, low rc,
              high wa, low wa, high wc, low wc, wc * 2] ++
            (List.range wc).flatMap
              (fun i => [high (wd.getD i 0), low (wd.getD i 0)])))._buffer
          (11 + wc * 2 - 2)))).add
        (high (CRC16 ((ModbusMessage.new (11 + wc * 2)).addMany
          ([s, esp32Modbus.READ_WRITE_MULT_REGISTERS, high ra, low ra, high rc, low rc,
              high wa, low wa, high wc, low wc, wc * 2] ++
            (List.range wc).flatMap
              (fun i => [high (wd.getD i 0), low (wd.getD i 0)])))._buffer
          (11 + wc * 2 - 2))) := by
  simp only [ModbusRequest17,
    ModbusRequest.fold_add2_eq (fun i => high (wd.getD i 0)) (fun i => low (wd.getD i 0))]
  simp only [ModbusRequest.add, ModbusRequest.new, ModbusMessage.addMany, List.foldl_append,
    List.foldl_cons, List.foldl_nil]

theorem flatMap_pair_length (l : List Nat) (f g : Nat → Nat) :
    (l.flatMap (fun i => [f i, g i])).length = 2 * l.length := by
  induction l with
  | nil => rfl
  | cons a l ih =>
    simp only [List.flatMap_cons, List.length_append, List.length_cons, List.length_nil, ih]
    omega

theorem range_flatMap_getD (wd : List Nat) (f g : Nat → Nat) (k : Nat) (h : k ≤ wd.length) :
    (List.range k).flatMap (fun i => [f (wd.getD i 0), g (wd.getD i 0)]) =
      (wd.take k).flatMap (fun v => [f v, g v]) := by
  rw [← range_map_getD wd k h, List.flatMap_map]

theorem ModbusRequest17_fields (s ra rc wa wc : Nat) (wd : List Nat) :
    (ModbusRequest17 s ra rc wa wc wd).cls = .Request17 ∧
    (ModbusRequest17 s ra rc wa wc wd)._byteCount = rc * 2 % 65536 ∧
    (ModbusRequest17 s ra rc wa wc wd)._address = ra := by
  simp only [ModbusRequest17,
    ModbusRequest.fold_add2_eq (fun i => high (wd.getD i 0)) (fun i => low (wd.getD i 0))]
  exact ⟨rfl, rfl, rfl⟩

/-- C22 (divergence, for every input): for every read count and write count in 1..=125
whose frame length 11 + 2*writeCount per the codec table is at most 256, the FC 0x17
encoder emits exactly 11 + 2*writeCount bytes, and they are the eleven header bytes and
the write values, high byte then low byte: the frame ends with the last write value and
holds no CRC. `responseLength()` is 5 + 2*readCount and the logical address is the read
address. -/
theorem request17_frame_is_header_and_values (slave readAddress readCount writeAddress
    writeCount : Nat) (writeData : List Nat)
    (hs : slave < 256) (hra : readAddress < 65536) (hwa : writeAddress < 65536)
    (hrc : 1 ≤ readCount ∧ readCount ≤ 125) (hwc : 1 ≤ writeCount ∧ writeCount ≤ 125)
    (hlen : 11 + 2 * writeCount ≤ 256) (hd : ∀ v ∈ writeData, v < 65536)
    (hdl : writeCount ≤ writeData.length) :
    (ModbusRequest17 slave readAddress readCount writeAddress writeCount writeData).getSize =
      11 + 2 * writeCount ∧
    (ModbusRequest17 slave readAddress readCount writeAddress writeCount writeData).stored =
      [slave, 0x17, readAddress / 256, readAddress % 256, readCount / 256, readCount % 256,
        writeAddress / 256, writeAddress % 256, writeCount / 256, writeCount % 256,
        2 * writeCount] ++
      (writeData.take writeCount).flatMap (fun v => [v / 256, v % 256]) ∧
    (ModbusRequest17 slave readAddress readCount writeAddress writeCount
      writeData).responseLength = 5 + 2 * readCount ∧
    (ModbusRequest17 slave readAddress readCount writeAddress writeCount
      writeData).getAddress = readAddress := by
  obtain ⟨hrc1, hrc2⟩ := hrc
  obtain ⟨hwc1, hwc2⟩ := hwc
  obtain ⟨hcls, hbc, haddr⟩ :=
    ModbusRequest17_fields slave readAddress readCount writeAddress writeCount writeData
  have hL : 11 + writeCount * 2 = 11 + 2 * writeCount := by omega
  have hrun := request17_run slave readAddress readCount writeAddress writeCount writeData
  rw [range_flatMap_getD writeData high low writeCount hdl] at hrun
  generalize hP : ([slave, esp32Modbus.READ_WRITE_MULT_REGISTERS, high readAddress,
      low readAddress, high readCount, low readCount, high writeAddress, low writeAddress,
      high writeCount, low writeCount, writeCount * 2] ++
      (writeData.take writeCount).flatMap (fun v => [high v, low v])) = P at hrun
  have hPlen : P.length = 11 + 2 * writeCount := by
    rw [← hP, List.length_append, flatMap_pair_length, List.length_take,
      Nat.min_eq_left hdl]
    simp
  obtain ⟨hst, hi, hl, _⟩ := ModbusMessage.addMany_stored P
    (ModbusMessage.new (11 + writeCount * 2)) (ModbusMessage.new_buffer_length _)
    (by rw [ModbusMessage.new_index, ModbusMessage.new_length_of_fit _ (by omega) (by omega)]
        omega)
  rw [ModbusMessage.new_index, Nat.zero_add] at hi
  rw [ModbusMessage.new_length_of_fit _ (by omega) (by omega)] at hl
  have hfull : ∀ v : Nat, ((ModbusMessage.new (11 + writeCount * 2)).addMany P).add v =
      (ModbusMessage.new (11 + writeCount * 2)).addMany P :=
    fun v => ModbusMessage.add_full _ v (by rw [hl, hi]; omega)
  rw [hfull, hfull] at hrun
  have hflat : ∀ l : List Nat, (∀ v ∈ l, v < 65536) →
      (l.flatMap (fun v => [high v, low v])).map (· % 256) =
        l.flatMap (fun v => [v / 256, v % 256]) := by
    intro l
    induction l with
    | nil => intro _; rfl
    | cons a l ih =>
      intro hl
      have ha : a < 65536 := hl a (by simp)
      have e : a / 256 % 256 = a / 256 := Nat.mod_eq_of_lt (by omega)
      rw [List.flatMap_cons, List.map_append, ih (fun v hv => hl v (by simp [hv])),
        List.flatMap_cons]
      simp only [List.map_cons, List.map_nil, low_eq_mod, high_eq_div_mod, e, Nat.mod_mod]
  have e1 : slave % 256 = slave := Nat.mod_eq_of_lt hs
  have e2 : readAddress / 256 % 256 = readAddress / 256 := Nat.mod_eq_of_lt (by omega)
  have e3 : writeAddress / 256 % 256 = writeAddress / 256 := Nat.mod_eq_of_lt (by omega)
  have e4 : readCount / 256 % 256 = readCount / 256 := Nat.mod_eq_of_lt (by omega)
  have e5 : writeCount / 256 % 256 = writeCount / 256 := Nat.mod_eq_of_lt (by omega)
  have e6 : writeCount * 2 % 256 = 2 * writeCount := by
    rw [Nat.mod_eq_of_lt (by omega)]; omega
  refine ⟨?_, ?_, ?_, haddr⟩
  · simp only [ModbusMessage.getSize]
    rw [hrun, hi, hPlen]
  · unfold ModbusMessage.stored at hst ⊢
    simp only [ModbusMessage.new_index, List.take_zero, List.nil_append] at hst
    rw [hrun, hst, ← hP, List.map_append,
      hflat _ (fun v hv => hd v (List.mem_of_mem_take hv))]
    simp [low_eq_mod, high_eq_div_mod, e1, e2, e3, e4, e5, e6,
      esp32Modbus.READ_WRITE_MULT_REGISTERS]
  · unfold ModbusRequest.responseLength
    rw [hcls]
    show 5 + (ModbusRequest17 slave readAddress readCount writeAddress writeCount
      writeData)._byteCount = _
    rw [hbc, Nat.mod_eq_of_lt (by omega)]
    omega

/-- C22 (failing input): the FC 0x17 encoder at slave 0x01, read address 0x0010, read
count 3, write address 0x0020, write count 1 and the write value 0xABCD emits the
13 = 11 + 2*1 bytes 01 17 00 10 00 03 00 20 00 01 02 AB CD; the last two are the write
value, not the CRC of what precedes. -/
theorem request17_frame_is_header_and_values_witness :
    (0x01 < 256 ∧ 0x0010 < 65536 ∧ 0x0020 < 65536 ∧ (1 ≤ 3 ∧ 3 ≤ 125) ∧ (1 ≤ 1 ∧ 1 ≤ 125) ∧
      11 + 2 * 1 ≤ 256) ∧
    (ModbusRequest17 0x01 0x0010 3 0x0020 1 [0xABCD]).stored =
      [0x01, 0x17, 0x0010 / 256, 0x0010 % 256, 3 / 256, 3 % 256, 0x0020 / 256, 0x0020 % 256,
        1 / 256, 1 % 256, 2 * 1] ++
      ([0xABCD].take 1).flatMap (fun v => [v / 256, v % 256]) ∧
    (ModbusRequest17 0x01 0x0010 3 0x0020 1 [0xABCD]).getMessage =
      [0x01, 0x17, 0x00, 0x10, 0x00, 0x03, 0x00, 0x20, 0x00, 0x01, 0x02, 0xAB, 0xCD] ∧
    ¬ crcTrailerMatches (ModbusRequest17 0x01 0x0010 3 0x0020 1 [0xABCD]).getMessage :=
  ⟨by decide,
    (request17_frame_is_header_and_values 0x01 0x0010 3 0x0020 1 [0xABCD] (by decide)
      (by decide) (by decide) (by decide) (by decide) (by decide) (by decide) (by decide)).2.1,
    by decide, by decide⟩

/-! ## Runs of `add` on any buffer; exception responses -/

/-- A run of `add` calls on any buffer: the bytes that still fit are appended, the rest
is dropped. -/
theorem ModbusMessage.addMany_take (values : List Nat) : ∀ m : ModbusMessage,
    m._buffer.length = m._length → m._index ≤ m._length →
    (m.addMany values).stored =
      m.stored ++ (values.map (· % 256)).take (m._length - m._index) ∧
    (m.addMany values)._index = min (m._index + values.length) m._length ∧
    (m.addMany values)._length = m._length := by
  induction values with
  | nil =>
    intro m _ hi
    simp [ModbusMessage.addMany, Nat.min_eq_left hi]
  | cons v vs ih =>
    intro m hb hi
    simp only [ModbusMessage.addMany, List.foldl_cons, List.length_cons, List.map_cons]
    by_cases hfull : m._index < m._length
    · obtain ⟨h1, h2⟩ := m.add_stored v hb hfull
      have hl := m.add_length v
      have hbl := m.add_buffer_length v
      obtain ⟨a, b, c⟩ := ih (m.add v) (by omega) (by omega)
      simp only [ModbusMessage.addMany] at a b c
      refine ⟨?_, ?_, ?_⟩
      · rw [a, h1, hl, h2]
        have e : m._length - m._index = (m._length - (m._index + 1)) + 1 := by omega
        rw [e, List.take_succ_cons]
        simp
      · rw [b, h2, hl]; omega
      · rw [c, hl]
    · have hfull2 : m._length ≤ m._index := by omega
      rw [m.add_full v hfull2]
      obtain ⟨a, b, c⟩ := ih m hb hi
      simp only [ModbusMessage.addMany] at a b c
      have e : m._length - m._index = 0 := by omega
      rw [e] at a
      refine ⟨?_, ?_, c⟩
      · rw [a, e]; simp
      · rw [b]; omega

/-- C30: for every buffer (of nominal length `L`) and every sequence of `add` calls, the
count of stored bytes is at most the capacity; it is the smaller of the number of calls
and the capacity, and the stored bytes are that many first bytes added, in order; an
`add` on a full buffer changes neither the stored bytes nor the count. -/
theorem add_is_bounded_by_capacity (L : Nat) (values : List Nat)
    (hv : ∀ v ∈ values, v < 256) :
    ((ModbusMessage.new L).addMany values)._length = (ModbusMessage.new L)._length ∧
    ((ModbusMessage.new L).addMany values).getSize ≤ (ModbusMessage.new L)._length ∧
    ((ModbusMessage.new L).addMany values).getSize =
      min values.length (ModbusMessage.new L)._length ∧
    ((ModbusMessage.new L).addMany values).stored =
      values.take (min values.length (ModbusMessage.new L)._length) ∧
    (((ModbusMessage.new L).addMany values).getSize = (ModbusMessage.new L)._length →
      ∀ v : Nat,
        (((ModbusMessage.new L).addMany values).add v).stored =
          ((ModbusMessage.new L).addMany values).stored ∧
        (((ModbusMessage.new L).addMany values).add v).getSize =
          ((ModbusMessage.new L).addMany values).getSize) := by
  obtain ⟨a, b, c⟩ := ModbusMessage.addMany_take values (ModbusMessage.new L)
    (ModbusMessage.new_buffer_length L) (by rw [ModbusMessage.new_index]; omega)
  have hmap : values.map (· % 256) = values := by
    conv_rhs => rw [← List.map_id values]
    apply List.map_congr_left
    intro v hvm
    exact Nat.mod_eq_of_lt (hv v hvm)
  simp only [ModbusMessage.new_index, Nat.zero_add, Nat.sub_zero, hmap, ModbusMessage.stored,
    List.take_zero, List.nil_append] at a b
  simp only [ModbusMessage.getSize, ModbusMessage.stored]
  refine ⟨c, ?_, b, ?_, ?_⟩
  · rw [b]; omega
  · rw [a]
    by_cases h : values.length ≤ (ModbusMessage.new L)._length
    · rw [Nat.min_eq_left h, List.take_of_length_le h, List.take_of_length_le (le_refl _)]
    · rw [Nat.min_eq_right (by omega)]
  · intro hfull v
    rw [ModbusMessage.add_full _ v (by rw [c, hfull])]
    exact ⟨rfl, rfl⟩

/-- Witness for C30: seven `add` calls on a buffer of five cells keep the first five
bytes. -/
theorem add_is_bounded_by_capacity_witness :
    (∀ v ∈ [1, 2, 3, 4, 5, 6, 7], v < 256) ∧
    ((ModbusMessage.new 5).addMany [1, 2, 3, 4, 5, 6, 7]).stored =
      [1, 2, 3, 4, 5, 6, 7].take
        (min [1, 2, 3, 4, 5, 6, 7].length (ModbusMessage.new 5)._length) :=
  ⟨by decide, (add_is_bounded_by_capacity 5 [1, 2, 3, 4, 5, 6, 7] (by decide)).2.2.2.1⟩

theorem receiveBytes_toMessage (req : ModbusRequest) (bytes : List Nat) :
    (esp32ModbusRTU.receiveBytes req bytes).toModbusMessage =
      (esp32ModbusRTU.newResponse req).toModbusMessage.addMany bytes := by
  unfold esp32ModbusRTU.receiveBytes ModbusMessage.addMany
  generalize esp32ModbusRTU.newResponse req = r0
  induction bytes generalizing r0 with
  | nil => rfl
  | cons b rest ih =>
    simp only [List.foldl_cons]
    rw [ih (r0.add b)]
    rfl

/-- At most five received bytes always fit into the response buffer. -/
theorem receiveBytes_short (req : ModbusRequest) (bytes : List Nat) (h : bytes.length ≤ 5) :
    (esp32ModbusRTU.receiveBytes req bytes).getSize = bytes.length ∧
    (esp32ModbusRTU.receiveBytes req bytes).stored = bytes.map (· % 256) := by
  have hL := newResponse_length req
  have h5 := req.responseLength_ge
  have hL5 : 5 ≤ (esp32ModbusRTU.newResponse req)._length := by
    rw [hL]; split <;> omega
  have hb : (esp32ModbusRTU.newResponse req)._buffer.length =
      (esp32ModbusRTU.newResponse req)._length := ModbusMessage.new_buffer_length _
  have hi : (esp32ModbusRTU.newResponse req)._index = 0 := rfl
  obtain ⟨a, b, _, _⟩ := ModbusMessage.addMany_stored bytes
    (esp32ModbusRTU.newResponse req).toModbusMessage hb (by rw [hi]; omega)
  unfold ModbusMessage.getSize
  unfold ModbusMessage.stored at a ⊢
  rw [receiveBytes_toMessage, a, b, hi]
  simp

/-- The outcome of `isSuccess` on a complete exception response. -/
theorem isSuccess_of_exception (r : ModbusResponse) (hidx : r._index = 5)
    (hflag : (r._buffer.getD 1 0).testBit 7 = true) :
    r.isComplete = true ∧
    r.isSuccess = (decide (r._buffer.getD 2 0 = esp32Modbus.SUCCESS),
      { r with _error := r._buffer.getD 2 0 }) := by
  have hf : (r._buffer.getD 1 0 &&& MODBUS_ERROR_FLAG) ≠ 0 := (and_error_flag_ne_zero _).2 hflag
  have hcomp : r.isComplete = true := by
    unfold ModbusResponse.isComplete
    rw [if_pos ⟨hf, hidx⟩]
  refine ⟨hcomp, ?_⟩
  unfold ModbusResponse.isSuccess
  simp only [hcomp, Bool.not_true, Bool.false_eq_true, if_false, if_pos hf]

end esp32ModbusRTUInternals

namespace esp32ModbusRTU

/-! ## The worker: interval, timeout, dispatch and shutdown -/

/-- C28: a newly constructed instance has the receive timeout 5000 ms;
`setTimeOutValue(t)` sets the timeout to `t` and changes no other field when `t` is
greater than 0, and changes nothing when `t` is 0. -/
theorem setTimeOutValue_spec :
    (∀ rtsPin : Int, (esp32ModbusRTU.new rtsPin).TimeOutValue = 5000) ∧
    (∀ (self : esp32ModbusRTU) (t : Nat), 0 < t →
      self.setTimeOutValue t = { self with TimeOutValue := t } ∧
      (self.setTimeOutValue t).TimeOutValue = t) ∧
    (∀ self : esp32ModbusRTU, self.setTimeOutValue 0 = self) := by
  refine ⟨fun _ => rfl, ?_, ?_⟩
  · intro self t ht
    unfold setTimeOutValue
    rw [if_pos (by omega)]
    exact ⟨rfl, rfl⟩
  · intro self
    unfold setTimeOutValue
    rw [if_neg (by omega)]

/-- Witness for C28: a timeout of 250 ms on a new instance. -/
theorem setTimeOutValue_spec_witness :
    0 < 250 ∧ ((esp32ModbusRTU.new (-1)).setTimeOutValue 250).TimeOutValue = 250 :=
  ⟨by decide, (setTimeOutValue_spec.2.1 (esp32ModbusRTU.new (-1)) 250 (by decide)).2⟩

theorem begin_of_queues (self : esp32ModbusRTU) (baudRate : Nat) (taskCreated : Bool)
    (hq : ∀ i : Fin 4, (self._queues i).isSome = true) :
    self.begin baudRate taskCreated =
      { self with _task := taskCreated,
                  _interval := if 40000 / baudRate = 0 then 1 else 40000 / baudRate } := by
  unfold begin
  have h : (List.finRange 4).all (fun i => (self._queues i).isSome) = true := by
    rw [List.all_eq_true]
    intro i _
    exact hq i
  simp only [h, Bool.not_true, Bool.false_eq_true, if_false]

theorem new_queues (rtsPin : Int) (i : Fin 4) :
    ((esp32ModbusRTU.new rtsPin)._queues i).isSome = true := by
  fin_cases i <;> rfl

/-- C26: for every baud rate greater than 0, `begin` on an instance whose four queues
exist (as on every newly constructed one) sets the inter-frame interval to
max(1, floor(40000 / baud)) ms, which is at least 1. -/
theorem begin_sets_interval (self : esp32ModbusRTU) (baudRate : Nat) (taskCreated : Bool)
    (_hb : 0 < baudRate) (hq : ∀ i : Fin 4, (self._queues i).isSome = true) :
    (self.begin baudRate taskCreated)._interval = max 1 (40000 / baudRate) ∧
    (self.begin baudRate taskCreated)._interval = max 1 ⌊(40000 : ℚ) / baudRate⌋₊ ∧
    1 ≤ (self.begin baudRate taskCreated)._interval ∧
    (∀ rtsPin : Int,
      ((esp32ModbusRTU.new rtsPin).begin baudRate taskCreated)._interval =
        max 1 (40000 / baudRate)) := by
  have key : ∀ s : esp32ModbusRTU, (∀ i : Fin 4, (s._queues i).isSome = true) →
      (s.begin baudRate taskCreated)._interval = max 1 (40000 / baudRate) := by
    intro s hs
    rw [begin_of_queues s baudRate taskCreated hs]
    show (if 40000 / baudRate = 0 then 1 else 40000 / baudRate) = _
    generalize 40000 / baudRate = q
    split <;> omega
  have hfloor : ⌊(40000 : ℚ) / baudRate⌋₊ = 40000 / baudRate := by
    have := Nat.floor_div_eq_div (α := ℚ) 40000 baudRate
    simpa using this
  refine ⟨key self hq, ?_, ?_, fun rtsPin => key _ (new_queues rtsPin)⟩
  · rw [hfloor]; exact key self hq
  · rw [key self hq]; exact Nat.le_max_left _ _

/-- Witness for C26: 9600 baud gives 4 ms, 115200 baud gives the minimum of 1 ms. -/
theorem begin_sets_interval_witness :
    (0 < 9600 ∧ ∀ i : Fin 4, ((esp32ModbusRTU.new (-1))._queues i).isSome = true) ∧
    ((esp32ModbusRTU.new (-1)).begin 9600 true)._interval = max 1 (40000 / 9600) :=
  ⟨⟨by decide, new_queues (-1)⟩,
    (begin_sets_interval (esp32ModbusRTU.new (-1)) 9600 true (by decide) (new_queues (-1))).1⟩

/-- C27 (failing input): at 14400 baud `begin` sets an interval of 2 ms, which is
28800 bit times, less than the 35000 of 3.5 characters of 10 bits; 28800 baud gives
1 ms, again 28800. -/
theorem begin_interval_below_three_and_a_half_characters :
    0 < 14400 ∧
    ((esp32ModbusRTU.new (-1)).begin 14400 true)._interval = 2 ∧
    ((esp32ModbusRTU.new (-1)).begin 14400 true)._interval * 14400 = 28800 ∧
    ¬ ((esp32ModbusRTU.new (-1)).begin 14400 true)._interval * 14400 ≥ 35000 ∧
    ((esp32ModbusRTU.new (-1)).begin 28800 true)._interval = 1 ∧
    ¬ ((esp32ModbusRTU.new (-1)).begin 28800 true)._interval * 28800 ≥ 35000 := by
  decide

/-- C24: for every request and every complete 5-byte exception response (second byte
with bit 7 set) whose third byte `c` is in 0x01..=0x08, `isSuccess` is false, the
recorded error is `c`, and the dispatch of the worker calls the error handler, when one
is set, with exactly `c` and never the data handler. The response 11 83 02 C0 F1 to any
request yields the call of the error handler with 0x02. -/
theorem exception_response_dispatches_on_error (self : esp32ModbusRTU)
    (request : ModbusRequest) (response : ModbusResponse) (c : Nat)
    (hsize : response.getSize = 5) (hflag : (response._buffer.getD 1 0).testBit 7 = true)
    (hc : response._buffer.getD 2 0 = c) (hrange : 0x01 ≤ c ∧ c ≤ 0x08) :
    response.isComplete = true ∧
    response.isSuccess.1 = false ∧
    response.isSuccess.2.getError = c ∧
    (self._onError = true → self.dispatch request response = [Event.onError c]) ∧
    (∀ e ∈ self.dispatch request response, e = Event.onError c) ∧
    (self._onError = true →
      self.dispatch request (receiveBytes request [0x11, 0x83, 0x02, 0xC0, 0xF1]) =
        [Event.onError 0x02]) := by
  have key : ∀ (resp : ModbusResponse) (k : Nat), resp._index = 5 →
      (resp._buffer.getD 1 0).testBit 7 = true → resp._buffer.getD 2 0 = k → 1 ≤ k →
      resp.isComplete = true ∧ resp.isSuccess.1 = false ∧ resp.isSuccess.2.getError = k ∧
      self.dispatch request resp = if self._onError then [Event.onError k] else [] := by
    intro resp k h1 h2 h3 h4
    obtain ⟨hcomp, hs⟩ := isSuccess_of_exception resp h1 h2
    have hne : decide (resp._buffer.getD 2 0 = esp32Modbus.SUCCESS) = false := by
      rw [h3]
      simp only [esp32Modbus.SUCCESS, decide_eq_false_iff_not]
      omega
    rw [hne, h3] at hs
    refine ⟨hcomp, ?_, ?_, ?_⟩
    · rw [hs]
    · rw [hs]; rfl
    · simp only [dispatch, hs, Bool.false_eq_true, if_false, ModbusResponse.getError]
  obtain ⟨k1, k2, k3, k4⟩ := key response c hsize hflag hc hrange.1
  refine ⟨k1, k2, k3, ?_, ?_, ?_⟩
  · intro h
    rw [k4, if_pos h]
  · intro e he
    rw [k4] at he
    split at he
    · simpa using he
    · simp at he
  · intro h
    obtain ⟨s1, s2⟩ := receiveBytes_short request [0x11, 0x83, 0x02, 0xC0, 0xF1] (by decide)
    have hb : ∀ k, k < 5 → (receiveBytes request [0x11, 0x83, 0x02, 0xC0, 0xF1])._buffer.getD k 0 =
        ([0x11, 0x83, 0x02, 0xC0, 0xF1].map (· % 256)).getD k 0 := by
      intro k hk
      rw [← s2]
      unfold ModbusMessage.stored
      unfold ModbusMessage.getSize at s1
      rw [s1]
      exact (getD_take_of_lt _ _ _ hk).symm
    obtain ⟨_, _, _, k4'⟩ := key (receiveBytes request [0x11, 0x83, 0x02, 0xC0, 0xF1]) 2 s1
      (by rw [hb 1 (by decide)]; decide) (by rw [hb 2 (by decide)]; rfl) (by decide)
    rw [k4', if_pos h]

/-- Witness for C24: the exception response 11 83 02 C0 F1 to a read of three holding
registers, with an error handler set. -/
theorem exception_response_dispatches_on_error_witness :
    (receiveBytes (ModbusRequest03 0x11 0x006B 3) [0x11, 0x83, 0x02, 0xC0, 0xF1]).getSize = 5 ∧
    (0x01 ≤ 0x02 ∧ 0x02 ≤ 0x08) ∧
    (receiveBytes (ModbusRequest03 0x11 0x006B 3)
      [0x11, 0x83, 0x02, 0xC0, 0xF1]).isSuccess.1 = false ∧
    ((startedInstance.onError true).dispatch (ModbusRequest03 0x11 0x006B 3)
      (receiveBytes (ModbusRequest03 0x11 0x006B 3) [0x11, 0x83, 0x02, 0xC0, 0xF1]) =
        [Event.onError 0x02]) :=
  ⟨by decide, by decide,
    (exception_response_dispatches_on_error (startedInstance.onError true)
      (ModbusRequest03 0x11 0x006B 3)
      (receiveBytes (ModbusRequest03 0x11 0x006B 3) [0x11, 0x83, 0x02, 0xC0, 0xF1]) 0x02
      (by decide) (by decide) (by decide) (by decide)).2.1,
    (exception_response_dispatches_on_error (startedInstance.onError true)
      (ModbusRequest03 0x11 0x006B 3)
      (receiveBytes (ModbusRequest03 0x11 0x006B 3) [0x11, 0x83, 0x02, 0xC0, 0xF1]) 0x02
      (by decide) (by decide) (by decide) (by decide)).2.2.2.1 rfl⟩

/-- Taking a request from the queues leaves the flags and the handlers alone. -/
theorem dequeueLoop_fields (s : esp32ModbusRTU) (ps : List (Fin 4)) :
    (s.dequeueLoop ps).2._shutdown = s._shutdown ∧
    (s.dequeueLoop ps).2._onData = s._onData ∧
    (s.dequeueLoop ps).2._onError = s._onError := by
  induction ps with
  | nil => exact ⟨rfl, rfl, rfl⟩
  | cons p ps ih =>
    unfold dequeueLoop
    cases hq : s._queues p with
    | none => simpa using ih
    | some q =>
      cases hr : xQueueReceive q with
      | none => simpa [hr] using ih
      | some x =>
        obtain ⟨request, q2⟩ := x
        simp [hr]

theorem dequeue_fields (s s1 : esp32ModbusRTU) (r : Option ModbusRequest)
    (h : s._dequeueByPriority = (r, s1)) :
    s1._shutdown = s._shutdown ∧ s1._onData = s._onData ∧ s1._onError = s._onError := by
  have := dequeueLoop_fields s [0, 1, 2, 3]
  unfold _dequeueByPriority at h
  rw [h] at this
  exact this

/-- The method `_send` calls no handler and leaves the handlers alone. -/
theorem send_fields (s : esp32ModbusRTU) (data : List Nat) (length now : Nat) :
    (s._send data length now).1.filter Event.isCallback = [] ∧
    (s._send data length now).2._onData = s._onData ∧
    (s._send data length now).2._onError = s._onError := by
  unfold _send
  split <;> exact ⟨rfl, rfl, rfl⟩

/-- The dispatch with both handlers set. -/
theorem dispatch_both (s : esp32ModbusRTU) (request : ModbusRequest) (response : ModbusResponse)
    (hD : s._onData = true) (hE : s._onError = true) :
    s.dispatch request response =
      if response.isSuccess.1 = true then
        [Event.onData response.isSuccess.2.getSlaveAddress
          response.isSuccess.2.getFunctionCode request.getAddress
          response.isSuccess.2.getData response.isSuccess.2.getByteCount]
      else [Event.onError response.isSuccess.2.getError] := by
  unfold dispatch
  rw [hD, hE]
  rcases hs : response.isSuccess with ⟨ok, resp⟩
  cases ok <;> simp

/-- One pass of the worker that took a request and saw no shutdown: the handler calls
are those of the dispatch. -/
theorem workerIteration_callbacks (self self1 : esp32ModbusRTU) (inp : WorkerInput)
    (request : ModbusRequest) (hs : self._shutdown = false)
    (hm : inp.shutdownSetMeanwhile = false)
    (hd : self._dequeueByPriority = (some request, self1)) :
    (self.workerIteration inp).events.filter Event.isCallback =
      (self.dispatch request (receiveBytes request inp.received)).filter Event.isCallback ∧
    (self.workerIteration inp).exited = false ∧
    (self.workerIteration inp).deleted = some request := by
  obtain ⟨f1, f2, f3⟩ := dequeue_fields self self1 _ hd
  unfold workerIteration
  rw [if_neg (by rw [hs]; decide)]
  simp only [hd, hm, f1, hs, Bool.or_false, Bool.false_eq_true, if_false]
  generalize hs1 : ({ self1 with _shutdown := false } : esp32ModbusRTU) = s1
  have g2 : s1._onData = self._onData := by rw [← hs1]; exact f2
  have g3 : s1._onError = self._onError := by rw [← hs1]; exact f3
  obtain ⟨a, b, c⟩ := send_fields s1 request.getMessage request.getSize inp.millisAfterSend
  rcases hsend : s1._send request.getMessage request.getSize inp.millisAfterSend with
    ⟨sent, s2⟩
  rw [hsend] at a b c
  simp only at a b c ⊢
  refine ⟨?_, trivial, trivial⟩
  have hdisp : ∀ (t : esp32ModbusRTU) (resp : ModbusResponse), t._onData = self._onData →
      t._onError = self._onError → t.dispatch request resp = self.dispatch request resp := by
    intro t resp h1 h2
    unfold dispatch
    rw [h1, h2]
  rw [List.filter_append, List.filter_append, a]
  simp only [List.filter_cons, Event.isCallback, Bool.false_eq_true, if_false, List.filter_nil,
    List.nil_append]
  rw [hdisp]
  · split
    · exact b.trans g2
    · exact b.trans g2
  · split
    · exact c.trans g3
    · exact c.trans g3

/-- C25: with both handlers set, the dispatch on any response object, complete or
not, calls exactly one handler once: the data handler when `isSuccess` is true, the
error handler with the recorded error otherwise; and a pass of the worker that took a
request and saw no shutdown makes exactly that one call. -/
theorem worker_calls_exactly_one_handler (self self1 : esp32ModbusRTU) (inp : WorkerInput)
    (request : ModbusRequest) (hD : self._onData = true) (hE : self._onError = true)
    (hs : self._shutdown = false) (hm : inp.shutdownSetMeanwhile = false)
    (hd : self._dequeueByPriority = (some request, self1)) :
    (∀ response : ModbusResponse,
      (response.isSuccess.1 = true →
        self.dispatch request response =
          [Event.onData response.isSuccess.2.getSlaveAddress
            response.isSuccess.2.getFunctionCode request.getAddress
            response.isSuccess.2.getData response.isSuccess.2.getByteCount]) ∧
      (response.isSuccess.1 = false →
        self.dispatch request response = [Event.onError response.isSuccess.2.getError]) ∧
      (self.dispatch request response).length = 1 ∧
      ((self.dispatch request response).filter Event.isCallback).length = 1) ∧
    (self.workerIteration inp).events.filter Event.isCallback =
      self.dispatch request (receiveBytes request inp.received) ∧
    ((self.workerIteration inp).events.filter Event.isCallback).length = 1 := by
  have hall : ∀ response : ModbusResponse,
      (response.isSuccess.1 = true →
        self.dispatch request response =
          [Event.onData response.isSuccess.2.getSlaveAddress
            response.isSuccess.2.getFunctionCode request.getAddress
            response.isSuccess.2.getData response.isSuccess.2.getByteCount]) ∧
      (response.isSuccess.1 = false →
        self.dispatch request response = [Event.onError response.isSuccess.2.getError]) ∧
      (self.dispatch request response).length = 1 ∧
      ((self.dispatch request response).filter Event.isCallback).length = 1 ∧
      (self.dispatch request response).filter Event.isCallback =
        self.dispatch request response := by
    intro response
    have h := dispatch_both self request response hD hE
    cases hok : response.isSuccess.1
    · rw [hok] at h
      simp only [Bool.false_eq_true, if_false] at h
      rw [h]
      exact ⟨fun hh => absurd hh (by decide), fun _ => rfl, rfl, rfl, rfl⟩
    · rw [hok] at h
      simp only [if_true] at h
      rw [h]
      exact ⟨fun _ => rfl, fun hh => absurd hh (by decide), rfl, rfl, rfl⟩
  obtain ⟨w, _, _⟩ := workerIteration_callbacks self self1 inp request hs hm hd
  obtain ⟨_, _, _, h4, h5⟩ := hall (receiveBytes request inp.received)
  refine ⟨fun r => ⟨(hall r).1, (hall r).2.1, (hall r).2.2.1, (hall r).2.2.2.1⟩, ?_, ?_⟩
  · rw [w, h5]
  · rw [w, h4]

theorem handlersInstance_dequeue :
    handlersInstance._dequeueByPriority =
      (some (ModbusRequest03 0x11 0x006B 3), handlersInstance._dequeueByPriority.2) := by
  have h : handlersInstance._dequeueByPriority.1 = some (ModbusRequest03 0x11 0x006B 3) := by
    decide
  rw [← h]

/-- Witness for C25: the read of three holding registers answered by
11 03 06 AE 41 56 52 43 40 49 AD gives the one call of the data handler. -/
theorem worker_calls_exactly_one_handler_witness :
    (handlersInstance._onData = true ∧ handlersInstance._onError = true ∧
      handlersInstance._shutdown = false ∧ answeredPass.shutdownSetMeanwhile = false) ∧
    ((handlersInstance.workerIteration answeredPass).events.filter Event.isCallback).length = 1 ∧
    (handlersInstance.workerIteration answeredPass).events =
      [Event.send [0x11, 0x03, 0x00, 0x6B, 0x00, 0x03, 0x76, 0x87],
        Event.receive [0x11, 0x03, 0x06, 0xAE, 0x41, 0x56, 0x52, 0x43, 0x40, 0x49, 0xAD],
        Event.onData 0x11 0x03 0x006B [0xAE, 0x41, 0x56, 0x52, 0x43, 0x40, 0x49, 0xAD] 6] :=
  ⟨⟨rfl, rfl, rfl, rfl⟩,
    (worker_calls_exactly_one_handler handlersInstance handlersInstance._dequeueByPriority.2
      answeredPass (ModbusRequest03 0x11 0x006B 3) rfl rfl rfl rfl
      handlersInstance_dequeue).2.2,
    by decide⟩

/-- C29: in one pass of the worker, when the shutdown flag is found set right after a
request has been taken from the queues, the request is destroyed, no frame is written,
no byte is read, no handler is called, and the loop is left; and no pass that finds the
flag set, at the loop test or after the dequeue, calls a handler. -/
theorem shutdown_after_dequeue_skips_request (self self1 : esp32ModbusRTU)
    (inp : WorkerInput) (request : ModbusRequest) :
    (self._shutdown = false → self._dequeueByPriority = (some request, self1) →
      inp.shutdownSetMeanwhile = true →
        (self.workerIteration inp).events = [] ∧
        (self.workerIteration inp).deleted = some request ∧
        (self.workerIteration inp).exited = true ∧
        (self.workerIteration inp).state = { self1 with _shutdown := true }) ∧
    (self._shutdown = true →
      (self.workerIteration inp).events = [] ∧ (self.workerIteration inp).exited = true ∧
      (self.workerIteration inp).deleted = none ∧ (self.workerIteration inp).state = self) ∧
    (self._shutdown = true ∨ inp.shutdownSetMeanwhile = true →
      ∀ e ∈ (self.workerIteration inp).events, e.isCallback = false) := by
  have part1 : self._shutdown = false → self._dequeueByPriority = (some request, self1) →
      inp.shutdownSetMeanwhile = true →
        (self.workerIteration inp).events = [] ∧
        (self.workerIteration inp).deleted = some request ∧
        (self.workerIteration inp).exited = true ∧
        (self.workerIteration inp).state = { self1 with _shutdown := true } := by
    intro hs hd hm
    unfold workerIteration
    rw [if_neg (by rw [hs]; decide)]
    simp only [hd, hm, Bool.or_true, if_true]
    exact ⟨trivial, trivial, trivial, trivial⟩
  have part2 : self._shutdown = true →
      (self.workerIteration inp).events = [] ∧ (self.workerIteration inp).exited = true ∧
      (self.workerIteration inp).deleted = none ∧ (self.workerIteration inp).state = self := by
    intro hs
    unfold workerIteration
    rw [if_pos hs]
    exact ⟨rfl, rfl, rfl, rfl⟩
  refine ⟨part1, part2, ?_⟩
  intro h e he
  by_cases hs : self._shutdown = true
  · rw [(part2 hs).1] at he
    simp at he
  · have hs2 : self._shutdown = false := by simpa using hs
    have hm : inp.shutdownSetMeanwhile = true := h.resolve_left hs
    rcases hd : self._dequeueByPriority with ⟨r, s1⟩
    cases r with
    | none =>
      unfold workerIteration at he
      rw [if_neg hs] at he
      simp only [hd, List.mem_singleton] at he
      rw [he]
      rfl
    | some r =>
      have : (self.workerIteration inp).events = [] := by
        unfold workerIteration
        rw [if_neg hs]
        simp only [hd, hm, Bool.or_true, if_true]
      rw [this] at he
      simp at he

/-- Witness for C29: the shutdown flag is set while the worker takes the read request;
the pass has no event, destroys the request and leaves the loop. -/
theorem shutdown_after_dequeue_skips_request_witness :
    (handlersInstance._shutdown = false ∧ shutdownPass.shutdownSetMeanwhile = true) ∧
    ((handlersInstance.workerIteration shutdownPass).events = [] ∧
      (handlersInstance.workerIteration shutdownPass).deleted =
        some (ModbusRequest03 0x11 0x006B 3) ∧
      (handlersInstance.workerIteration shutdownPass).exited = true ∧
      (handlersInstance.workerIteration shutdownPass).state =
        { handlersInstance._dequeueByPriority.2 with _shutdown := true }) :=
  ⟨⟨rfl, rfl⟩,
    (shutdown_after_dequeue_skips_request handlersInstance
      handlersInstance._dequeueByPriority.2 shutdownPass (ModbusRequest03 0x11 0x006B 3)).1
      rfl handlersInstance_dequeue rfl⟩

end esp32ModbusRTU

namespace esp32ModbusRTUInternals

/-! ## The CRC residue -/

theorem crcStep_lt (st : Nat × Nat) (b : Nat) :
    (crcStep st b).1 < 256 ∧ (crcStep st b).2 < 256 := by
  unfold crcStep
  exact ⟨Nat.mod_lt _ (by decide), Nat.mod_lt _ (by decide)⟩

theorem crcLoop_lt : ∀ (msg : List Nat) (len : Nat) (st : Nat × Nat),
    st.1 < 256 → st.2 < 256 →
    (crcLoop msg len st).1 < 256 ∧ (crcLoop msg len st).2 < 256 := by
  intro msg
  induction msg with
  | nil => intro len st h1 h2; cases len <;> exact ⟨h1, h2⟩
  | cons b rest ih =>
    intro len st h1 h2
    cases len with
    | zero => exact ⟨h1, h2⟩
    | succ n =>
      simp only [crcLoop]
      exact ih n _ (crcStep_lt st b).1 (crcStep_lt st b).2

theorem crcLoop_append : ∀ (a b : List Nat) (k : Nat) (st : Nat × Nat),
    crcLoop (a ++ b) (a.length + k) st = crcLoop b k (crcLoop a a.length st) := by
  intro a
  induction a with
  | nil => intro b k st; simp [crcLoop]
  | cons x a ih =>
    intro b k st
    have e : (x :: a).length + k = (a.length + k) + 1 := by simp; omega
    rw [List.cons_append, e]
    simp only [crcLoop, List.length_cons]
    exact ih b k _

/-- The value of `CRC16` in terms of the two state bytes. -/
theorem word_of_state (hi lo : Nat) (hhi : hi < 256) (hlo : lo < 256) :
    ((hi <<< 8) ||| lo) % 65536 = hi * 256 + lo := by
  have h : hi <<< 8 ||| lo = hi * 256 + lo := by
    have := Nat.mul_add_lt_is_or (show lo < 2 ^ 8 from hlo) hi
    rw [Nat.shiftLeft_eq, Nat.mul_comm hi (2 ^ 8), ← this]
  rw [h]
  exact Nat.mod_eq_of_lt (by omega)

theorem crcLoTable_zero : ∀ i < 256, crcLoTable.getD i 0 = 0 → i = 0 := by decide

theorem xor_mod_eq_zero (a b : Nat) (ha : a < 256) (hb : b < 256)
    (h : (a ^^^ b) % 256 = 0) : a = b := by
  have hlt : a ^^^ b < 256 := by simpa using @Nat.xor_lt_two_pow a b 8 ha hb
  rw [Nat.mod_eq_of_lt hlt] at h
  exact Nat.xor_eq_zero.mp h

/-- The state after two more bytes is zero exactly when they are the low and the high
state byte. -/
theorem crcStep_trailer (hi lo t1 t2 : Nat) (hhi : hi < 256) (hlo : lo < 256)
    (h1 : t1 < 256) (h2 : t2 < 256) :
    crcStep (crcStep (hi, lo) t1) t2 = (0, 0) ↔ (lo = t1 ∧ hi = t2) := by
  constructor
  · intro h
    have hidx1 : (lo ^^^ t1) % 256 < 256 := Nat.mod_lt _ (by decide)
    obtain ⟨hL1, hH1⟩ := crcTables_lt _ hidx1
    simp only [crcStep, Prod.mk.injEq] at h
    obtain ⟨ha, hb⟩ := h
    have hx : (hi ^^^ crcHiTable.getD ((lo ^^^ t1) % 256) 0) % 256 < 256 :=
      Nat.mod_lt _ (by decide)
    have hidx2 : ((hi ^^^ crcHiTable.getD ((lo ^^^ t1) % 256) 0) % 256 ^^^ t2) % 256 < 256 :=
      Nat.mod_lt _ (by decide)
    obtain ⟨hL2, hH2⟩ := crcTables_lt _ hidx2
    rw [Nat.mod_eq_of_lt hL2] at ha
    have i2 := crcLoTable_zero _ hidx2 ha
    rw [i2] at hb
    have hH0 : crcHiTable.getD 0 0 = 0 := by decide
    rw [hH0, Nat.xor_zero, Nat.mod_mod, Nat.mod_eq_of_lt hL1] at hb
    have i1 := crcLoTable_zero _ hidx1 hb
    have e1 := xor_mod_eq_zero lo t1 hlo h1 i1
    rw [i1, hH0, Nat.xor_zero, Nat.mod_eq_of_lt hhi] at i2
    exact ⟨e1, xor_mod_eq_zero hi t2 hhi h2 i2⟩
  · rintro ⟨rfl, rfl⟩
    have hH0 : crcHiTable.getD 0 0 = 0 := by decide
    have hL0 : crcLoTable.getD 0 0 = 0 := by decide
    simp only [crcStep, Nat.xor_self, Nat.zero_mod, hH0, hL0, Nat.xor_zero,
      Nat.mod_eq_of_lt hhi]

/-- The two bytes of `CRC16` are the two state bytes of its loop. -/
theorem CRC16_state (msg : List Nat) (len : Nat) :
    (crcLoop msg len (0xFF, 0xFF)).1 < 256 ∧ (crcLoop msg len (0xFF, 0xFF)).2 < 256 ∧
    CRC16 msg len =
      (crcLoop msg len (0xFF, 0xFF)).1 * 256 + (crcLoop msg len (0xFF, 0xFF)).2 ∧
    low (CRC16 msg len) = (crcLoop msg len (0xFF, 0xFF)).2 ∧
    high (CRC16 msg len) = (crcLoop msg len (0xFF, 0xFF)).1 := by
  obtain ⟨h1, h2⟩ := crcLoop_lt msg len (0xFF, 0xFF) (by decide) (by decide)
  have hc : CRC16 msg len =
      (crcLoop msg len (0xFF, 0xFF)).1 * 256 + (crcLoop msg len (0xFF, 0xFF)).2 := by
    unfold CRC16
    exact word_of_state _ _ h1 h2
  refine ⟨h1, h2, hc, ?_, ?_⟩
  · rw [low_eq_mod, hc]; omega
  · rw [high_eq_div_mod, hc]; omega

theorem CRC16_append_pair (d : List Nat) (t1 t2 : Nat) :
    CRC16 (d ++ [t1, t2]) (d ++ [t1, t2]).length = 0 ↔
      crcStep (crcStep (crcLoop d d.length (0xFF, 0xFF)) t1) t2 = (0, 0) := by
  have hl : (d ++ [t1, t2]).length = d.length + 2 := by simp
  obtain ⟨h1, h2, hc, _, _⟩ := CRC16_state (d ++ [t1, t2]) (d.length + 2)
  rw [hl, hc, crcLoop_append] at *
  simp only [crcLoop] at *
  generalize crcStep (crcStep (crcLoop d d.length (0xFF, 0xFF)) t1) t2 = st at *
  obtain ⟨a, b⟩ := st
  simp only [Prod.mk.injEq] at *
  omega

theorem exists_trailer (frame : List Nat) (h : 2 ≤ frame.length) :
    ∃ d t1 t2, frame = d ++ [t1, t2] := by
  refine ⟨frame.take (frame.length - 2), (frame.drop (frame.length - 2)).getD 0 0,
    (frame.drop (frame.length - 2)).getD 1 0, ?_⟩
  have hd : (frame.drop (frame.length - 2)).length = 2 := by
    rw [List.length_drop]; omega
  have : frame.drop (frame.length - 2) =
      [(frame.drop (frame.length - 2)).getD 0 0, (frame.drop (frame.length - 2)).getD 1 0] := by
    generalize frame.drop (frame.length - 2) = l at hd
    match l, hd with
    | [a, b], _ => rfl
  rw [← this, List.take_append_drop]

theorem crcTrailerMatches_pair (d : List Nat) (t1 t2 : Nat) :
    crcTrailerMatches (d ++ [t1, t2]) ↔
      ((crcLoop d d.length (0xFF, 0xFF)).2 = t1 ∧ (crcLoop d d.length (0xFF, 0xFF)).1 = t2) := by
  have hl : (d ++ [t1, t2]).length - 2 = d.length := by simp
  have h1 : (d ++ [t1, t2]).length - 1 = d.length + 1 := by simp
  have ht : (d ++ [t1, t2]).take d.length = d := by simp
  have hc : CRC16 (d ++ [t1, t2]) d.length = CRC16 d d.length := by
    rw [← CRC16_take, ht]
  obtain ⟨_, _, _, hlo, hhi⟩ := CRC16_state d d.length
  unfold crcTrailerMatches
  rw [hl, h1, hc, hlo, hhi, (getD_append_pair d t1 t2).1, (getD_append_pair d t1 t2).2]

/-- C40: for every byte sequence `m` with `c = CRC16(m)`, `CRC16` over `m` followed by
the low byte and then the high byte of `c` is 0; a frame of bytes with at least two of
them has a matching CRC trailer exactly when `CRC16` over the whole frame is 0; and
`checkCRC` on a full buffer is true exactly when `CRC16` over the whole buffer is 0. -/
theorem CRC16_over_frame_with_trailer_is_zero :
    (∀ m : List Nat,
      CRC16 (m ++ [low (CRC16 m m.length), high (CRC16 m m.length)]) (m.length + 2) = 0) ∧
    (∀ frame : List Nat, 2 ≤ frame.length → (∀ b ∈ frame, b < 256) →
      (crcTrailerMatches frame ↔ CRC16 frame frame.length = 0)) ∧
    (∀ r : ModbusResponse, r._buffer.length = r._length → 2 ≤ r._length →
      (∀ b ∈ r._buffer, b < 256) →
      (r.checkCRC = true ↔ CRC16 r._buffer r._length = 0)) := by
  have part2 : ∀ frame : List Nat, 2 ≤ frame.length → (∀ b ∈ frame, b < 256) →
      (crcTrailerMatches frame ↔ CRC16 frame frame.length = 0) := by
    intro frame hlen hb
    obtain ⟨d, t1, t2, rfl⟩ := exists_trailer frame hlen
    obtain ⟨h1, h2⟩ := crcLoop_lt d d.length (0xFF, 0xFF) (by decide) (by decide)
    rw [CRC16_append_pair, crcTrailerMatches_pair]
    exact (crcStep_trailer _ _ t1 t2 h1 h2 (hb t1 (by simp)) (hb t2 (by simp))).symm
  refine ⟨?_, part2, ?_⟩
  · intro m
    obtain ⟨h1, h2, _, hlo, hhi⟩ := CRC16_state m m.length
    have hl : (m ++ [low (CRC16 m m.length), high (CRC16 m m.length)]).length =
        m.length + 2 := by simp
    rw [← hl, CRC16_append_pair, hlo, hhi]
    exact (crcStep_trailer _ _ _ _ h1 h2 h2 h1).2 ⟨rfl, rfl⟩
  · intro r hbl hlen hb
    rw [← hbl, ← part2 r._buffer (by omega) hb]
    unfold ModbusResponse.checkCRC crcTrailerMatches
    simp only [← hbl, MODBUS_CRC_LENGTH]
    constructor
    · intro h
      by_contra hn
      rw [if_neg hn] at h
      exact absurd h (by decide)
    · intro h
      rw [if_pos h]

/-- Witness for C40: the frame 11 03 00 6B 00 03 76 87 of scenario S1; its CRC trailer
matches and `CRC16` over all eight bytes is 0. -/
theorem CRC16_over_frame_with_trailer_is_zero_witness :
    (2 ≤ [0x11, 0x03, 0x00, 0x6B, 0x00, 0x03, 0x76, 0x87].length ∧
      ∀ b ∈ [0x11, 0x03, 0x00, 0x6B, 0x00, 0x03, 0x76, 0x87], b < 256) ∧
    (crcTrailerMatches [0x11, 0x03, 0x00, 0x6B, 0x00, 0x03, 0x76, 0x87] ↔
      CRC16 [0x11, 0x03, 0x00, 0x6B, 0x00, 0x03, 0x76, 0x87]
        [0x11, 0x03, 0x00, 0x6B, 0x00, 0x03, 0x76, 0x87].length = 0) ∧
    CRC16 [0x11, 0x03, 0x00, 0x6B, 0x00, 0x03, 0x76, 0x87] 8 = 0 :=
  ⟨by decide,
    CRC16_over_frame_with_trailer_is_zero.2.1 [0x11, 0x03, 0x00, 0x6B, 0x00, 0x03, 0x76, 0x87]
      (by decide) (by decide),
    by decide⟩

/-! ## Responses: cells, exceptions, completeness and the CRC check -/

theorem ModbusMessage.add_getD (m : ModbusMessage) (v k : Nat)
    (hb : m._buffer.length = m._length) :
    (m.add v)._buffer.getD k 0 =
      if m._index < m._length ∧ k = m._index then v % 256 else m._buffer.getD k 0 := by
  unfold ModbusMessage.add
  by_cases hfull : m._index ≥ m._length
  · rw [if_pos hfull, if_neg (by omega)]
  · rw [if_neg hfull]
    by_cases hk : k = m._index
    · rw [hk]
      have h1 : m._index < m._buffer.length := by omega
      have h2 : m._index < m._length := by omega
      simp [List.getD_eq_getElem?_getD, h1, h2]
    · have hne : m._index ≠ k := fun h => hk h.symm
      simp [List.getD_eq_getElem?_getD, List.getElem?_set_ne hne, hk]

/-- The cell `k` of the buffer after a run of `add` calls. -/
theorem ModbusMessage.addMany_getD (values : List Nat) : ∀ (m : ModbusMessage) (k : Nat),
    m._buffer.length = m._length → m._index ≤ m._length → k < m._length →
    (m.addMany values)._buffer.getD k 0 =
      if m._index ≤ k ∧ k < m._index + values.length then values.getD (k - m._index) 0 % 256
      else m._buffer.getD k 0 := by
  induction values with
  | nil =>
    intro m k _ _ _
    rw [if_neg (by simp only [List.length_nil]; omega)]
    rfl
  | cons v vs ih =>
    intro m k hb hi hk
    simp only [ModbusMessage.addMany, List.foldl_cons, List.length_cons]
    have h := ih (m.add v) k (by rw [m.add_buffer_length, m.add_length, hb])
      (by rw [m.add_length]; exact m.add_index_le v hi) (by rw [m.add_length]; exact hk)
    simp only [ModbusMessage.addMany] at h
    rw [h, m.add_getD v k hb]
    by_cases hfull : m._index < m._length
    · have hidx : (m.add v)._index = m._index + 1 := (m.add_stored v hb hfull).2
      rw [hidx]
      by_cases hk0 : k = m._index
      · subst hk0
        rw [if_neg (by omega), if_pos ⟨hfull, rfl⟩, if_pos (by omega)]
        simp
      · by_cases hk1 : m._index + 1 ≤ k ∧ k < m._index + 1 + vs.length
        · rw [if_pos hk1, if_pos (by omega)]
          have e : k - m._index = (k - (m._index + 1)) + 1 := by omega
          rw [e]
          rfl
        · rw [if_neg hk1, if_neg (fun h => hk0 h.2), if_neg (by omega)]
    · rw [m.add_full v (by omega)]
      rw [if_neg (by omega), if_neg (by omega), if_neg (by omega)]

theorem ModbusMessage.new_getD (n k : Nat) : (ModbusMessage.new n)._buffer.getD k 0 = 0 := by
  simp only [ModbusMessage.new]
  generalize (if (if n % 256 < MODBUS_MIN_RESPONSE_LENGTH then MODBUS_MIN_RESPONSE_LENGTH
    else n % 256) > 255 then 255 else if n % 256 < MODBUS_MIN_RESPONSE_LENGTH then
    MODBUS_MIN_RESPONSE_LENGTH else n % 256) = len
  simp only [List.getD_eq_getElem?_getD, List.getElem?_replicate]
  split <;> rfl

/-- The first cells of the response buffer hold the first received bytes (0 where none
was received). -/
theorem receiveBytes_getD (req : ModbusRequest) (bytes : List Nat) (k : Nat) (hk : k < 5) :
    (esp32ModbusRTU.receiveBytes req bytes)._buffer.getD k 0 = bytes.getD k 0 % 256 := by
  have hL := newResponse_length req
  have h5 := req.responseLength_ge
  have hL5 : 5 ≤ (esp32ModbusRTU.newResponse req)._length := by
    rw [hL]; split <;> omega
  have hb : (esp32ModbusRTU.newResponse req)._buffer.length =
      (esp32ModbusRTU.newResponse req)._length := ModbusMessage.new_buffer_length _
  have hi : (esp32ModbusRTU.newResponse req)._index = 0 := rfl
  have h := ModbusMessage.addMany_getD bytes (esp32ModbusRTU.newResponse req).toModbusMessage k
    hb (by rw [hi]; omega) (by omega)
  rw [receiveBytes_toMessage, h, hi]
  have hz : (esp32ModbusRTU.newResponse req)._buffer.getD k 0 = 0 :=
    ModbusMessage.new_getD _ k
  by_cases hkl : k < bytes.length
  · rw [if_pos ⟨by omega, by omega⟩]
    simp
  · rw [if_neg (by omega), hz]
    simp [List.getD_eq_getElem?_getD, List.getElem?_eq_none (by omega : bytes.length ≤ k)]

theorem testBit_seven_mod (b : Nat) : (b % 256).testBit 7 = b.testBit 7 := by
  have := Nat.testBit_mod_two_pow b 8 7
  simpa using this

/-- C33: the classification of an exception response depends on its byte 2 only: any
two responses, to any requests, that hold 5 bytes, have bit 7 set in byte 1 and agree in
byte 2 give the same result of `isSuccess` and the same error, whatever their bytes 0, 3
and 4; the error is the value of byte 2, and `isSuccess` is true exactly when byte 2 is
0x00. -/
theorem exception_classification_reads_byte_two_only (r1 r2 : ModbusResponse)
    (h1 : r1.getSize = 5) (h2 : r2.getSize = 5)
    (f1 : (r1._buffer.getD 1 0).testBit 7 = true) (f2 : (r2._buffer.getD 1 0).testBit 7 = true)
    (hb : r1._buffer.getD 2 0 = r2._buffer.getD 2 0) :
    r1.isComplete = true ∧ r2.isComplete = true ∧
    r1.isSuccess.1 = r2.isSuccess.1 ∧
    r1.isSuccess.2.getError = r2.isSuccess.2.getError ∧
    r1.isSuccess.2.getError = r1._buffer.getD 2 0 ∧
    (r1.isSuccess.1 = true ↔ r1._buffer.getD 2 0 = 0x00) := by
  obtain ⟨c1, s1⟩ := isSuccess_of_exception r1 h1 f1
  obtain ⟨c2, s2⟩ := isSuccess_of_exception r2 h2 f2
  rw [s1, s2, hb]
  refine ⟨c1, c2, rfl, rfl, rfl, ?_⟩
  simp [esp32Modbus.SUCCESS]

/-- Witness for C33: 11 83 02 C0 F1 and 22 FF 02 00 00 received for two different
requests are both classified as error 0x02. -/
theorem exception_classification_reads_byte_two_only_witness :
    ((esp32ModbusRTU.receiveBytes (ModbusRequest03 0x11 0x006B 3)
        [0x11, 0x83, 0x02, 0xC0, 0xF1]).getSize = 5 ∧
      (esp32ModbusRTU.receiveBytes (ModbusRequest05 0x11 0x00AC true)
        [0x22, 0xFF, 0x02, 0x00, 0x00]).getSize = 5) ∧
    (esp32ModbusRTU.receiveBytes (ModbusRequest03 0x11 0x006B 3)
        [0x11, 0x83, 0x02, 0xC0, 0xF1]).isSuccess.2.getError =
      (esp32ModbusRTU.receiveBytes (ModbusRequest05 0x11 0x00AC true)
        [0x22, 0xFF, 0x02, 0x00, 0x00]).isSuccess.2.getError ∧
    (esp32ModbusRTU.receiveBytes (ModbusRequest03 0x11 0x006B 3)
        [0x11, 0x83, 0x02, 0xC0, 0xF1]).isSuccess.2.getError = 0x02 :=
  ⟨by decide,
    (exception_classification_reads_byte_two_only
      (esp32ModbusRTU.receiveBytes (ModbusRequest03 0x11 0x006B 3)
        [0x11, 0x83, 0x02, 0xC0, 0xF1])
      (esp32ModbusRTU.receiveBytes (ModbusRequest05 0x11 0x00AC true)
        [0x22, 0xFF, 0x02, 0x00, 0x00])
      (by decide) (by decide) (by decide) (by decide) (by decide)).2.2.2.1,
    by decide⟩

theorem ModbusResponse.add_on_full (r : ModbusResponse) (v : Nat) (h : r._length ≤ r._index) :
    r.add v = r := by
  unfold ModbusResponse.add
  rw [ModbusMessage.add_full _ v h]

theorem ModbusResponse.fold_add_full (more : List Nat) (r : ModbusResponse)
    (h : r._length ≤ r._index) : more.foldl ModbusResponse.add r = r := by
  induction more with
  | nil => rfl
  | cons v vs ih => rw [List.foldl_cons, r.add_on_full v h, ih]

theorem receiveBytes_append (req : ModbusRequest) (bytes more : List Nat) :
    esp32ModbusRTU.receiveBytes req (bytes ++ more) =
      more.foldl ModbusResponse.add (esp32ModbusRTU.receiveBytes req bytes) := by
  unfold esp32ModbusRTU.receiveBytes
  rw [List.foldl_append]

/-- C34 (counterexample): the exception response 11 83 02 C0 F1 to a read of three
holding registers (expected length 11) is complete after its five bytes; after one more
`add` the response is no longer complete. -/
theorem exception_response_incomplete_after_another_byte :
    (esp32ModbusRTU.receiveBytes (ModbusRequest03 0x11 0x006B 3)
      [0x11, 0x83, 0x02, 0xC0, 0xF1]).isComplete = true ∧
    ((esp32ModbusRTU.receiveBytes (ModbusRequest03 0x11 0x006B 3)
      [0x11, 0x83, 0x02, 0xC0, 0xF1]).add 0x00).isComplete = false ∧
    (esp32ModbusRTU.receiveBytes (ModbusRequest03 0x11 0x006B 3)
      [0x11, 0x83, 0x02, 0xC0, 0xF1, 0x00]).isComplete = false ∧
    (esp32ModbusRTU.receiveBytes (ModbusRequest03 0x11 0x006B 3)
      [0x11, 0x83, 0x02, 0xC0, 0xF1, 0x00]).isSuccess.2.getError = esp32Modbus.TIMEOUT := by
  decide

theorem ModbusResponse.add_fields (r : ModbusResponse) (v : Nat) :
    (r.add v)._request = r._request ∧ (r.add v)._length = r._length ∧
    (r._index < r._length → (r.add v)._index = r._index + 1) := by
  refine ⟨rfl, ModbusMessage.add_length _ v, ?_⟩
  intro h
  unfold ModbusResponse.add ModbusMessage.add
  simp only
  rw [if_neg (by omega)]

/-- C34 (amended): for every request and every response built by the receive step that
`isComplete` reports as complete, other than a 5-byte exception response (bit 7 of byte
1 set, 5 bytes stored) in a buffer of more than 6 cells, `isComplete` still reports
complete after any number of additional `add` calls; for the responses left out, it
reports incomplete after one more `add`. -/
theorem completeness_stable_unless_short_exception (req : ModbusRequest)
    (bytes more : List Nat)
    (hc : (esp32ModbusRTU.receiveBytes req bytes).isComplete = true) :
    (¬ (((esp32ModbusRTU.receiveBytes req bytes)._buffer.getD 1 0).testBit 7 = true ∧
        (esp32ModbusRTU.receiveBytes req bytes).getSize = 5 ∧
        6 < (esp32ModbusRTU.receiveBytes req bytes)._length) →
      (more.foldl ModbusResponse.add (esp32ModbusRTU.receiveBytes req bytes)).isComplete = true ∧
      (esp32ModbusRTU.receiveBytes req (bytes ++ more)).isComplete = true) ∧
    ((((esp32ModbusRTU.receiveBytes req bytes)._buffer.getD 1 0).testBit 7 = true ∧
        (esp32ModbusRTU.receiveBytes req bytes).getSize = 5 ∧
        6 < (esp32ModbusRTU.receiveBytes req bytes)._length) →
      ∀ v : Nat, ((esp32ModbusRTU.receiveBytes req bytes).add v).isComplete = false) := by
  obtain ⟨hreq, hlen, _, hidx⟩ := receiveBytes_inv req bytes
  have h5 := req.responseLength_ge
  have hcc := isComplete_cases _ hc
  rw [hreq] at hcc
  rw [receiveBytes_append]
  generalize esp32ModbusRTU.receiveBytes req bytes = r at *
  simp only [ModbusMessage.getSize]
  constructor
  · intro hx
    rw [and_self]
    by_cases hfull : r._index = r._length
    · rw [ModbusResponse.fold_add_full more r (le_of_eq hfull.symm)]
      exact hc
    · have hex : (r._buffer.getD 1 0).testBit 7 = true ∧ r._index = 5 := by
        rcases hcc with h | h
        · exfalso
          apply hfull
          rw [hlen]
          by_cases hRL : req.responseLength ≤ 255
          · rw [if_pos hRL]; exact h
          · rw [if_neg hRL] at hidx; omega
        · exact h
      have hcap : r._length = 6 := by
        have : ¬ 6 < r._length := fun h => hx ⟨hex.1, hex.2, h⟩
        have hi5 := hex.2
        have hge : r._index ≤ r._length := by rw [hlen]; exact hidx
        omega
      have hRL : req.responseLength = 6 := by
        rw [hlen] at hcap
        split at hcap <;> omega
      cases more with
      | nil => exact hc
      | cons v rest =>
        obtain ⟨a1, a2, a3⟩ := r.add_fields v
        have a4 := a3 (by omega)
        rw [List.foldl_cons, ModbusResponse.fold_add_full rest (r.add v) (by omega)]
        unfold ModbusResponse.isComplete
        split
        · rfl
        · rw [if_pos (by rw [a1, hreq, a4, hRL, hex.2])]
  · rintro ⟨hf, hi, hl⟩ v
    obtain ⟨a1, a2, a3⟩ := r.add_fields v
    have a4 := a3 (by omega)
    have hRL : req.responseLength = r._length := by
      rw [hlen] at hl ⊢
      split at hl
      · split
        · rfl
        · omega
      · omega
    have n1 : ¬ (((r.add v)._buffer.getD 1 0 &&& MODBUS_ERROR_FLAG) ≠ 0 ∧
        (r.add v)._index = MODBUS_EXCEPTION_RESPONSE_LENGTH) := by
      rintro ⟨_, h⟩
      rw [a4, hi] at h
      exact absurd h (by decide)
    have n2 : ¬ (r.add v)._index = (r.add v)._request.responseLength := by
      rw [a1, hreq, a4, hRL]; omega
    unfold ModbusResponse.isComplete
    rw [if_neg n1, if_neg n2]

/-- Witness for the amended C34: the complete 11-byte answer to a read of three holding
registers stays complete when three more bytes arrive. -/
theorem completeness_stable_unless_short_exception_witness :
    (esp32ModbusRTU.receiveBytes (ModbusRequest03 0x11 0x006B 3)
      [0x11, 0x03, 0x06, 0xAE, 0x41, 0x56, 0x52, 0x43, 0x40, 0x49, 0xAD]).isComplete = true ∧
    (esp32ModbusRTU.receiveBytes (ModbusRequest03 0x11 0x006B 3)
      ([0x11, 0x03, 0x06, 0xAE, 0x41, 0x56, 0x52, 0x43, 0x40, 0x49, 0xAD] ++
        [0x01, 0x02, 0x03])).isComplete = true :=
  ⟨by decide,
    ((completeness_stable_unless_short_exception (ModbusRequest03 0x11 0x006B 3)
      [0x11, 0x03, 0x06, 0xAE, 0x41, 0x56, 0x52, 0x43, 0x40, 0x49, 0xAD] [0x01, 0x02, 0x03]
      (by decide)).1 (by decide)).2⟩

/-- A response to a request whose expected length exceeds 255 is never complete while
bit 7 of its second byte is clear. -/
theorem long_response_incomplete (req : ModbusRequest) (bytes : List Nat)
    (hRL : 255 < req.responseLength) (hbit : (bytes.getD 1 0).testBit 7 = false) :
    (esp32ModbusRTU.receiveBytes req bytes).isComplete = false := by
  obtain ⟨hreq, hlen, _, hidx⟩ := receiveBytes_inv req bytes
  rw [if_neg (by omega)] at hlen hidx
  have hb1 := receiveBytes_getD req bytes 1 (by decide)
  have hflag : ¬ ((esp32ModbusRTU.receiveBytes req bytes)._buffer.getD 1 0 &&&
      MODBUS_ERROR_FLAG) ≠ 0 := by
    rw [and_error_flag_ne_zero, hb1, testBit_seven_mod, hbit]
    decide
  unfold ModbusResponse.isComplete
  rw [if_neg (fun h => hflag h.1), if_neg (by rw [hreq]; omega)]

theorem getD_one_take (bytes : List Nat) (k : Nat) :
    (bytes.take k).getD 1 0 = bytes.getD 1 0 ∨ (bytes.take k).getD 1 0 = 0 := by
  by_cases h : 1 < k
  · exact Or.inl (getD_take_of_lt bytes k 1 h)
  · right
    have hl : (bytes.take k).length ≤ 1 := by
      rw [List.length_take]; omega
    simp [List.getD_eq_getElem?_getD, List.getElem?_eq_none hl]

/-- C36: for every request whose `responseLength()` exceeds 255 and every received
byte sequence whose second byte has bit 7 clear, the response built by the receive step
is complete after no prefix of the sequence, and `isSuccess` is false with the error
`TIMEOUT`. A read of 126 holding registers is such a request. -/
theorem long_response_times_out (req : ModbusRequest) (bytes : List Nat)
    (hRL : 255 < req.responseLength) (hbit : (bytes.getD 1 0).testBit 7 = false) :
    (∀ k : Nat, (esp32ModbusRTU.receiveBytes req (bytes.take k)).isComplete = false) ∧
    (esp32ModbusRTU.receiveBytes req bytes).isComplete = false ∧
    (esp32ModbusRTU.receiveBytes req bytes).isSuccess.1 = false ∧
    (esp32ModbusRTU.receiveBytes req bytes).isSuccess.2.getError = esp32Modbus.TIMEOUT ∧
    (∀ slave address : Nat, 255 < (ModbusRequest03 slave address 126).responseLength) := by
  have hc := long_response_incomplete req bytes hRL hbit
  refine ⟨?_, hc, ?_, ?_, fun _ _ => show 255 < 5 + 126 * 2 % 65536 by decide⟩
  · intro k
    apply long_response_incomplete req _ hRL
    rcases getD_one_take bytes k with h | h
    · rw [h]; exact hbit
    · rw [h]; rfl
  · unfold ModbusResponse.isSuccess
    simp only [hc, Bool.not_false, if_true]
    rfl
  · unfold ModbusResponse.isSuccess
    simp only [hc, Bool.not_false, if_true]
    rfl

/-- Witness for C36: `readHoldingRegisters` with 126 registers is accepted; its expected
response has 257 bytes, and a well-formed answer of 257 bytes is classified `TIMEOUT`. -/
theorem long_response_times_out_witness :
    (esp32ModbusRTU.startedInstance.readHoldingRegisters 0x11 0x0000 126).1 = true ∧
    (ModbusRequest03 0x11 0x0000 126).responseLength = 257 ∧
    (([0x11, 0x03, 0xFC] ++ List.replicate 254 0).getD 1 0).testBit 7 = false ∧
    (esp32ModbusRTU.receiveBytes (ModbusRequest03 0x11 0x0000 126)
      ([0x11, 0x03, 0xFC] ++ List.replicate 254 0)).isSuccess.2.getError =
        esp32Modbus.TIMEOUT :=
  ⟨by decide, by decide, by decide,
    (long_response_times_out (ModbusRequest03 0x11 0x0000 126)
      ([0x11, 0x03, 0xFC] ++ List.replicate 254 0) (by decide) (by decide)).2.2.2.1⟩

/-- C37: for every request whose expected response length is at most 255 and the
response that the receive step builds for it, when the response is complete and byte 1
has bit 7 clear, the count of stored bytes is the capacity of the buffer and the expected
length, the stored bytes are the first received bytes, and `checkCRC` is true exactly
when `CRC16` over the stored bytes without the last two has its low byte equal to the
last but one stored byte and its high byte equal to the last. -/
theorem checkCRC_covers_the_received_frame (req : ModbusRequest) (bytes : List Nat)
    (hRL : req.responseLength ≤ 255)
    (hc : (esp32ModbusRTU.receiveBytes req bytes).isComplete = true)
    (hbit : ((esp32ModbusRTU.receiveBytes req bytes)._buffer.getD 1 0).testBit 7 = false) :
    (esp32ModbusRTU.receiveBytes req bytes).getSize =
      (esp32ModbusRTU.receiveBytes req bytes)._length ∧
    (esp32ModbusRTU.receiveBytes req bytes)._length = req.responseLength ∧
    (esp32ModbusRTU.receiveBytes req bytes).stored =
      (esp32ModbusRTU.receiveBytes req bytes)._buffer ∧
    (esp32ModbusRTU.receiveBytes req bytes).stored =
      (bytes.map (· % 256)).take req.responseLength ∧
    ((esp32ModbusRTU.receiveBytes req bytes).checkCRC = true ↔
      low (CRC16 ((esp32ModbusRTU.receiveBytes req bytes).stored.take
          ((esp32ModbusRTU.receiveBytes req bytes).getSize - 2))
          ((esp32ModbusRTU.receiveBytes req bytes).getSize - 2)) =
        (esp32ModbusRTU.receiveBytes req bytes).stored.getD
          ((esp32ModbusRTU.receiveBytes req bytes).getSize - 2) 0 ∧
      high (CRC16 ((esp32ModbusRTU.receiveBytes req bytes).stored.take
          ((esp32ModbusRTU.receiveBytes req bytes).getSize - 2))
          ((esp32ModbusRTU.receiveBytes req bytes).getSize - 2)) =
        (esp32ModbusRTU.receiveBytes req bytes).stored.getD
          ((esp32ModbusRTU.receiveBytes req bytes).getSize - 1) 0) := by
  obtain ⟨hreq, hlen, hbuf, hidx⟩ := receiveBytes_inv req bytes
  rw [if_pos hRL] at hlen hbuf hidx
  have hcc := isComplete_cases _ hc
  rw [hreq] at hcc
  have hi : (esp32ModbusRTU.receiveBytes req bytes)._index = req.responseLength := by
    rcases hcc with h | h
    · exact h
    · rw [hbit] at h
      exact absurd h.1 (by decide)
  have htake := (ModbusMessage.addMany_take bytes
    (esp32ModbusRTU.newResponse req).toModbusMessage (ModbusMessage.new_buffer_length _)
    (by rw [show (esp32ModbusRTU.newResponse req)._index = 0 from rfl]; omega)).1
  rw [← receiveBytes_toMessage] at htake
  have hnl : (esp32ModbusRTU.newResponse req)._length = req.responseLength := by
    rw [newResponse_length, if_pos hRL]
  simp only [ModbusMessage.stored, show (esp32ModbusRTU.newResponse req)._index = 0 from rfl,
    List.take_zero, List.nil_append, Nat.sub_zero, hnl] at htake
  have hst : (esp32ModbusRTU.receiveBytes req bytes).stored =
      (esp32ModbusRTU.receiveBytes req bytes)._buffer := by
    unfold ModbusMessage.stored
    rw [hi, ← hbuf]
    exact List.take_length _
  refine ⟨?_, hlen, hst, ?_, ?_⟩
  · simp only [ModbusMessage.getSize]
    rw [hi, hlen]
  · unfold ModbusMessage.stored
    exact htake
  · rw [hst, CRC16_take]
    simp only [ModbusMessage.getSize, hi]
    unfold ModbusResponse.checkCRC
    simp only [hlen, MODBUS_CRC_LENGTH]
    constructor
    · intro h
      by_contra hn
      rw [if_neg hn] at h
      exact absurd h (by decide)
    · intro h
      rw [if_pos h]

/-- Witness for C37: the answer 11 03 06 AE 41 56 52 43 40 49 AD to a read of three
holding registers fills the 11 cells of its buffer. -/
theorem checkCRC_covers_the_received_frame_witness :
    (ModbusRequest03 0x11 0x006B 3).responseLength ≤ 255 ∧
    (esp32ModbusRTU.receiveBytes (ModbusRequest03 0x11 0x006B 3)
      [0x11, 0x03, 0x06, 0xAE, 0x41, 0x56, 0x52, 0x43, 0x40, 0x49, 0xAD]).isComplete = true ∧
    (esp32ModbusRTU.receiveBytes (ModbusRequest03 0x11 0x006B 3)
      [0x11, 0x03, 0x06, 0xAE, 0x41, 0x56, 0x52, 0x43, 0x40, 0x49, 0xAD]).getSize =
      (esp32ModbusRTU.receiveBytes (ModbusRequest03 0x11 0x006B 3)
        [0x11, 0x03, 0x06, 0xAE, 0x41, 0x56, 0x52, 0x43, 0x40, 0x49, 0xAD])._length ∧
    (esp32ModbusRTU.receiveBytes (ModbusRequest03 0x11 0x006B 3)
      [0x11, 0x03, 0x06, 0xAE, 0x41, 0x56, 0x52, 0x43, 0x40, 0x49, 0xAD]).checkCRC = true :=
  ⟨by decide, by decide,
    (checkCRC_covers_the_received_frame (ModbusRequest03 0x11 0x006B 3)
      [0x11, 0x03, 0x06, 0xAE, 0x41, 0x56, 0x52, 0x43, 0x40, 0x49, 0xAD] (by decide)
      (by decide) (by decide)).1,
    by decide⟩

/-- A received byte sequence of exactly the expected length fills the buffer. -/
theorem receiveBytes_exact (req : ModbusRequest) (bytes : List Nat)
    (hlen : bytes.length = req.responseLength) (hRL : req.responseLength ≤ 255)
    (hb : ∀ b ∈ bytes, b < 256) :
    (esp32ModbusRTU.receiveBytes req bytes)._buffer = bytes ∧
    (esp32ModbusRTU.receiveBytes req bytes)._index = bytes.length ∧
    (esp32ModbusRTU.receiveBytes req bytes).stored = bytes ∧
    (esp32ModbusRTU.receiveBytes req bytes).isComplete = true := by
  obtain ⟨hreq, hl, hbuf, _⟩ := receiveBytes_inv req bytes
  rw [if_pos hRL] at hl hbuf
  have hnl : (esp32ModbusRTU.newResponse req)._length = req.responseLength := by
    rw [newResponse_length, if_pos hRL]
  have hi0 : (esp32ModbusRTU.newResponse req)._index = 0 := rfl
  obtain ⟨a, b, _, _⟩ := ModbusMessage.addMany_stored bytes
    (esp32ModbusRTU.newResponse req).toModbusMessage (ModbusMessage.new_buffer_length _)
    (by rw [hi0, hnl]; omega)
  rw [← receiveBytes_toMessage] at a b
  simp only [ModbusMessage.stored, hi0, List.take_zero, List.nil_append, Nat.zero_add,
    map_mod_of_lt bytes hb] at a b
  have hst : (esp32ModbusRTU.receiveBytes req bytes).stored = bytes := a
  unfold ModbusMessage.stored at hst
  have hbufeq : (esp32ModbusRTU.receiveBytes req bytes)._buffer = bytes := by
    have e : (esp32ModbusRTU.receiveBytes req bytes)._index =
        (esp32ModbusRTU.receiveBytes req bytes)._buffer.length := by rw [b, hlen, hbuf]
    rw [e, List.take_length] at a
    exact a
  refine ⟨hbufeq, b, hst, ?_⟩
  unfold ModbusResponse.isComplete
  split
  · rfl
  · rw [if_pos (by rw [hreq, b, hlen])]

/-! ## Single bit flips and the CRC -/

theorem crcLoTable_nodup : crcLoTable.Nodup := by decide

theorem crcLoTable_inj (i j : Nat) (hi : i < 256) (hj : j < 256)
    (h : crcLoTable.getD i 0 = crcLoTable.getD j 0) : i = j := by
  have hl : crcLoTable.length = 256 := by decide
  rw [List.getD_eq_getElem _ _ (by rw [hl]; exact hi),
    List.getD_eq_getElem _ _ (by rw [hl]; exact hj)] at h
  exact (crcLoTable_nodup.getElem_inj_iff).1 h

theorem xor_mod_inj (a b c : Nat) (ha : a < 256) (hb : b < 256) (hc : c < 256)
    (h : (a ^^^ c) % 256 = (b ^^^ c) % 256) : a = b := by
  have h1 : a ^^^ c < 256 := by simpa using @Nat.xor_lt_two_pow a c 8 ha hc
  have h2 : b ^^^ c < 256 := by simpa using @Nat.xor_lt_two_pow b c 8 hb hc
  rw [Nat.mod_eq_of_lt h1, Nat.mod_eq_of_lt h2] at h
  exact Nat.xor_left_injective h

/-- One step of the CRC loop keeps two different states different. -/
theorem crcStep_inj_state (hi lo hi2 lo2 b : Nat) (h1 : hi < 256) (h2 : lo < 256)
    (h3 : hi2 < 256) (h4 : lo2 < 256) (hb : b < 256)
    (h : crcStep (hi, lo) b = crcStep (hi2, lo2) b) : (hi, lo) = (hi2, lo2) := by
  have i1 : (lo ^^^ b) % 256 < 256 := Nat.mod_lt _ (by decide)
  have i2 : (lo2 ^^^ b) % 256 < 256 := Nat.mod_lt _ (by decide)
  simp only [crcStep, Prod.mk.injEq] at h
  obtain ⟨ha, hb2⟩ := h
  rw [Nat.mod_eq_of_lt (crcTables_lt _ i1).1, Nat.mod_eq_of_lt (crcTables_lt _ i2).1] at ha
  have hidx := crcLoTable_inj _ _ i1 i2 ha
  have hlo : lo = lo2 := xor_mod_inj lo lo2 b h2 h4 hb hidx
  subst hlo
  have hH := (crcTables_lt _ i1).2
  have hhi : hi = hi2 := xor_mod_inj hi hi2 _ h1 h3 hH hb2
  rw [hhi]

/-- One step of the CRC loop on two different bytes gives two different states. -/
theorem crcStep_inj_byte (st : Nat × Nat) (b c : Nat) (h2 : st.2 < 256)
    (hb : b < 256) (hc : c < 256) (h : crcStep st b = crcStep st c) : b = c := by
  have i1 : (st.2 ^^^ b) % 256 < 256 := Nat.mod_lt _ (by decide)
  have i2 : (st.2 ^^^ c) % 256 < 256 := Nat.mod_lt _ (by decide)
  simp only [crcStep, Prod.mk.injEq] at h
  obtain ⟨ha, _⟩ := h
  rw [Nat.mod_eq_of_lt (crcTables_lt _ i1).1, Nat.mod_eq_of_lt (crcTables_lt _ i2).1] at ha
  have hidx := crcLoTable_inj _ _ i1 i2 ha
  rw [Nat.xor_comm st.2 b, Nat.xor_comm st.2 c] at hidx
  exact xor_mod_inj b c st.2 hb hc h2 hidx

theorem crcLoop_inj_state : ∀ (d : List Nat) (len : Nat) (st st2 : Nat × Nat),
    (∀ b ∈ d, b < 256) → st.1 < 256 → st.2 < 256 → st2.1 < 256 → st2.2 < 256 →
    crcLoop d len st = crcLoop d len st2 → st = st2 := by
  intro d
  induction d with
  | nil => intro len st st2 _ _ _ _ _ h; cases len <;> exact h
  | cons b rest ih =>
    intro len st st2 hd h1 h2 h3 h4 h
    cases len with
    | zero => exact h
    | succ n =>
      simp only [crcLoop] at h
      have hrest : ∀ x ∈ rest, x < 256 := fun x hx => hd x (by simp [hx])
      have := ih n _ _ hrest (crcStep_lt st b).1 (crcStep_lt st b).2 (crcStep_lt st2 b).1
        (crcStep_lt st2 b).2 h
      obtain ⟨a1, a2⟩ := st
      obtain ⟨b1, b2⟩ := st2
      exact crcStep_inj_state a1 a2 b1 b2 b h1 h2 h3 h4 (hd b (by simp)) this

/-- Changing one byte inside the range that the CRC loop reads changes its result. -/
theorem crcLoop_set_ne : ∀ (d : List Nat) (i x len : Nat) (st : Nat × Nat),
    (∀ b ∈ d, b < 256) → st.1 < 256 → st.2 < 256 → i < d.length → i < len → x < 256 →
    x ≠ d.getD i 0 → crcLoop (d.set i x) len st ≠ crcLoop d len st := by
  intro d
  induction d with
  | nil => intro i x len st _ _ _ hi; simp at hi
  | cons b rest ih =>
    intro i x len st hd h1 h2 hi hlen hx hne
    have hrest : ∀ y ∈ rest, y < 256 := fun y hy => hd y (by simp [hy])
    cases len with
    | zero => omega
    | succ n =>
      cases i with
      | zero =>
        simp only [List.set_cons_zero, crcLoop]
        intro h
        have hst := crcLoop_inj_state rest n _ _ hrest (crcStep_lt st x).1 (crcStep_lt st x).2
          (crcStep_lt st b).1 (crcStep_lt st b).2 h
        exact hne (crcStep_inj_byte st x b h2 hx (hd b (by simp)) hst)
      | succ k =>
        simp only [List.set_cons_succ, crcLoop]
        exact ih k x n _ hrest (crcStep_lt st b).1 (crcStep_lt st b).2
          (by simpa using hi) (by omega) hx (by simpa using hne)

theorem crcLoop_set_ge : ∀ (d : List Nat) (i x len : Nat) (st : Nat × Nat), len ≤ i →
    crcLoop (d.set i x) len st = crcLoop d len st := by
  intro d
  induction d with
  | nil => intro i x len st _; rfl
  | cons b rest ih =>
    intro i x len st h
    cases len with
    | zero => cases i <;> rfl
    | succ n =>
      cases i with
      | zero => omega
      | succ k =>
        simp only [List.set_cons_succ, crcLoop]
        exact ih k x n _ (by omega)

theorem getD_set_self (l : List Nat) (i x : Nat) (h : i < l.length) :
    (l.set i x).getD i 0 = x := by
  simp [List.getD_eq_getElem?_getD, h]

theorem getD_set_other (l : List Nat) (i k x : Nat) (h : i ≠ k) :
    (l.set i x).getD k 0 = l.getD k 0 := by
  simp [List.getD_eq_getElem?_getD, List.getElem?_set_ne h]

/-- A frame with a matching CRC trailer loses the match when one of its bytes is
replaced by another byte. -/
theorem crcTrailerMatches_set_false (f : List Nat) (i x : Nat) (hlen : 2 ≤ f.length)
    (hf : ∀ b ∈ f, b < 256) (hi : i < f.length) (hx : x < 256) (hne : x ≠ f.getD i 0)
    (h : crcTrailerMatches f) : ¬ crcTrailerMatches (f.set i x) := by
  intro h2
  unfold crcTrailerMatches at h h2
  rw [List.length_set] at h2
  obtain ⟨_, _, _, lo1, hi1⟩ := CRC16_state f (f.length - 2)
  obtain ⟨_, _, _, lo2, hi2⟩ := CRC16_state (f.set i x) (f.length - 2)
  rw [lo1, hi1] at h
  rw [lo2, hi2] at h2
  by_cases hcase : i < f.length - 2
  · have hne2 := crcLoop_set_ne f i x (f.length - 2) (0xFF, 0xFF) hf (by decide) (by decide)
      hi hcase hx hne
    apply hne2
    rw [getD_set_other f i _ x (by omega), getD_set_other f i _ x (by omega)] at h2
    exact Prod.ext (h2.2.trans h.2.symm) (h2.1.trans h.1.symm)
  · rw [crcLoop_set_ge f i x _ _ (by omega)] at h2
    by_cases hi2 : i = f.length - 2
    · have := h2.1
      rw [← hi2, getD_set_self f i x hi] at this
      have h1 := h.1
      rw [← hi2] at h1
      exact hne (this.symm.trans h1)
    · have hi3 : i = f.length - 1 := by omega
      have := h2.2
      rw [← hi3, getD_set_self f i x hi] at this
      have h1 := h.2
      rw [← hi3] at h1
      exact hne (this.symm.trans h1)

theorem xor_pow_lt (b j : Nat) (hb : b < 256) (hj : j < 8) : b ^^^ 2 ^ j < 256 := by
  have h2 : 2 ^ j < 2 ^ 8 := Nat.pow_lt_pow_right (by decide) hj
  simpa using @Nat.xor_lt_two_pow b (2 ^ j) 8 hb h2

theorem xor_pow_ne (b j : Nat) : b ^^^ 2 ^ j ≠ b := by
  intro h
  have h2 : (b ^^^ 2 ^ j).testBit j = b.testBit j := by rw [h]
  rw [Nat.testBit_xor, Nat.testBit_two_pow_self] at h2
  cases hb : b.testBit j <;> rw [hb] at h2 <;> exact absurd h2 (by decide)

theorem testBit_seven_xor_pow (b j : Nat) (hj : j ≠ 7) :
    (b ^^^ 2 ^ j).testBit 7 = b.testBit 7 := by
  rw [Nat.testBit_xor, Nat.testBit_two_pow_of_ne hj]
  simp

/-- Every single bit flip in a successful response of the expected length whose function
code byte has bit 7 clear is rejected by `isSuccess`, except the flip of bit 7 of byte 1
when byte 2 is 0x00. -/
theorem single_bit_flip_outcome (req : ModbusRequest) (frame : List Nat) (i j : Nat)
    (hlen : frame.length = req.responseLength) (hRL : req.responseLength ≤ 255)
    (hf : ∀ b ∈ frame, b < 256)
    (hok : (esp32ModbusRTU.receiveBytes req frame).isSuccess.1 = true)
    (hbit : (frame.getD 1 0).testBit 7 = false) (hi : i < frame.length) (hj : j < 8) :
    ((esp32ModbusRTU.receiveBytes req (frame.set i (frame.getD i 0 ^^^ 2 ^ j))).isSuccess.1
      = true ↔ (i = 1 ∧ j = 7 ∧ frame.getD 2 0 = 0)) := by
  have h5 := req.responseLength_ge
  have hfi : frame.getD i 0 < 256 := by
    rw [List.getD_eq_getElem _ _ hi]
    exact hf _ (List.getElem_mem _)
  have hx := xor_pow_lt _ j hfi hj
  have hf2 : ∀ b ∈ frame.set i (frame.getD i 0 ^^^ 2 ^ j), b < 256 := by
    intro b hb
    rcases List.mem_or_eq_of_mem_set hb with h | h
    · exact hf b h
    · rw [h]; exact hx
  obtain ⟨_, _, hst, hcomp⟩ := receiveBytes_exact req frame hlen hRL hf
  obtain ⟨_, _, hst2, hcomp2⟩ := receiveBytes_exact req _
    (by rw [List.length_set]; exact hlen) hRL hf2
  have hcrc : crcTrailerMatches frame := by
    have := ((isSuccess_iff_cases req frame hcomp).1 (by rw [hst]; exact hbit)).1 hok
    rw [hst] at this
    exact this.1
  by_cases hc : i = 1 ∧ j = 7
  · obtain ⟨rfl, rfl⟩ := hc
    have hb7 : ((frame.set 1 (frame.getD 1 0 ^^^ 2 ^ 7)).getD 1 0).testBit 7 = true := by
      rw [getD_set_self _ _ _ hi, Nat.testBit_xor, hbit, Nat.testBit_two_pow_self]
      rfl
    rw [(isSuccess_iff_cases req _ hcomp2).2 (by rw [hst2]; exact hb7), hst2,
      getD_set_other _ _ _ _ (by decide)]
    constructor
    · intro h; exact ⟨rfl, rfl, h⟩
    · intro h; exact h.2.2
  · have hb7 : ((frame.set i (frame.getD i 0 ^^^ 2 ^ j)).getD 1 0).testBit 7 = false := by
      by_cases hi1 : i = 1
      · subst hi1
        rw [getD_set_self _ _ _ hi, testBit_seven_xor_pow _ _ (fun h => hc ⟨rfl, h⟩)]
        exact hbit
      · rw [getD_set_other _ _ _ _ hi1]
        exact hbit
    rw [(isSuccess_iff_cases req _ hcomp2).1 (by rw [hst2]; exact hb7), hst2]
    constructor
    · intro h
      exact absurd h.1 (crcTrailerMatches_set_false frame i _ (by omega) hf hi hx
        (xor_pow_ne _ _) hcrc)
    · intro h
      exact absurd ⟨h.1, h.2.1⟩ hc

/-! ## Truncated requests, a flipped bit and the payload window -/

theorem ModbusMessage.new_length_max (L : Nat) :
    (ModbusMessage.new L)._length = max 5 (L % 256) := by
  rw [ModbusMessage.new_length]
  split <;> omega

/-- A run of at least five bytes in a buffer of five cells leaves the first five. -/
theorem ModbusMessage.addMany_five (L : Nat) (a0 a1 a2 a3 a4 : Nat) (rest : List Nat)
    (hcap : (ModbusMessage.new L)._length = 5) :
    ((ModbusMessage.new L).addMany (a0 :: a1 :: a2 :: a3 :: a4 :: rest))._index = 5 ∧
    ((ModbusMessage.new L).addMany (a0 :: a1 :: a2 :: a3 :: a4 :: rest)).stored =
      [a0 % 256, a1 % 256, a2 % 256, a3 % 256, a4 % 256] := by
  obtain ⟨a, b, _⟩ := ModbusMessage.addMany_take (a0 :: a1 :: a2 :: a3 :: a4 :: rest)
    (ModbusMessage.new L) (ModbusMessage.new_buffer_length L)
    (by rw [ModbusMessage.new_index]; omega)
  rw [hcap, ModbusMessage.new_index] at a b
  refine ⟨?_, ?_⟩
  · rw [b]
    simp only [List.length_cons]
    omega
  · rw [a]
    simp [ModbusMessage.stored, ModbusMessage.new_index]

/-- C35: the capacity of a request buffer is max(5, L mod 256) for the nominal length L
given to the constructor; so the requests that `writeMultHoldingRegisters` builds for 124
or 125 registers, `writeMultipleCoils` for 1969 to 2000 coils and
`readWriteMultipleRegisters` for a write count of 123 to 125 have a nominal length above
255, `getSize()` 5, and hold just their first five header bytes: no data, no CRC. -/
theorem oversize_requests_hold_five_header_bytes :
    (∀ (cls : RequestClass) (L : Nat), (ModbusRequest.new cls L)._length = max 5 (L % 256)) ∧
    (∀ (slave address count : Nat) (data : List Nat), slave < 256 → address < 65536 →
      (count = 124 ∨ count = 125) →
        255 < 9 + count * 2 ∧
        (ModbusRequest16 slave address count data).getSize = 5 ∧
        (ModbusRequest16 slave address count data).stored =
          [slave, 0x10, address / 256, address % 256, count / 256]) ∧
    (∀ (slave address count : Nat) (values : List Bool), slave < 256 → address < 65536 →
      (1969 ≤ count ∧ count ≤ 2000) →
        255 < 9 + (count + 7) / 8 ∧
        (ModbusRequest0F slave address count values).getSize = 5 ∧
        (ModbusRequest0F slave address count values).stored =
          [slave, 0x0F, address / 256, address % 256, count / 256]) ∧
    (∀ (slave readAddress readCount writeAddress writeCount : Nat) (writeData : List Nat),
      slave < 256 → readAddress < 65536 → readCount < 65536 →
      (123 ≤ writeCount ∧ writeCount ≤ 125) →
        255 < 11 + writeCount * 2 ∧
        (ModbusRequest17 slave readAddress readCount writeAddress writeCount
          writeData).getSize = 5 ∧
        (ModbusRequest17 slave readAddress readCount writeAddress writeCount
          writeData).stored =
          [slave, 0x17, readAddress / 256, readAddress % 256, readCount / 256]) := by
  refine ⟨fun _ L => ModbusMessage.new_length_max L, ?_, ?_, ?_⟩
  · intro slave address count data hs ha hc
    have hcap : (ModbusMessage.new (9 + count * 2))._length = 5 := by
      rw [ModbusMessage.new_length_max]; omega
    have hrun := request16_run slave address count data
    rw [ModbusMessage.addManyWithCRC_eq] at hrun
    obtain ⟨h1, h2⟩ := ModbusMessage.addMany_five (9 + count * 2) slave
      esp32Modbus.WRITE_MULT_REGISTERS (high address) (low address) (high count) _ hcap
    refine ⟨by omega, ?_, ?_⟩
    · simp only [ModbusMessage.getSize]
      rw [hrun]
      exact h1
    · unfold ModbusMessage.stored at h2 ⊢
      rw [hrun]
      refine h2.trans ?_
      have e1 : slave % 256 = slave := Nat.mod_eq_of_lt hs
      have e2 : address / 256 % 256 = address / 256 := Nat.mod_eq_of_lt (by omega)
      have e3 : count / 256 % 256 = count / 256 := Nat.mod_eq_of_lt (by omega)
      simp [low_eq_mod, high_eq_div_mod, e1, e2, e3, esp32Modbus.WRITE_MULT_REGISTERS]
  · intro slave address count values hs ha hc
    have hcap : (ModbusMessage.new (9 + (count + 7) / 8))._length = 5 := by
      rw [ModbusMessage.new_length_max]; omega
    have hrun := request0F_run slave address count values
    rw [ModbusMessage.addManyWithCRC_eq] at hrun
    obtain ⟨h1, h2⟩ := ModbusMessage.addMany_five (9 + (count + 7) / 8) slave
      esp32Modbus.WRITE_MULT_COILS (high address) (low address) (high count) _ hcap
    refine ⟨by omega, ?_, ?_⟩
    · simp only [ModbusMessage.getSize]
      rw [hrun]
      exact h1
    · unfold ModbusMessage.stored at h2 ⊢
      rw [hrun]
      refine h2.trans ?_
      have e1 : slave % 256 = slave := Nat.mod_eq_of_lt hs
      have e2 : address / 256 % 256 = address / 256 := Nat.mod_eq_of_lt (by omega)
      have e3 : count / 256 % 256 = count / 256 := Nat.mod_eq_of_lt (by omega)
      simp [low_eq_mod, high_eq_div_mod, e1, e2, e3, esp32Modbus.WRITE_MULT_COILS]
  · intro slave ra rc wa wc wd hs hra hrc hwc
    have hcap : (ModbusMessage.new (11 + wc * 2))._length = 5 := by
      rw [ModbusMessage.new_length_max]; omega
    have hrun := request17_run slave ra rc wa wc wd
    obtain ⟨h1, h2⟩ := ModbusMessage.addMany_five (11 + wc * 2) slave
      esp32Modbus.READ_WRITE_MULT_REGISTERS (high ra) (low ra) (high rc)
      ([low rc, high wa, low wa, high wc, low wc, wc * 2] ++
        (List.range wc).flatMap (fun i => [high (wd.getD i 0), low (wd.getD i 0)])) hcap
    have hl := (ModbusMessage.addMany_length
      ([slave, esp32Modbus.READ_WRITE_MULT_REGISTERS, high ra, low ra, high rc, low rc,
        high wa, low wa, high wc, low wc, wc * 2] ++
        (List.range wc).flatMap (fun i => [high (wd.getD i 0), low (wd.getD i 0)]))
      (ModbusMessage.new (11 + wc * 2))).1
    have hfull : ∀ v : Nat, ((ModbusMessage.new (11 + wc * 2)).addMany
        ([slave, esp32Modbus.READ_WRITE_MULT_REGISTERS, high ra, low ra, high rc, low rc,
          high wa, low wa, high wc, low wc, wc * 2] ++
          (List.range wc).flatMap (fun i => [high (wd.getD i 0), low (wd.getD i 0)]))).add v =
        (ModbusMessage.new (11 + wc * 2)).addMany
        ([slave, esp32Modbus.READ_WRITE_MULT_REGISTERS, high ra, low ra, high rc, low rc,
          high wa, low wa, high wc, low wc, wc * 2] ++
          (List.range wc).flatMap (fun i => [high (wd.getD i 0), low (wd.getD i 0)])) := by
      intro v
      apply ModbusMessage.add_full
      rw [hl, hcap]
      exact le_of_eq h1.symm
    rw [hfull, hfull] at hrun
    refine ⟨by omega, ?_, ?_⟩
    · simp only [ModbusMessage.getSize]
      rw [hrun]
      exact h1
    · unfold ModbusMessage.stored at h2 ⊢
      rw [hrun]
      refine h2.trans ?_
      have e1 : slave % 256 = slave := Nat.mod_eq_of_lt hs
      have e2 : ra / 256 % 256 = ra / 256 := Nat.mod_eq_of_lt (by omega)
      have e3 : rc / 256 % 256 = rc / 256 := Nat.mod_eq_of_lt (by omega)
      simp [low_eq_mod, high_eq_div_mod, e1, e2, e3, esp32Modbus.READ_WRITE_MULT_REGISTERS]

/-- Witness for C35: `writeMultHoldingRegisters` with 124 registers is accepted on a
started instance, and the request it enqueues holds the five bytes 11 10 00 01 00. -/
theorem oversize_requests_hold_five_header_bytes_witness :
    (0x11 < 256 ∧ 0x0001 < 65536 ∧ (124 = 124 ∨ 124 = 125)) ∧
    (esp32ModbusRTU.startedInstance.writeMultHoldingRegisters 0x11 0x0001 124
      (some (List.replicate 248 0))).1 = true ∧
    (ModbusRequest16 0x11 0x0001 124 (List.replicate 248 0)).stored =
      [0x11, 0x10, 0x0001 / 256, 0x0001 % 256, 124 / 256] :=
  ⟨by decide, by decide,
    (oversize_requests_hold_five_header_bytes.2.1 0x11 0x0001 124 (List.replicate 248 0)
      (by decide) (by decide) (by decide)).2.2⟩

/-- C31 (failing input): the echo 11 05 00 AC FF 00 4E 8B answers the write of coil
0x00AC of slave 0x11 and has the expected length 8; `isSuccess` is true for it. With bit
7 of its byte 1 flipped, 11 85 00 AC FF 00 4E 8B, `isSuccess` is true again: the frame
counts as an exception response with the code 0x00 in byte 2, which is `SUCCESS`. -/
theorem function_code_bit_flip_is_accepted :
    [0x11, 0x05, 0x00, 0xAC, 0xFF, 0x00, 0x4E, 0x8B].length =
      (ModbusRequest05 0x11 0x00AC true).responseLength ∧
    (esp32ModbusRTU.receiveBytes (ModbusRequest05 0x11 0x00AC true)
      [0x11, 0x05, 0x00, 0xAC, 0xFF, 0x00, 0x4E, 0x8B]).isSuccess.1 = true ∧
    [0x11, 0x05, 0x00, 0xAC, 0xFF, 0x00, 0x4E, 0x8B].set 1 (0x05 ^^^ (1 <<< 7)) =
      [0x11, 0x85, 0x00, 0xAC, 0xFF, 0x00, 0x4E, 0x8B] ∧
    (esp32ModbusRTU.receiveBytes (ModbusRequest05 0x11 0x00AC true)
      [0x11, 0x85, 0x00, 0xAC, 0xFF, 0x00, 0x4E, 0x8B]).isComplete = true ∧
    (esp32ModbusRTU.receiveBytes (ModbusRequest05 0x11 0x00AC true)
      [0x11, 0x85, 0x00, 0xAC, 0xFF, 0x00, 0x4E, 0x8B]).isSuccess.1 = true ∧
    (esp32ModbusRTU.receiveBytes (ModbusRequest05 0x11 0x00AC true)
      [0x11, 0x85, 0x00, 0xAC, 0xFF, 0x00, 0x4E, 0x8B]).isSuccess.2.getError =
        esp32Modbus.SUCCESS := by
  decide

/-- C32 (failing input): the echo 11 10 10 00 00 02 47 98 answers the write of two
registers from address 0x1000 of slave 0x11; `isSuccess` is true, the payload offset is
3 and `getByteCount()` is 0x10 = 16, so the window ends at 19, past `getSize() - 2 = 6`
and past the 8 bytes of the buffer. The answer 11 03 FF AE 41 56 52 43 40 20 A2 to a
read of three registers is a success too, with a reported length of 255. -/
theorem payload_window_exceeds_frame :
    (esp32ModbusRTU.receiveBytes (ModbusRequest16 0x11 0x1000 2 [0x00, 0x0A, 0x01, 0x02])
      [0x11, 0x10, 0x10, 0x00, 0x00, 0x02, 0x47, 0x98]).isSuccess.1 = true ∧
    (esp32ModbusRTU.receiveBytes (ModbusRequest16 0x11 0x1000 2 [0x00, 0x0A, 0x01, 0x02])
      [0x11, 0x10, 0x10, 0x00, 0x00, 0x02, 0x47, 0x98]).getSize = 8 ∧
    (esp32ModbusRTU.receiveBytes (ModbusRequest16 0x11 0x1000 2 [0x00, 0x0A, 0x01, 0x02])
      [0x11, 0x10, 0x10, 0x00, 0x00, 0x02, 0x47, 0x98]).getDataOffset = 3 ∧
    (esp32ModbusRTU.receiveBytes (ModbusRequest16 0x11 0x1000 2 [0x00, 0x0A, 0x01, 0x02])
      [0x11, 0x10, 0x10, 0x00, 0x00, 0x02, 0x47, 0x98]).getByteCount = 16 ∧
    ¬ ((esp32ModbusRTU.receiveBytes (ModbusRequest16 0x11 0x1000 2 [0x00, 0x0A, 0x01, 0x02])
        [0x11, 0x10, 0x10, 0x00, 0x00, 0x02, 0x47, 0x98]).getDataOffset +
      (esp32ModbusRTU.receiveBytes (ModbusRequest16 0x11 0x1000 2 [0x00, 0x0A, 0x01, 0x02])
        [0x11, 0x10, 0x10, 0x00, 0x00, 0x02, 0x47, 0x98]).getByteCount ≤
      (esp32ModbusRTU.receiveBytes (ModbusRequest16 0x11 0x1000 2 [0x00, 0x0A, 0x01, 0x02])
        [0x11, 0x10, 0x10, 0x00, 0x00, 0x02, 0x47, 0x98]).getSize - 2) ∧
    ((esp32ModbusRTU.startedInstance.onData true).dispatch
      (ModbusRequest16 0x11 0x1000 2 [0x00, 0x0A, 0x01, 0x02])
      (esp32ModbusRTU.receiveBytes (ModbusRequest16 0x11 0x1000 2 [0x00, 0x0A, 0x01, 0x02])
        [0x11, 0x10, 0x10, 0x00, 0x00, 0x02, 0x47, 0x98]) =
      [esp32ModbusRTU.Event.onData 0x11 0x10 0x1000 [0x00, 0x00, 0x02, 0x47, 0x98] 16]) ∧
    (esp32ModbusRTU.receiveBytes (ModbusRequest03 0x11 0x006B 3)
      [0x11, 0x03, 0xFF, 0xAE, 0x41, 0x56, 0x52, 0x43, 0x40, 0x20, 0xA2]).isSuccess.1 = true ∧
    (esp32ModbusRTU.receiveBytes (ModbusRequest03 0x11 0x006B 3)
      [0x11, 0x03, 0xFF, 0xAE, 0x41, 0x56, 0x52, 0x43, 0x40, 0x20, 0xA2]).getByteCount = 255 ∧
    (ModbusRequest03 0x11 0x006B 3).responseLength - 5 = 6 := by
  decide

end esp32ModbusRTUInternals

namespace esp32ModbusRTU

/-! ## Echoes of the multiple writes; priorities outside the four classes -/

/-- The dispatch on success with a data handler set. -/
theorem dispatch_success (s : esp32ModbusRTU) (request : ModbusRequest)
    (response : ModbusResponse) (hD : s._onData = true)
    (hok : response.isSuccess.1 = true) :
    s.dispatch request response =
      [Event.onData response.getSlaveAddress response.getFunctionCode request.getAddress
        response.getData response.getByteCount] := by
  unfold dispatch
  rw [hD]
  rcases hs : response.isSuccess with ⟨ok, resp⟩
  rw [hs] at hok
  simp only at hok
  subst hok
  have hresp : resp = { response with _error := resp._error } := by
    have : response.isSuccess.2 = resp := by rw [hs]
    rw [← this]
    rfl
  rw [hresp]
  rfl

/-- C38: for every request of FC 0x0F or 0x10 (expected response length 8) and the echo
of 8 bytes that answers it, slave, function code, start address, count, CRC, `isSuccess`
is true, the payload reported to the data handler starts at offset 3 of the frame, and
its reported length is the byte at offset 2, the high byte of the echoed start address. -/
theorem multi_write_echo_length_is_address_high_byte (self : esp32ModbusRTU)
    (req : ModbusRequest) (slave fc address count : Nat)
    (hfc : fc = 0x0F ∨ fc = 0x10) (hs : slave < 256) (ha : address < 65536)
    (hn : count < 65536) (hslave : req.getSlaveAddress = slave)
    (hreqfc : req.getFunctionCode = fc) (hrl : req.responseLength = 8) :
    (receiveBytes req
      [slave, fc, address / 256, address % 256, count / 256, count % 256,
        CRC16 [slave, fc, address / 256, address % 256, count / 256, count % 256] 6 % 256,
        CRC16 [slave, fc, address / 256, address % 256, count / 256, count % 256] 6 / 256]
      ).isSuccess.1 = true ∧
    (receiveBytes req
      [slave, fc, address / 256, address % 256, count / 256, count % 256,
        CRC16 [slave, fc, address / 256, address % 256, count / 256, count % 256] 6 % 256,
        CRC16 [slave, fc, address / 256, address % 256, count / 256, count % 256] 6 / 256]
      ).getDataOffset = 3 ∧
    (receiveBytes req
      [slave, fc, address / 256, address % 256, count / 256, count % 256,
        CRC16 [slave, fc, address / 256, address % 256, count / 256, count % 256] 6 % 256,
        CRC16 [slave, fc, address / 256, address % 256, count / 256, count % 256] 6 / 256]
      ).getByteCount = address / 256 ∧
    (self._onData = true →
      self.dispatch req (receiveBytes req
        [slave, fc, address / 256, address % 256, count / 256, count % 256,
          CRC16 [slave, fc, address / 256, address % 256, count / 256, count % 256] 6 % 256,
          CRC16 [slave, fc, address / 256, address % 256, count / 256, count % 256] 6 / 256]) =
      [Event.onData slave fc req.getAddress
        [address % 256, count / 256, count % 256,
          CRC16 [slave, fc, address / 256, address % 256, count / 256, count % 256] 6 % 256,
          CRC16 [slave, fc, address / 256, address % 256, count / 256, count % 256] 6 / 256]
        (address / 256)]) := by
  generalize hcrc : CRC16 [slave, fc, address / 256, address % 256, count / 256,
    count % 256] 6 = crc
  have hcl : crc < 65536 := by rw [← hcrc]; exact CRC16_lt _ _
  have hfc256 : fc < 256 := by rcases hfc with h | h <;> omega
  have hbytes : ∀ b ∈ [slave, fc, address / 256, address % 256, count / 256, count % 256,
      crc % 256, crc / 256], b < 256 := by
    intro b hb
    simp only [List.mem_cons, List.mem_singleton, List.not_mem_nil, or_false] at hb
    rcases hb with h | h | h | h | h | h | h | h <;> omega
  obtain ⟨hbuf, hidx, hst, hcomp⟩ := receiveBytes_exact req
    [slave, fc, address / 256, address % 256, count / 256, count % 256, crc % 256, crc / 256]
    (by rw [hrl]; rfl) (by omega) hbytes
  have hbit : ((receiveBytes req [slave, fc, address / 256, address % 256, count / 256,
      count % 256, crc % 256, crc / 256]).stored.getD 1 0).testBit 7 = false := by
    rw [hst]
    rcases hfc with h | h
    · subst h
      show Nat.testBit 0x0F 7 = false
      decide
    · subst h
      show Nat.testBit 0x10 7 = false
      decide
  have htrail : crcTrailerMatches [slave, fc, address / 256, address % 256, count / 256,
      count % 256, crc % 256, crc / 256] := by
    have := crcTrailerMatches_append [slave, fc, address / 256, address % 256, count / 256,
      count % 256] crc hcrc.symm
    have e1 : low crc % 256 = crc % 256 := by rw [low_eq_mod, Nat.mod_mod]
    have e2 : high crc % 256 = crc / 256 := by
      rw [high_eq_div_mod, Nat.mod_mod, Nat.mod_eq_of_lt (by omega)]
    rw [e1, e2] at this
    exact this
  have hok : (receiveBytes req [slave, fc, address / 256, address % 256, count / 256,
      count % 256, crc % 256, crc / 256]).isSuccess.1 = true := by
    rw [((isSuccess_iff_cases req _ hcomp).1 hbit), hst]
    exact ⟨htrail, hslave.symm, hreqfc.symm⟩
  have hnw : ¬ (fc = esp32Modbus.WRITE_COIL ∨ fc = esp32Modbus.WRITE_HOLD_REGISTER) := by
    simp only [esp32Modbus.WRITE_COIL, esp32Modbus.WRITE_HOLD_REGISTER]
    omega
  have hgfc : (receiveBytes req [slave, fc, address / 256, address % 256, count / 256,
      count % 256, crc % 256, crc / 256]).getFunctionCode = fc := by
    unfold ModbusResponse.getFunctionCode
    rw [hbuf]
    rfl
  have hoff : (receiveBytes req [slave, fc, address / 256, address % 256, count / 256,
      count % 256, crc % 256, crc / 256]).getDataOffset = 3 := by
    unfold ModbusResponse.getDataOffset
    simp only [hgfc, if_neg hnw]
  have hbc : (receiveBytes req [slave, fc, address / 256, address % 256, count / 256,
      count % 256, crc % 256, crc / 256]).getByteCount = address / 256 := by
    unfold ModbusResponse.getByteCount
    simp only [hgfc, if_neg hnw]
    rw [hbuf]
    rfl
  refine ⟨hok, hoff, hbc, ?_⟩
  intro hD
  rw [dispatch_success self req _ hD hok, hbc, hgfc]
  have hsl : (receiveBytes req [slave, fc, address / 256, address % 256, count / 256,
      count % 256, crc % 256, crc / 256]).getSlaveAddress = slave := by
    unfold ModbusResponse.getSlaveAddress
    rw [hbuf]
    rfl
  have hdata : (receiveBytes req [slave, fc, address / 256, address % 256, count / 256,
      count % 256, crc % 256, crc / 256]).getData =
      [address % 256, count / 256, count % 256, crc % 256, crc / 256] := by
    unfold ModbusResponse.getData
    rw [hoff, hbuf]
    rfl
  rw [hsl, hdata]

/-- Witness for C38: two registers written from address 0x1000 of slave 0x11; the echo
11 10 10 00 00 02 47 98 is reported with the length 0x10. -/
theorem multi_write_echo_length_is_address_high_byte_witness :
    ((0x10 = 0x0F ∨ 0x10 = 0x10) ∧ 0x11 < 256 ∧ 0x1000 < 65536 ∧ 2 < 65536) ∧
    ((ModbusRequest16 0x11 0x1000 2 [0x00, 0x0A, 0x01, 0x02]).getSlaveAddress = 0x11 ∧
      (ModbusRequest16 0x11 0x1000 2 [0x00, 0x0A, 0x01, 0x02]).getFunctionCode = 0x10 ∧
      (ModbusRequest16 0x11 0x1000 2 [0x00, 0x0A, 0x01, 0x02]).responseLength = 8) ∧
    (receiveBytes (ModbusRequest16 0x11 0x1000 2 [0x00, 0x0A, 0x01, 0x02])
      [0x11, 0x10, 0x1000 / 256, 0x1000 % 256, 2 / 256, 2 % 256,
        CRC16 [0x11, 0x10, 0x1000 / 256, 0x1000 % 256, 2 / 256, 2 % 256] 6 % 256,
        CRC16 [0x11, 0x10, 0x1000 / 256, 0x1000 % 256, 2 / 256, 2 % 256] 6 / 256]
      ).getByteCount = 0x1000 / 256 ∧
    (receiveBytes (ModbusRequest16 0x11 0x1000 2 [0x00, 0x0A, 0x01, 0x02])
      [0x11, 0x10, 0x10, 0x00, 0x00, 0x02, 0x47, 0x98]).getByteCount = 0x10 :=
  ⟨by decide, by decide,
    (multi_write_echo_length_is_address_high_byte startedInstance
      (ModbusRequest16 0x11 0x1000 2 [0x00, 0x0A, 0x01, 0x02]) 0x11 0x10 0x1000 2
      (by decide) (by decide) (by decide) (by decide) (by decide) (by decide)
      (by decide)).2.2.1,
    by decide⟩

/-- C39: every explicit-priority submit whose priority value is 4 or more returns
false and leaves the instance, its four queues included, as it was. -/
theorem explicit_priority_out_of_range_is_rejected (self : esp32ModbusRTU) (call : Submit)
    (priority : Nat) (harg : call.priorityArg = some priority) (hp : 4 ≤ priority) :
    (self.submit call).1 = false ∧ (self.submit call).2 = self ∧
    (∀ p : Fin 4, (self.submit call).2._queues p = self._queues p) ∧
    (∀ p : Fin 4, (self.submit call).2.waiting p = self.waiting p) := by
  have hres : self.submit call = (false, self) := by
    rcases submit_cases self call with h | h
    · exact h
    · rw [h]
      have hpr : call.request.getPriority = priority := by
        unfold ModbusRequest.getPriority
        rw [Submit.request_priority, harg]
        rfl
      unfold _addToQueue
      simp only
      rw [dif_pos (by rw [hpr]; exact hp)]
  rw [hres]
  exact ⟨rfl, rfl, fun _ => rfl, fun _ => rfl⟩

/-- Witness for C39: a read of holding registers submitted with the priority value 4. -/
theorem explicit_priority_out_of_range_is_rejected_witness :
    ((Submit.readHoldingRegistersWithPriority 0x11 0x006B 3 4).priorityArg = some 4 ∧ 4 ≤ 4) ∧
    (startedInstance.readHoldingRegistersWithPriority 0x11 0x006B 3 4).1 = false ∧
    (startedInstance.readHoldingRegistersWithPriority 0x11 0x006B 3 4).2 = startedInstance :=
  ⟨⟨rfl, by decide⟩,
    (explicit_priority_out_of_range_is_rejected startedInstance
      (Submit.readHoldingRegistersWithPriority 0x11 0x006B 3 4) 4 rfl (by decide)).1,
    (explicit_priority_out_of_range_is_rejected startedInstance
      (Submit.readHoldingRegistersWithPriority 0x11 0x006B 3 4) 4 rfl (by decide)).2.1⟩

end esp32ModbusRTU
